import Mathlib

/-!
# Rkernel: REPL state machine, interrupt routing and the code-execution turn

A shallow embedding of `src/ExecuteCode.cpp` and of the members of
`src/RPIServiceImpl.h` it reads and writes, followed by `extractSlots` of
`src/RS4Class.cpp` and the members and methods of
`src/graphics/REagerGraphicsDevice.cpp`.

* Mutable members and globals are fields of `Service`; every function is a state
  transformer `Exec W α` that also returns what it pushed to the outbound channels.
* The R interpreter, the debugger and the source-file manager are not part of the
  embedded sources: they are the operations of a `Collab W` over an arbitrary
  collaborator state `W`.
* C++ exceptions are the `raised` completion; a handler that is still waiting inside a
  nested event loop is the `blocked` completion.
-/

namespace Rkernel

/-! ## Data model -/

/-- The enumeration `ReplState` of `RPIServiceImpl.h`, in declaration order. -/
inductive ReplState
  | PROMPT
  | DEBUG_PROMPT
  | READ_LINE
  | REPL_BUSY
  | CHILD_PROCESS
  | SUBPROCESS_INPUT
  deriving DecidableEq, Repr

/-- The two console streams (`OutputType` of `IO.h`). -/
inductive OutputType
  | STDOUT
  | STDERR
  deriving DecidableEq, Repr

/-- One captured frame of the debugger stack; its content is not inspected here. -/
structure RDebuggerStackFrame where
  id : Nat
  deriving DecidableEq, Repr

/-- The `oneof` cause of the `ExceptionInfo` message; `unset` is the freshly built message. -/
inductive ExceptionCause
  | unset
  | simpleError
  | packageNotFound (package : String)
  | interrupted
  deriving DecidableEq, Repr

/-- The `ExceptionInfo` message filled by `exceptionToProto`. -/
structure ExceptionInfo where
  message : String
  cause : ExceptionCause
  deriving DecidableEq, Repr

/-- The payload of a debug-prompt event: the `changed` flag and the stack snapshot. -/
structure DebugPrompt where
  changed : Bool
  stack : List RDebuggerStackFrame
  deriving DecidableEq, Repr

/-- The tagged variant `AsyncEvent`, restricted to the alternatives `ExecuteCode.cpp` builds. -/
inductive AsyncEvent
  | busy
  | prompt
  | debugPrompt (p : DebugPrompt)
  | requestReadLn (text : String)
  | exception (info : ExceptionInfo) (stack : List RDebuggerStackFrame)
  deriving DecidableEq, Repr

/-- One message written to the `ServerWriter<ExecuteCodeResponse>` of a turn. -/
inductive ExecuteCodeResponse
  | output (type : OutputType) (text : String)
  | exception (what : String)
  deriving DecidableEq, Repr

/-- The R condition object carried by an `RError`, as far as `exceptionToProto` reads it:
its class vector (`Rf_inherits`), the result of `RI->conditionMessage` (`none` when that
call itself raises an `RError`) and the text of its `package` field. -/
structure Condition where
  classes : List String
  conditionMessage : Option String
  package : String
  deriving DecidableEq, Repr

/-- The exception `RError`: `what()` and `getRError()`. -/
structure RError where
  what : String
  getRError : Condition
  deriving DecidableEq, Repr

/-- What a C++ call can throw, by the `catch` clause of `executeCode` that receives it. -/
inductive Thrown
  | rError (e : RError)
  | rInterrupted (what : String)
  | unrecognised (tag : Nat)
  deriving DecidableEq, Repr

/-- The closures handed to `eventLoopExecute` in `ExecuteCode.cpp`, one constructor per
lambda: the two of `replInterrupt` and the one of `sendReadLn` with its captured text. -/
inductive LoopAction
  | interruptReadLine
  | interruptSubprocess
  | deliverLine (text : String)
  deriving DecidableEq, Repr

/-- The output handlers `executeCode` installs: `replOutputHandler` and its own lambda
(which captures `streamOutput`); `outer` is whatever handler was active before. -/
inductive OutputHandler
  | outer
  | repl
  | turn (streamOutput : Bool)
  deriving DecidableEq, Repr

/-- The members of `RPIServiceImpl` and the globals that `ExecuteCode.cpp` touches.
`eventHandlerRunning` is the value `isEventHandlerRunning()` returns, `eventLoopQueue` the
actions posted by `eventLoopExecute` and not yet run, `outputHandler` the handler
`myWriteConsoleEx` currently routes to, `world` the state of the collaborators. -/
structure Service (W : Type) where
  replState : ReplState
  isReplOutput : Bool
  subprocessActive : Bool
  subprocessInterrupt : Bool
  lastErrorStack : List RDebuggerStackFrame
  R_interrupts_pending : Int
  eventHandlerRunning : Bool
  eventLoopQueue : List LoopAction
  outputHandler : OutputHandler
  world : W
  deriving DecidableEq, Repr

/-- The state a freshly constructed service starts in (`replState = REPL_BUSY`,
every flag false). -/
def Service.initial {W : Type} (w : W) : Service W :=
  { replState := .REPL_BUSY
    isReplOutput := false
    subprocessActive := false
    subprocessInterrupt := false
    lastErrorStack := []
    R_interrupts_pending := 0
    eventHandlerRunning := false
    eventLoopQueue := []
    outputHandler := .outer
    world := w }

/-! ## Calls handed to the interpreter -/

/-- The type tag of an R object, as far as `executeCodeImpl` tests it. -/
inductive SEXPTYPE
  | EXPRSXP
  | ENVSXP
  | OTHERSXP
  deriving DecidableEq, Repr

/-- An R object used as evaluation environment: its type tag and identity. -/
structure RObj where
  type : SEXPTYPE
  id : Nat
  deriving DecidableEq, Repr

/-- A source reference; `doNotStopFlag` is the attribute `wrapWithSrcref` sets on the
clone it attaches to a print call. -/
structure Srcref where
  location : Nat
  doNotStopFlag : Bool
  deriving DecidableEq, Repr

/-- The calls `executeCodeImpl` builds around a parsed expression. `parsed n` is the
opaque expression `exprs[i]`, `value n` the opaque `result["value"]`. -/
inductive Code
  | parsed (e : Nat)
  | value (v : Nat)
  | braced (body : Code) (first second : Srcref)
  | expression (body : Code)
  | wrapEval (body : Code) (env : RObj) (isDebug : Bool)
  | withReplExceptionHandler (body : Code)
  | withVisible (body : Code)
  | print (arg : Code)
  | printWrapper (body : Code) (env : RObj) (isDebug : Bool)
  deriving DecidableEq, Repr

/-- The object `safeEval` returns, as far as it is read: `result["value"]` and
`asBool(result["visible"])`. -/
structure EvalValue where
  value : Nat
  visible : Bool
  deriving DecidableEq, Repr

/-- The object `parseSourceFile` returns: its type tag, its elements and the block
source references (`getBlockSrcrefs`), `none` standing for `R_NilValue`. -/
structure ExprVector where
  type : SEXPTYPE
  elems : List Nat
  srcrefs : List (Option Srcref)
  deriving DecidableEq, Repr

/-- How a call into a collaborator ended: with a value or with an exception. -/
inductive Outcome (α : Type)
  | ok (a : α)
  | threw (t : Thrown)
  deriving DecidableEq, Repr

/-- One `safeEval` call of `executeCodeImpl`: the iteration it belongs to, whether it is
the print call of that iteration, the call and environment passed, how it ended, and the
async events pushed while it ran. -/
structure EvalStep where
  index : Nat
  isPrint : Bool
  code : Code
  env : RObj
  outcome : Outcome EvalValue
  pushed : List AsyncEvent
  deriving DecidableEq, Repr

/-- Everything a piece of code sent outwards, per channel and in order: async events
pushed, responses written to the turn writer, chunks handed to `replOutputHandler`, text
that reached no handler of this file (`outer`), and the `safeEval` calls performed. -/
structure Out where
  asyncEvents : List AsyncEvent
  written : List ExecuteCodeResponse
  replOutput : List (OutputType × String)
  outerOutput : List (OutputType × String)
  evals : List EvalStep
  deriving DecidableEq, Repr

/-- Nothing sent. -/
def Out.empty : Out :=
  { asyncEvents := [], written := [], replOutput := [], outerOutput := [], evals := [] }

/-- Sequential composition of the outputs of two consecutive pieces of code. -/
def Out.append (a b : Out) : Out :=
  { asyncEvents := a.asyncEvents ++ b.asyncEvents
    written := a.written ++ b.written
    replOutput := a.replOutput ++ b.replOutput
    outerOutput := a.outerOutput ++ b.outerOutput
    evals := a.evals ++ b.evals }

/-- How a piece of embedded code ended. `blocked` is a call that has not returned: it is
waiting in a nested event loop that nothing has broken yet. -/
inductive Completion (α : Type)
  | ret (a : α)
  | raised (t : Thrown)
  | blocked
  deriving DecidableEq, Repr

/-- The result of running a piece of embedded code from a service state. -/
structure Ran (W : Type) (α : Type) where
  completion : Completion α
  service : Service W
  out : Out

/-- Embedded code: a function of the service state. -/
def Exec (W : Type) (α : Type) : Type := Service W → Ran W α

/-- Returning a value without touching anything. -/
def Exec.pure {W α : Type} (a : α) : Exec W α :=
  fun s => { completion := .ret a, service := s, out := Out.empty }

/-- Statement sequencing: the second part runs only when the first returned. -/
def Exec.bind {W α β : Type} (m : Exec W α) (f : α → Exec W β) : Exec W β :=
  fun s =>
    let r := m s
    match r.completion with
    | .ret a =>
      let r' := f a r.service
      { completion := r'.completion, service := r'.service, out := r.out.append r'.out }
    | .raised t => { completion := .raised t, service := r.service, out := r.out }
    | .blocked => { completion := .blocked, service := r.service, out := r.out }

instance {W : Type} : Monad (Exec W) where
  pure := Exec.pure
  bind := Exec.bind

/-- Reading the service state. -/
def getService {W : Type} : Exec W (Service W) :=
  fun s => { completion := .ret s, service := s, out := Out.empty }

/-- Updating the service state. -/
def modifyService {W : Type} (f : Service W → Service W) : Exec W Unit :=
  fun s => { completion := .ret (), service := f s, out := Out.empty }

/-! ## Channels and scoped assignment -/

/-- The call `asyncEvents.push(event)`. -/
def pushAsyncEvent {W : Type} (e : AsyncEvent) : Exec W Unit :=
  fun s => { completion := .ret (), service := s, out := { Out.empty with asyncEvents := [e] } }

/-- Modelled from the spec: `RPIServiceImpl::sendAsyncEvent` is declared in
`RPIServiceImpl.h` and defined outside the embedded sources. Events are produced on the
executor thread into the one async event channel, so it pushes onto `asyncEvents`. -/
def sendAsyncEvent {W : Type} (e : AsyncEvent) : Exec W Unit :=
  pushAsyncEvent e

/-- The call `writer->Write(response)`. -/
def writerWrite {W : Type} (r : ExecuteCodeResponse) : Exec W Unit :=
  fun s => { completion := .ret (), service := s, out := { Out.empty with written := [r] } }

/-- Where a chunk of console text goes under a given handler: `replOutputHandler` receives
it; the lambda of `executeCode` writes an output response when `streamOutput` holds and
drops the chunk otherwise. -/
def routeChunk (h : OutputHandler) (type : OutputType) (text : String) : Out :=
  match h with
  | .outer => { Out.empty with outerOutput := [(type, text)] }
  | .repl => { Out.empty with replOutput := [(type, text)] }
  | .turn streamOutput =>
    if streamOutput then
      { Out.empty with
        written := [.output (if type = .STDOUT then .STDOUT else .STDERR) text] }
    else Out.empty

/-- Routing of a sequence of chunks, in order. -/
def routeChunks (h : OutputHandler) : List (OutputType × String) → Out
  | [] => Out.empty
  | (type, text) :: rest => (routeChunk h type text).append (routeChunks h rest)

/-- Modelled from the spec: `myWriteConsoleEx` (`IO.h`) is outside the embedded sources.
The output router hands a chunk of emitted text to the handler that is active now. -/
def myWriteConsoleEx {W : Type} (text : String) (type : OutputType) : Exec W Unit :=
  fun s => { completion := .ret (), service := s, out := routeChunk s.outputHandler type text }

/-- Modelled from the spec: `util/ScopedAssign.h` is outside the embedded sources. A
scoped assignment stores `value` for the extent of `body` and puts the previous value
back on every exit path, normal return or exception. While `body` is still blocked the
scope has not been left and nothing is restored. -/
def scopedAssign {W α β : Type} (get : Service W → β) (set : β → Service W → Service W)
    (value : β) (body : Exec W α) : Exec W α :=
  fun s =>
    let oldValue := get s
    let r := body (set value s)
    match r.completion with
    | .blocked => r
    | _ => { r with service := set oldValue r.service }

/-- The instance `ScopedAssign<ReplState> withState(replState, value)`. -/
def withState {W α : Type} (value : ReplState) (body : Exec W α) : Exec W α :=
  scopedAssign (fun s => s.replState) (fun v s => { s with replState := v }) value body

/-- The instance `ScopedAssign<bool> withIsReplOutput(isReplOutput, value)`. -/
def withIsReplOutput {W α : Type} (value : Bool) (body : Exec W α) : Exec W α :=
  scopedAssign (fun s => s.isReplOutput) (fun v s => { s with isReplOutput := v }) value body

/-- Modelled from the spec: `WithOutputHandler` (`IO.h`) is outside the embedded sources.
Installing a handler overrides the active one for a dynamic scope and restores the
previous handler on every exit path. -/
def withOutputHandler {W α : Type} (h : OutputHandler) (body : Exec W α) : Exec W α :=
  scopedAssign (fun s => s.outputHandler) (fun v s => { s with outputHandler := v }) h body

/-- A `try` block with the handlers `handler`; a blocked body has not reached them. -/
def tryCatch {W α : Type} (body : Exec W α) (handler : Thrown → Exec W α) : Exec W α :=
  fun s =>
    let r := body s
    match r.completion with
    | .raised t =>
      let r' := handler t r.service
      { completion := r'.completion, service := r'.service, out := r.out.append r'.out }
    | _ => r

/-! ## The event loop and what is posted to it -/

/-- Modelled from the spec: `eventLoopExecute` (`EventLoop.h`) is outside the embedded
sources. Posting never blocks and never runs the action: it is appended to the queue the
active event loop pumps. -/
def eventLoopExecute {W : Type} (a : LoopAction) : Exec W Unit :=
  modifyService fun s => { s with eventLoopQueue := s.eventLoopQueue ++ [a] }

/-- The text left by `text.erase(std::find(text.begin(), text.end(), '\n'), text.end())`. -/
def eraseFromNewline (text : String) : String :=
  String.mk (text.data.takeWhile fun c => c != '\n')

/-- The bodies of the posted lambdas. The second component is the argument of
`breakEventLoop` when the body calls it. -/
def LoopAction.run {W : Type} : LoopAction → Service W → Service W × Option String
  | .interruptReadLine, s =>
    if s.replState = .READ_LINE then
      ({ s with R_interrupts_pending := 1 }, some "")
    else (s, none)
  | .interruptSubprocess, s =>
    if s.replState = .SUBPROCESS_INPUT && s.subprocessActive then
      ({ s with subprocessInterrupt := true }, some "")
    else (s, none)
  | .deliverLine text, s =>
    if s.replState = .READ_LINE then
      (s, some (eraseFromNewline text))
    else if s.replState = .SUBPROCESS_INPUT && !text.isEmpty then
      (s, some text)
    else (s, none)

/-- The method `RPIServiceImpl::replInterrupt`. -/
def replInterrupt {W : Type} : Exec W Unit := do
  let s ← getService
  if s.replState = .REPL_BUSY || s.eventHandlerRunning then
    modifyService fun s => { s with R_interrupts_pending := 1 }
  else if s.replState = .READ_LINE then
    eventLoopExecute .interruptReadLine
  else if s.replState = .SUBPROCESS_INPUT && s.subprocessActive then
    eventLoopExecute .interruptSubprocess
  else
    pure ()

/-- The method `RPIServiceImpl::sendReadLn`. -/
def sendReadLn {W : Type} (text : String) : Exec W Unit :=
  eventLoopExecute (.deliverLine text)

/-- What happens while a handler waits in the event loop: a caller thread runs
`replInterrupt` or `sendReadLn`, or the loop takes the oldest posted action and runs it. -/
inductive Tick
  | replInterrupt
  | sendReadLn (text : String)
  | pump
  deriving DecidableEq, Repr

/-- Modelled from the spec: `runEventLoop` and `breakEventLoop` (`EventLoop.h`) are outside
the embedded sources. The loop pumps the posted actions in posting order until one of
them calls `breakEventLoop(value)`, and then returns that value. The list is what happens
while the loop waits; when it is used up and no action has broken the loop, the loop is
still waiting (`blocked`). -/
def runEventLoop {W : Type} : List Tick → Exec W String
  | [], s => { completion := .blocked, service := s, out := Out.empty }
  | .replInterrupt :: rest, s => runEventLoop rest (replInterrupt s).service
  | .sendReadLn text :: rest, s => runEventLoop rest (sendReadLn text s).service
  | .pump :: rest, s =>
    match s.eventLoopQueue with
    | [] => runEventLoop rest s
    | a :: queue =>
      match a.run { s with eventLoopQueue := queue } with
      | (s', some value) => { completion := .ret value, service := s', out := Out.empty }
      | (s', none) => runEventLoop rest s'

/-! ## Collaborators -/

/-- How a call into the interpreter ended, and what it did meanwhile: the service state
it left (evaluation re-enters the service, for instance through `readLineHandler`), the
async events pushed and the console text emitted while it ran. -/
structure Called (W : Type) (α : Type) where
  outcome : Outcome α
  service : Service W
  asyncEvents : List AsyncEvent
  console : List (OutputType × String)

/-- The collaborators of `ExecuteCode.cpp` whose code is outside the embedded sources,
as arbitrary operations over their state `W`: the source-file manager
(`parseSourceFile`), the interpreter (`currentEnvironment`, `safeEval`) and the debugger
(`resetLastErrorStack`, `setCommand(CONTINUE)`, `getLastErrorStack`, `clearStack`,
`buildDebugPrompt`). -/
structure Collab (W : Type) where
  parseSourceFile : String → String → Int → W → Outcome ExprVector × W
  currentEnvironment : Service W → RObj
  safeEval : Code → RObj → Service W → Called W EvalValue
  resetLastErrorStack : W → W
  setCommandContinue : W → W
  getLastErrorStack : W → List RDebuggerStackFrame
  clearStack : W → W
  buildDebugPrompt : W → DebugPrompt

/-- A debugger call that only changes the debugger. -/
def modifyWorld {W : Type} (f : W → W) : Exec W Unit :=
  modifyService fun s => { s with world := f s.world }

/-- The call `sourceFileManager.parseSourceFile(code, sourceFileId, sourceFileLineOffset)`. -/
def parseSourceFile {W : Type} (I : Collab W) (code sourceFileId : String)
    (sourceFileLineOffset : Int) : Exec W ExprVector :=
  fun s =>
    match I.parseSourceFile code sourceFileId sourceFileLineOffset s.world with
    | (.ok exprs, w) =>
      { completion := .ret exprs, service := { s with world := w }, out := Out.empty }
    | (.threw t, w) =>
      { completion := .raised t, service := { s with world := w }, out := Out.empty }

/-- The call `safeEval(forEval, env)` of iteration `index`; `isPrint` tells the second call
of the iteration from the first. The console text emitted meanwhile goes to the handler
that was active when the call started. -/
def safeEval {W : Type} (I : Collab W) (index : Nat) (isPrint : Bool) (forEval : Code)
    (env : RObj) : Exec W EvalValue :=
  fun s =>
    let c := I.safeEval forEval env s
    { completion :=
        match c.outcome with
        | .ok v => .ret v
        | .threw t => .raised t
      service := c.service
      out :=
        ({ Out.empty with
            asyncEvents := c.asyncEvents
            evals := [{ index := index, isPrint := isPrint, code := forEval, env := env,
                        outcome := c.outcome, pushed := c.asyncEvents }] }).append
          (routeChunks s.outputHandler c.console) }

/-! ## `ExecuteCode.cpp` -/

/-- The function `exceptionToProto`: `proto` is the message it fills. -/
def exceptionToProto (e : Condition) (proto : ExceptionInfo) : ExceptionInfo :=
  if "interrupt" ∈ e.classes then
    { proto with cause := .interrupted, message := "Interrupted" }
  else
    let proto : ExceptionInfo :=
      match e.conditionMessage with
      | some m => { proto with message := m }
      | none => { proto with message := "Error" }
    if "packageNotFoundError" ∈ e.classes ∧ ¬ e.package.isEmpty then
      { proto with cause := .packageNotFound e.package }
    else
      { proto with cause := .simpleError }

/-- Modelled from the spec: `buildStackProto` is outside the embedded sources. A fault
event carries the captured stack, one entry per captured frame, in order. -/
def buildStackProto (stack : List RDebuggerStackFrame) : List RDebuggerStackFrame :=
  stack

/-- The fields of `ExecuteCodeRequest` that `executeCode` reads. -/
structure ExecuteCodeRequest where
  code : String
  sourceFileId : String
  sourceFileLineOffset : Int
  withEcho : Bool
  streamOutput : Bool
  isRepl : Bool
  isDebug : Bool
  resetDebugCommand : Bool
  deriving DecidableEq, Repr

/-- The constant `R_GlobalEnv`. -/
def R_GlobalEnv : RObj :=
  { type := .ENVSXP, id := 0 }

/-- The function `cloneSrcref`: a new vector with the same integers, source file and
class; other attributes are not copied. -/
def cloneSrcref (srcref : Srcref) : Srcref :=
  { location := srcref.location, doNotStopFlag := false }

/-- The function `wrapWithSrcref`. -/
def wrapWithSrcref (forEval : Code) (srcref : Option Srcref) (isPrint : Bool) : Code :=
  match srcref with
  | some r =>
    let second : Srcref :=
      if isPrint then { cloneSrcref r with doNotStopFlag := true } else r
    .expression (.braced forEval (cloneSrcref r) second)
  | none => .expression forEval

/-- Modelled from the spec: `getSrcref` (`RStuff/RUtil.h`) is outside the embedded sources.
It gives the source position attached to the `i`-th expression of the batch, `R_NilValue`
when there is none. -/
def getSrcref (srcrefs : List (Option Srcref)) (i : Nat) : Option Srcref :=
  (srcrefs.get? i).join

/-- The body of the `for` loop of `executeCodeImpl` for index `i`, where `e` is `exprs[i]`. -/
def executeCodeImpl.iteration {W : Type} (I : Collab W) (srcrefs : List (Option Srcref))
    (env : RObj) (withEcho isDebug withExceptionHandler : Bool) (i e : Nat) : Exec W Unit := do
  let forEval := Code.parsed e
  let srcref := getSrcref srcrefs i
  let forEval := wrapWithSrcref forEval srcref false
  let forEval := Code.wrapEval forEval env isDebug
  let forEval := if withExceptionHandler then Code.withReplExceptionHandler forEval else forEval
  let forEval := if withEcho then Code.withVisible forEval else forEval
  let result ← safeEval I i false forEval R_GlobalEnv
  if withEcho && result.visible then
    let forEval := Code.print (.value result.value)
    let forEval := wrapWithSrcref forEval srcref true
    let forEval := Code.printWrapper forEval env isDebug
    let forEval := if withExceptionHandler then Code.withReplExceptionHandler forEval else forEval
    let _ ← safeEval I i true forEval env
    pure ()
  else
    pure ()

/-- The `for` loop of `executeCodeImpl` from index `i` on; the list holds `exprs[i]`,
`exprs[i+1]`, ... up to the last element. -/
def executeCodeImpl.loop {W : Type} (I : Collab W) (srcrefs : List (Option Srcref))
    (env : RObj) (withEcho isDebug withExceptionHandler : Bool) :
    Nat → List Nat → Exec W Unit
  | _, [] => pure ()
  | i, e :: rest => do
    executeCodeImpl.iteration I srcrefs env withEcho isDebug withExceptionHandler i e
    executeCodeImpl.loop I srcrefs env withEcho isDebug withExceptionHandler (i + 1) rest

/-- The function `executeCodeImpl`. -/
def executeCodeImpl {W : Type} (I : Collab W) (exprs : ExprVector) (env : RObj)
    (withEcho isDebug withExceptionHandler : Bool) : Exec W Unit :=
  if exprs.type ≠ .EXPRSXP ∨ env.type ≠ .ENVSXP then
    pure ()
  else
    executeCodeImpl.loop I exprs.srcrefs env withEcho isDebug withExceptionHandler 0 exprs.elems

/-- The statements of the `try` block of `executeCode` that follow the scoped assignment
of `replState` (lines 74 to 83). -/
def executeCode.tryBody {W : Type} (I : Collab W) (request : ExecuteCodeRequest)
    (isRepl isDebug resetDebugCommand : Bool) : Exec W Unit := do
  (if isRepl then do
    pushAsyncEvent .busy
    modifyWorld I.resetLastErrorStack
    (if resetDebugCommand then modifyWorld I.setCommandContinue else pure ())
  else
    pure ())
  let expressions ←
    parseSourceFile I request.code request.sourceFileId request.sourceFileLineOffset
  let s ← getService
  executeCodeImpl I expressions (I.currentEnvironment s) request.withEcho isDebug isRepl

/-- The `try` block of `executeCode` (lines 73 to 83). -/
def executeCode.tryBlock {W : Type} (I : Collab W) (request : ExecuteCodeRequest)
    (isRepl isDebug resetDebugCommand : Bool) : Exec W Unit := do
  let s ← getService
  withState (if isRepl then .REPL_BUSY else s.replState)
    (executeCode.tryBody I request isRepl isDebug resetDebugCommand)

/-- The `catch` clauses of `executeCode` (lines 84 to 113); `writer` tells whether the
writer pointer is non-null. -/
def executeCode.handlers {W : Type} (I : Collab W) (writer isRepl : Bool) :
    Thrown → Exec W Unit
  | .rError e => do
    (if writer then writerWrite (.exception e.what) else pure ())
    (if isRepl then do
      let info := exceptionToProto e.getRError { message := "", cause := .unset }
      modifyService fun s => { s with lastErrorStack := I.getLastErrorStack s.world }
      let s ← getService
      sendAsyncEvent (.exception info (buildStackProto s.lastErrorStack))
    else
      myWriteConsoleEx ("\n" ++ e.what ++ "\n") .STDERR)
  | .rInterrupted what => do
    (if isRepl then
      sendAsyncEvent (.exception { message := "Interrupted", cause := .interrupted } [])
    else pure ())
    (if writer then writerWrite (.exception what) else pure ())
  | .unrecognised _ => pure ()

/-- The closing block of `executeCode` (lines 115 to 124). -/
def executeCode.closing {W : Type} (I : Collab W) (isRepl : Bool) : Exec W Unit := do
  if isRepl then
    let s ← getService
    if s.replState = .DEBUG_PROMPT then
      pushAsyncEvent (.debugPrompt { changed := false, stack := [] })
    else
      modifyWorld I.clearStack
      pushAsyncEvent .prompt
  else
    pure ()

/-- The work item `RPIServiceImpl::executeCode` hands to `executeOnMainThread`; `writer`
tells whether the writer pointer is non-null. -/
def executeCode {W : Type} (I : Collab W) (request : ExecuteCodeRequest) (writer : Bool) :
    Exec W Unit :=
  let streamOutput := request.streamOutput && writer
  let isRepl := request.isRepl
  let isDebug := isRepl && request.isDebug
  let resetDebugCommand := isDebug && request.resetDebugCommand
  withIsReplOutput (isRepl && !streamOutput) do
    let s ← getService
    withOutputHandler (if s.isReplOutput then .repl else .turn streamOutput) do
      tryCatch (executeCode.tryBlock I request isRepl isDebug resetDebugCommand)
        (executeCode.handlers I writer isRepl)
      executeCode.closing I isRepl

/-- The service state in which the `try` block of `executeCode` starts: the two scoped
variables declared before it (lines 61 and 62) are in force. -/
def executeCode.tryEntry {W : Type} (request : ExecuteCodeRequest) (writer : Bool)
    (s : Service W) : Service W :=
  let isReplOutput := request.isRepl && !(request.streamOutput && writer)
  { s with
    isReplOutput := isReplOutput
    outputHandler := if isReplOutput then .repl else .turn (request.streamOutput && writer) }

/-- The exception that leaves the `try` block of the turn, `none` when the block ends
normally: the fault the turn ends with. -/
def executeCode.thrown {W : Type} (I : Collab W) (request : ExecuteCodeRequest) (writer : Bool)
    (s : Service W) : Option Thrown :=
  match (executeCode.tryBlock I request request.isRepl (request.isRepl && request.isDebug)
      (request.isRepl && request.isDebug && request.resetDebugCommand)
      (executeCode.tryEntry request writer s)).completion with
  | .raised t => some t
  | _ => none

/-- The method `RPIServiceImpl::readLineHandler`; `runEventLoop` is the nested loop it
waits in. -/
def readLineHandler {W : Type} (runEventLoop : Exec W String) (text : String) :
    Exec W String := do
  let s ← getService
  if s.replState ≠ .REPL_BUSY then
    pure ""
  else
    pushAsyncEvent (.requestReadLn text)
    withState .READ_LINE do
      let result ← runEventLoop
      pushAsyncEvent .busy
      pure result

/-- The method `RPIServiceImpl::debugPromptHandler`; `runEventLoop` is the nested loop it
waits in. -/
def debugPromptHandler {W : Type} (I : Collab W) (runEventLoop : Exec W String) :
    Exec W Unit := do
  let s ← getService
  if s.replState ≠ .REPL_BUSY then
    pure ()
  else
    pushAsyncEvent (.debugPrompt (I.buildDebugPrompt s.world))
    withState .DEBUG_PROMPT do
      let _ ← runEventLoop
      pushAsyncEvent .busy

/-! ## Small instances used to evaluate the definitions -/

/-- A collaborator state for examples: the outcome of parsing, a script of the outcomes
of the coming `safeEval` calls, the stack the debugger captures when a call throws, and
the last-error stack it holds. -/
structure Script where
  parse : Outcome ExprVector
  evals : List (Outcome EvalValue)
  captured : List RDebuggerStackFrame
  lastError : List RDebuggerStackFrame
  deriving DecidableEq, Repr

/-- Collaborators that follow a `Script`: each `safeEval` call takes the next scripted
outcome (a visible value when the script is used up); when the outcome is an exception
the debugger records `captured` as its last-error stack. -/
def scripted : Collab Script :=
  { parseSourceFile := fun _ _ _ w => (w.parse, w)
    currentEnvironment := fun _ => { type := .ENVSXP, id := 1 }
    safeEval := fun _ _ s =>
      match s.world.evals with
      | [] =>
        { outcome := .ok { value := 0, visible := true }, service := s, asyncEvents := [],
          console := [] }
      | .ok v :: rest =>
        { outcome := .ok v, service := { s with world := { s.world with evals := rest } },
          asyncEvents := [], console := [] }
      | .threw t :: rest =>
        { outcome := .threw t
          service :=
            { s with world := { s.world with evals := rest, lastError := s.world.captured } }
          asyncEvents := [], console := [] }
    resetLastErrorStack := fun w => { w with lastError := [] }
    setCommandContinue := fun w => w
    getLastErrorStack := fun w => w.lastError
    clearStack := fun w => w
    buildDebugPrompt := fun _ => { changed := true, stack := [] } }

/-- The initial service state (`replState = REPL_BUSY`) while an R event handler runs. -/
def busyHandlerRunning : Service Unit :=
  { Service.initial () with eventHandlerRunning := true }

/-- A service idle at the prompt while an R event handler runs. -/
def promptHandlerRunning : Service Unit :=
  { Service.initial () with replState := .PROMPT, eventHandlerRunning := true }

/-- A service in `SUBPROCESS_INPUT` whose `subprocessActive` flag is false. -/
def subprocessInputInactive : Service Unit :=
  { Service.initial () with replState := .SUBPROCESS_INPUT }

/-- A service in `SUBPROCESS_INPUT` with an active subprocess while an R event handler
runs. -/
def subprocessInputHandlerRunning : Service Unit :=
  { Service.initial () with
    replState := .SUBPROCESS_INPUT, subprocessActive := true, eventHandlerRunning := true }

/-- A service in `SUBPROCESS_INPUT` with an active subprocess. -/
def subprocessInputActive : Service Unit :=
  { Service.initial () with replState := .SUBPROCESS_INPUT, subprocessActive := true }

/-! ## Traces of `executeCodeImpl` -/

/-- The arguments of one `executeCodeImpl` call besides the expressions themselves. -/
structure BatchArgs where
  srcrefs : List (Option Srcref)
  env : RObj
  withEcho : Bool
  isDebug : Bool
  withExceptionHandler : Bool
  deriving DecidableEq, Repr

/-- The call built for the evaluation of `exprs[i] = e` (lines 257 to 266). -/
def evalCall (b : BatchArgs) (i e : Nat) : Code :=
  let c := Code.wrapEval (wrapWithSrcref (.parsed e) (getSrcref b.srcrefs i) false) b.env b.isDebug
  let c := if b.withExceptionHandler then Code.withReplExceptionHandler c else c
  if b.withEcho then Code.withVisible c else c

/-- The call built for printing the value `value` of iteration `i` (lines 269 to 274). -/
def printCall (b : BatchArgs) (i value : Nat) : Code :=
  let c := Code.printWrapper
    (wrapWithSrcref (.print (.value value)) (getSrcref b.srcrefs i) true) b.env b.isDebug
  if b.withExceptionHandler then Code.withReplExceptionHandler c else c

/-- The record of the evaluation call of iteration `i`. -/
def evalStep (b : BatchArgs) (i e : Nat) (o : Outcome EvalValue) (pushed : List AsyncEvent) :
    EvalStep :=
  { index := i, isPrint := false, code := evalCall b i e, env := R_GlobalEnv, outcome := o,
    pushed := pushed }

/-- The record of the print call of iteration `i` for the evaluation result `v`. -/
def printStep (b : BatchArgs) (i : Nat) (v : EvalValue) (o : Outcome EvalValue)
    (pushed : List AsyncEvent) : EvalStep :=
  { index := i, isPrint := true, code := printCall b i v.value, env := b.env, outcome := o,
    pushed := pushed }

/-- The traces the loop of `executeCodeImpl` can leave from index `i` on over the remaining
expressions, with the completion each one comes with. -/
inductive LoopTrace (b : BatchArgs) : Nat → List Nat → List EvalStep → Completion Unit → Prop
  | done (i : Nat) : LoopTrace b i [] [] (.ret ())
  | evalThrew (i e : Nat) (es : List Nat) (t : Thrown) (p : List AsyncEvent) :
      LoopTrace b i (e :: es) [evalStep b i e (.threw t) p] (.raised t)
  | printThrew (i e : Nat) (es : List Nat) (v : EvalValue) (t : Thrown)
      (p p' : List AsyncEvent) :
      (b.withEcho && v.visible) = true →
      LoopTrace b i (e :: es) [evalStep b i e (.ok v) p, printStep b i v (.threw t) p']
        (.raised t)
  | silent (i e : Nat) (es : List Nat) (v : EvalValue) (p : List AsyncEvent)
      (tr : List EvalStep) (c : Completion Unit) :
      (b.withEcho && v.visible) = false →
      LoopTrace b (i + 1) es tr c →
      LoopTrace b i (e :: es) (evalStep b i e (.ok v) p :: tr) c
  | printed (i e : Nat) (es : List Nat) (v v' : EvalValue) (p p' : List AsyncEvent)
      (tr : List EvalStep) (c : Completion Unit) :
      (b.withEcho && v.visible) = true →
      LoopTrace b (i + 1) es tr c →
      LoopTrace b i (e :: es)
        (evalStep b i e (.ok v) p :: printStep b i v (.ok v') p' :: tr) c

/-- A run that is not blocked and whose async events are exactly the events pushed during
its `safeEval` calls, in order. -/
def Traced {W α : Type} (r : Ran W α) : Prop :=
  r.completion ≠ .blocked ∧ r.out.asyncEvents = (r.out.evals.map fun st => st.pushed).flatten

/-- A batch of three expressions, the second with a source reference. -/
def sampleBatch : ExprVector :=
  { type := .EXPRSXP
    elems := [10, 11, 12]
    srcrefs := [none, some { location := 7, doNotStopFlag := false }] }

/-- The environment the scripted collaborators report as current. -/
def sampleEnv : RObj :=
  { type := .ENVSXP, id := 1 }

/-- An ordinary error condition. -/
def sampleError : RError :=
  { what := "Error: boom"
    getRError :=
      { classes := ["simpleError", "error", "condition"], conditionMessage := some "boom",
        package := "" } }

/-- A script: the first expression yields a visible value that is printed, the evaluation
of the second raises `sampleError`. -/
def faultScript : Script :=
  { parse := .ok sampleBatch
    evals := [.ok { value := 1, visible := true }, .ok { value := 0, visible := false },
      .threw (.rError sampleError)]
    captured := [{ id := 3 }]
    lastError := [] }

/-- A script without faults: a visible value (printed), an invisible one, a visible one
(printed). -/
def quietScript : Script :=
  { parse := .ok sampleBatch
    evals := [.ok { value := 1, visible := true }, .ok { value := 0, visible := false },
      .ok { value := 2, visible := false }, .ok { value := 3, visible := true },
      .ok { value := 0, visible := false }]
    captured := []
    lastError := [] }

/-- The arguments of the sample `executeCodeImpl` calls: echo on, no debugging, REPL
exception handler on. -/
def sampleArgs : BatchArgs :=
  { srcrefs := sampleBatch.srcrefs, env := sampleEnv, withEcho := true, isDebug := false,
    withExceptionHandler := true }

/-! ## The parts of a turn -/

/-- The run of the `try` block of a turn, started in the state its scoped variables set up. -/
def tryRun {W : Type} (I : Collab W) (request : ExecuteCodeRequest) (writer : Bool)
    (s : Service W) : Ran W Unit :=
  executeCode.tryBlock I request request.isRepl (request.isRepl && request.isDebug)
    (request.isRepl && request.isDebug && request.resetDebugCommand)
    (executeCode.tryEntry request writer s)

/-- The run of the `catch` clause that receives what the `try` block raised; nothing when
the block ended normally. -/
def catchRun {W : Type} (I : Collab W) (request : ExecuteCodeRequest) (writer : Bool)
    (s : Service W) : Ran W Unit :=
  match (tryRun I request writer s).completion with
  | .raised t => executeCode.handlers I writer request.isRepl t (tryRun I request writer s).service
  | _ => { completion := .ret (), service := (tryRun I request writer s).service, out := Out.empty }

/-- The run of the closing block of the turn. -/
def closingRun {W : Type} (I : Collab W) (request : ExecuteCodeRequest) (writer : Bool)
    (s : Service W) : Ran W Unit :=
  executeCode.closing I request.isRepl (catchRun I request writer s).service

/-- The run of the statements of the `try` block that follow the scoped assignment of
line 73, started in the state that assignment sets up: `replState` is `REPL_BUSY` in a REPL
turn and left as it was otherwise. -/
def bodyRun {W : Type} (I : Collab W) (request : ExecuteCodeRequest) (writer : Bool)
    (s : Service W) : Ran W Unit :=
  executeCode.tryBody I request request.isRepl (request.isRepl && request.isDebug)
    (request.isRepl && request.isDebug && request.resetDebugCommand)
    { executeCode.tryEntry request writer s with
      replState := if request.isRepl then .REPL_BUSY else s.replState }

/-- A REPL turn request with echo, without debugging and without streamed output. -/
def replRequest : ExecuteCodeRequest :=
  { code := "f()", sourceFileId := "file", sourceFileLineOffset := 0, withEcho := true,
    streamOutput := false, isRepl := true, isDebug := false, resetDebugCommand := false }

/-- An `RError` whose condition inherits class `interrupt`. -/
def interruptError : RError :=
  { what := "interrupt"
    getRError :=
      { classes := ["interrupt", "condition"], conditionMessage := some "", package := "" } }

/-- A script: the evaluation of the first expression raises `interruptError`, and the
debugger captures a one-frame stack. -/
def interruptErrorScript : Script :=
  { parse := .ok sampleBatch
    evals := [.threw (.rError interruptError)]
    captured := [{ id := 3 }]
    lastError := [] }

/-- A script: the evaluation of the first expression raises `RInterruptedException`. -/
def interruptedScript : Script :=
  { parse := .ok sampleBatch
    evals := [.threw (.rInterrupted "Interrupted")]
    captured := [{ id := 3 }]
    lastError := [] }

/-- A service idle at the prompt whose next turn follows `faultScript`. -/
def promptState : Service Script :=
  { Service.initial faultScript with replState := .PROMPT }

/-- A nested event loop that changes `replState` and returns a line. -/
def loopReturning : Exec Script String :=
  fun w =>
    { completion := .ret "line", service := { w with replState := .CHILD_PROCESS },
      out := Out.empty }

/-- A nested event loop that changes `replState` and raises. -/
def loopRaising : Exec Script String :=
  fun w =>
    { completion := .raised (.unrecognised 0), service := { w with replState := .PROMPT },
      out := Out.empty }

/-- A condition of class `packageNotFoundError` naming the package `ggplot2`. -/
def packageNotFoundCondition : Condition :=
  { classes := ["packageNotFoundError", "error", "condition"]
    conditionMessage := some "there is no package called ggplot2"
    package := "ggplot2" }

/-- The service state left when `readLineHandler`, entered from the initial state, saw a
`sendReadLn("5")` and then a `replInterrupt` before the loop ran the first posted action:
the handler has returned and the interrupt action is still queued. -/
def staleInterruptState : Service Unit :=
  (readLineHandler (runEventLoop [.sendReadLn "5", .replInterrupt, .pump]) "> "
    (Service.initial ())).service

/-- The collaborator state in which `executeCode` calls `parseSourceFile`: in a REPL turn
the debugger has reset its last-error stack and, under `resetDebugCommand`, its command. -/
def executeCode.parseWorld {W : Type} (I : Collab W) (request : ExecuteCodeRequest)
    (s : Service W) : W :=
  if request.isRepl then
    if request.isRepl && request.isDebug && request.resetDebugCommand then
      I.setCommandContinue (I.resetLastErrorStack s.world)
    else I.resetLastErrorStack s.world
  else s.world

/-- A non-REPL turn request without streamed output. -/
def plainRequest : ExecuteCodeRequest :=
  { code := "f()", sourceFileId := "file", sourceFileLineOffset := 0, withEcho := true,
    streamOutput := false, isRepl := false, isDebug := false, resetDebugCommand := false }

/-- A non-REPL turn request with streamed output. -/
def streamRequest : ExecuteCodeRequest :=
  { code := "f()", sourceFileId := "file", sourceFileLineOffset := 0, withEcho := true,
    streamOutput := true, isRepl := false, isDebug := false, resetDebugCommand := false }

/-- A script whose source does not parse: `parseSourceFile` raises an `RError`. -/
def parseErrorScript : Script :=
  { parse := .threw (.rError sampleError)
    evals := []
    captured := []
    lastError := [] }

/-! ## `RS4Class.cpp` -/

/-- The struct `SlotInfo`. -/
structure SlotInfo where
  name : String
  type : String
  declarationClass : String
  deriving DecidableEq, Repr

/-- One element of the `contains` slot of a class representation: the slots
`superClass` and `distance`. -/
structure S4SuperClass where
  superClass : String
  distance : Int
  deriving DecidableEq, Repr

/-- An S4 class representation as far as `extractSlots` reads it: the slot `className`,
the slot `slots` as (name, type) pairs in list order, and the slot `contains`. -/
structure S4ClassDef where
  className : String
  slots : List (String × String)
  contains : List S4SuperClass
  deriving DecidableEq, Repr

/-- The R session as far as `extractSlots` asks it: `R_getClassDef` (`none` when the
result is not an S4 object) and `R_extends(class1, class2, globalEnv) == TRUE`. -/
structure S4Session where
  R_getClassDef : String → Option S4ClassDef
  R_extends : String → String → Bool

/-- The table `std::unordered_map<string, SlotInfo>`, as its key-value pairs. The order
in which the hash table iterates is unspecified; the pairs are listed in the order the
keys were first inserted. -/
abbrev SlotTable := List (String × SlotInfo)

/-- The value stored under `key`, `none` when `count(key) == 0`. -/
def SlotTable.find (key : String) : SlotTable → Option SlotInfo
  | [] => none
  | (k, v) :: rest => if k = key then some v else SlotTable.find key rest

/-- The assignment `slotsInfos[key] = value`: overwrites the value of an existing key,
inserts the key otherwise. -/
def SlotTable.assign (key : String) (value : SlotInfo) : SlotTable → SlotTable
  | [] => [(key, value)]
  | (k, v) :: rest =>
    if k = key then (key, value) :: rest else (k, v) :: SlotTable.assign key value rest

/-- The body of the slot loop of `defProcessor` (lines 53 to 58) for one slot of the class
`className`. -/
def defProcessor.slot (R : S4Session) (className : String) (slotsInfos : SlotTable)
    (slot : String × String) : SlotTable :=
  let slotName := slot.1
  let slotType := slot.2
  match slotsInfos.find slotName with
  | none =>
    slotsInfos.assign slotName
      { name := slotName, type := slotType, declarationClass := className }
  | some kept =>
    if R.R_extends slotType kept.type then
      slotsInfos.assign slotName
        { name := slotName, type := slotType, declarationClass := className }
    else slotsInfos

/-- The lambda `defProcessor` of `extractSlots`; `classDef = none` is an object that is not
of type `S4SXP`. -/
def defProcessor (R : S4Session) (slotsInfos : SlotTable) (classDef : Option S4ClassDef) :
    SlotTable :=
  match classDef with
  | none => slotsInfos
  | some d => d.slots.foldl (defProcessor.slot R d.className) slotsInfos

/-- The order of `std::pair<int, string>` used by `std::sort`: by distance, then by name. -/
def superClassLE (a b : Int × String) : Prop :=
  a.1 < b.1 ∨ (a.1 = b.1 ∧ a.2 ≤ b.2)

instance : DecidableRel superClassLE :=
  fun a b => inferInstanceAs (Decidable (a.1 < b.1 ∨ (a.1 = b.1 ∧ a.2 ≤ b.2)))

/-- The vector `superClasses` of `extractSlots` after `std::sort` (lines 62 to 70). -/
def sortedSuperClasses (classDef : S4ClassDef) : List (Int × String) :=
  (classDef.contains.map fun sc => (sc.distance, sc.superClass)).insertionSort superClassLE

/-- The function `extractSlots`, for a class representation of type `S4SXP`. The result
vector is filled in the iteration order of the hash table, which is unspecified: the list
stands for it up to a permutation, and nothing below depends on the order of its entries. -/
def extractSlots (R : S4Session) (classDef : S4ClassDef) : List SlotInfo :=
  let superClasses := sortedSuperClasses classDef
  let slotsInfos := defProcessor R [] (some classDef)
  let slotsInfos :=
    superClasses.foldl (fun tbl e => defProcessor R tbl (R.R_getClassDef e.2)) slotsInfos
  slotsInfos.map fun e => e.2

/-- The class representations `extractSlots` visits, in order: the class itself, then
those of its superclasses that resolve to an S4 object, by ascending (distance, name). -/
def visitedClasses (R : S4Session) (classDef : S4ClassDef) : List S4ClassDef :=
  classDef :: (sortedSuperClasses classDef).filterMap fun e => R.R_getClassDef e.2

/-- The slot declarations of one class representation, in list order. -/
def declaredSlots (d : S4ClassDef) : List SlotInfo :=
  d.slots.map fun slot => { name := slot.1, type := slot.2, declarationClass := d.className }

/-- The slot declarations met on the visit, in order. -/
def slotOccurrences (R : S4Session) (classDef : S4ClassDef) : List SlotInfo :=
  (visitedClasses R classDef).flatMap declaredSlots

/-- The rule of the claim for one name: keep the first declaration met, and replace the
kept one by a later one only when the later type extends the kept type. -/
def keepDeclaration (R : S4Session) (kept : Option SlotInfo) (later : SlotInfo) :
    Option SlotInfo :=
  match kept with
  | none => some later
  | some k => if R.R_extends later.type k.type then some later else some k

/-- The slot loop body applied to a slot declaration. -/
def slotStep (R : S4Session) (tbl : SlotTable) (x : SlotInfo) : SlotTable :=
  defProcessor.slot R x.declarationClass tbl (x.name, x.type)

/-- A table whose keys are pairwise distinct and equal to the name of their value. -/
def SlotTable.WellKeyed (tbl : SlotTable) : Prop :=
  (tbl.map fun e => e.1).Nodup ∧ ∀ e ∈ tbl, e.2.name = e.1

/-- The order of `superClasses` is total. -/
instance : IsTotal (Int × String) superClassLE where
  total a b := by
    unfold superClassLE
    rcases lt_trichotomy a.1 b.1 with h | h | h
    · exact Or.inl (Or.inl h)
    · rcases le_total a.2 b.2 with h2 | h2
      · exact Or.inl (Or.inr ⟨h, h2⟩)
      · exact Or.inr (Or.inr ⟨h.symm, h2⟩)
    · exact Or.inr (Or.inl h)

/-- The order of `superClasses` is transitive. -/
instance : IsTrans (Int × String) superClassLE where
  trans a b c := by
    unfold superClassLE
    rintro (h1 | ⟨h1, h1'⟩) (h2 | ⟨h2, h2'⟩)
    · exact Or.inl (lt_trans h1 h2)
    · exact Or.inl (h2 ▸ h1)
    · exact Or.inl (h1 ▸ h2)
    · exact Or.inr ⟨h1.trans h2, le_trans h1' h2'⟩

/-- A small class hierarchy: `B` extends `A` directly, `C` at distance 2 is unknown to
the session. -/
def sampleSession : S4Session :=
  { R_getClassDef := fun name =>
      if name = "A" then
        some
          { className := "A", slots := [("x", "numeric"), ("y", "character")], contains := [] }
      else none
    R_extends := fun a b => a = b || (a = "integer" && b = "numeric") }

/-- The class `B` of the sample hierarchy. -/
def sampleClassB : S4ClassDef :=
  { className := "B"
    slots := [("x", "integer"), ("z", "logical")]
    contains := [{ superClass := "C", distance := 2 }, { superClass := "A", distance := 1 }] }

/-! ## `graphics/REagerGraphicsDevice.cpp` -/

/-- The struct `Size`; `D` stands for `double`, whose values are only stored and copied. -/
structure Size (D : Type) where
  width : D
  height : D
  deriving DecidableEq, Repr

/-- The struct `ScreenParameters`: a size and a resolution. -/
structure ScreenParameters (D : Type) where
  size : Size D
  resolution : Int
  deriving DecidableEq, Repr

/-- A `SlaveDevice`, by the arguments its constructor was called with. -/
structure SlaveDevice (D : Type) where
  fileName : String
  parameters : ScreenParameters D
  deriving DecidableEq, Repr

/-- The members of `REagerGraphicsDevice`; `slaveDevice = none` is the null pointer. The
header that declares the type of `snapshotVersion` is outside the embedded sources: the
counter is an unbounded natural number here. -/
structure REagerGraphicsDevice (D : Type) where
  snapshotPath : String
  parameters : ScreenParameters D
  slaveDevice : Option (SlaveDevice D)
  isDeviceBlank : Bool
  snapshotVersion : Nat
  deriving DecidableEq, Repr

/-- The method `initializeSlaveDevice`. -/
def REagerGraphicsDevice.initializeSlaveDevice {D : Type} (d : REagerGraphicsDevice D) :
    SlaveDevice D :=
  { fileName := d.snapshotPath ++ "_" ++ toString d.snapshotVersion ++ ".png"
    parameters := d.parameters }

/-- The method `shutdownSlaveDevice`. -/
def REagerGraphicsDevice.shutdownSlaveDevice {D : Type} (d : REagerGraphicsDevice D) :
    REagerGraphicsDevice D :=
  { d with slaveDevice := none }

/-- The method `getSlave`: the slave whose descriptor is returned, and the device. -/
def REagerGraphicsDevice.getSlave {D : Type} (d : REagerGraphicsDevice D) :
    SlaveDevice D × REagerGraphicsDevice D :=
  match d.slaveDevice with
  | some slave => (slave, d)
  | none => (d.initializeSlaveDevice, { d with slaveDevice := some d.initializeSlaveDevice })

/-- The constructor: the members are initialised and `getSlave()` is called. -/
def REagerGraphicsDevice.create {D : Type} (snapshotPath : String)
    (parameters : ScreenParameters D) : REagerGraphicsDevice D :=
  (REagerGraphicsDevice.getSlave
    { snapshotPath := snapshotPath, parameters := parameters, slaveDevice := none,
      isDeviceBlank := true, snapshotVersion := 0 }).2

/-- A call `getSlave()->f(..., getSlave())` of a slave callback: `getSlave` runs twice; what
the callback draws stays inside the slave. -/
def REagerGraphicsDevice.callSlave {D : Type} (d : REagerGraphicsDevice D) :
    REagerGraphicsDevice D :=
  (REagerGraphicsDevice.getSlave (REagerGraphicsDevice.getSlave d).2).2

/-- The drawing methods (`drawCircle`, `drawLine`, `drawPolygon`, `drawPolyline`, `drawRect`,
`drawPath`, `drawRaster`, `drawTextUtf8`): the device is no longer blank and the slave
callback is called. -/
def REagerGraphicsDevice.draw {D : Type} (d : REagerGraphicsDevice D) :
    REagerGraphicsDevice D :=
  REagerGraphicsDevice.callSlave { d with isDeviceBlank := false }

/-- The methods that only query or configure the slave (`clip`, `metricInfo`, `newPage`,
`screenParameters`, `widthOfStringUtf8`). -/
def REagerGraphicsDevice.query {D : Type} (d : REagerGraphicsDevice D) :
    REagerGraphicsDevice D :=
  REagerGraphicsDevice.callSlave d

/-- The method `setMode`: one `getSlave()` call, then the `mode` callback of the slave if
it has one. -/
def REagerGraphicsDevice.setMode {D : Type} (d : REagerGraphicsDevice D) :
    REagerGraphicsDevice D :=
  (REagerGraphicsDevice.getSlave d).2

/-- The method `close`. -/
def REagerGraphicsDevice.close {D : Type} (d : REagerGraphicsDevice D) :
    REagerGraphicsDevice D :=
  d.shutdownSlaveDevice

/-- The method `dump`: the result `true` and the device. -/
def REagerGraphicsDevice.dump {D : Type} (d : REagerGraphicsDevice D) :
    Bool × REagerGraphicsDevice D :=
  (true, d.shutdownSlaveDevice)

/-- The method `rescale`. -/
def REagerGraphicsDevice.rescale {D : Type} (d : REagerGraphicsDevice D)
    (newWidth newHeight : D) : REagerGraphicsDevice D :=
  let d := d.shutdownSlaveDevice
  let d :=
    { d with
      parameters := { d.parameters with size := { d.parameters.size with width := newWidth } } }
  let d :=
    { d with
      parameters := { d.parameters with size := { d.parameters.size with height := newHeight } } }
  { d with snapshotVersion := d.snapshotVersion + 1 }

/-- The method `clone`: a new device on the same path with the current parameters. -/
def REagerGraphicsDevice.clone {D : Type} (d : REagerGraphicsDevice D) :
    REagerGraphicsDevice D :=
  REagerGraphicsDevice.create d.snapshotPath d.parameters

/-- The method `replay`: `getSlave()`, then the recorded plot is replayed on the selected
slave device by the interpreter. -/
def REagerGraphicsDevice.replay {D : Type} (d : REagerGraphicsDevice D) :
    REagerGraphicsDevice D :=
  (REagerGraphicsDevice.getSlave d).2

/-- The public methods of `REagerGraphicsDevice`, grouped by what they do to the members;
arguments that only reach the slave callbacks are left out. -/
inductive DeviceCall (D : Type)
  | draw
  | query
  | setMode
  | close
  | dump
  | rescale (newWidth newHeight : D)
  | logicScreenParameters
  | isBlank
  | clone
  | replay
  deriving DecidableEq, Repr

/-- The device after one method call. -/
def REagerGraphicsDevice.call {D : Type} (d : REagerGraphicsDevice D) :
    DeviceCall D → REagerGraphicsDevice D
  | .draw => d.draw
  | .query => d.query
  | .setMode => d.setMode
  | .close => d.close
  | .dump => d.dump.2
  | .rescale newWidth newHeight => d.rescale newWidth newHeight
  | .logicScreenParameters => d
  | .isBlank => d
  | .clone => d
  | .replay => d.replay

/-- The device after a sequence of method calls, first call first. -/
def REagerGraphicsDevice.run {D : Type} (d : REagerGraphicsDevice D)
    (calls : List (DeviceCall D)) : REagerGraphicsDevice D :=
  calls.foldl REagerGraphicsDevice.call d

/-- Whether a call is a `rescale`. -/
def DeviceCall.isRescale {D : Type} : DeviceCall D → Bool
  | .rescale _ _ => true
  | _ => false

/-- The slave of a device, when it has one, was created from the current path, version
and parameters. -/
def REagerGraphicsDevice.SlaveCurrent {D : Type} (d : REagerGraphicsDevice D) : Prop :=
  ∀ slave, d.slaveDevice = some slave → slave = d.initializeSlaveDevice

/-- A device created on the path `/tmp/snap` with a 640 by 480 screen. -/
def sampleDevice : REagerGraphicsDevice Int :=
  REagerGraphicsDevice.create "/tmp/snap"
    { size := { width := 640, height := 480 }, resolution := 72 }

/-! ## Interrupt routing (`replInterrupt`) -/

/-- C1 (as stated, refuted): start `readLineHandler` from `REPL_BUSY` while an R event
handler is running. The handler waits in `READ_LINE`; `replInterrupt` called there takes
its first branch, posts nothing, and the pending `readLineHandler` does not return. -/
theorem readLine_interrupt_while_handler_running_stays_blocked :
    busyHandlerRunning.replState = .REPL_BUSY ∧
    (readLineHandler (runEventLoop []) "> " busyHandlerRunning).service.replState
      = .READ_LINE ∧
    (replInterrupt
        (readLineHandler (runEventLoop []) "> " busyHandlerRunning).service).service.eventLoopQueue
      = [] ∧
    (readLineHandler (runEventLoop [.replInterrupt, .pump]) "> " busyHandlerRunning).completion
      = .blocked := by
  decide

/-- C1 (amended): let `readLineHandler` be entered from `REPL_BUSY`. It waits in
`READ_LINE`, and when the loop runs the action posted by `replInterrupt` the handler
returns the empty string with `R_interrupts_pending = 1` and `replState` back at
`REPL_BUSY`, nothing else changed. While no R event handler is running, `replInterrupt`
called in the waiting state posts exactly that action and does nothing else; with no other
posted action pending, calling it and pumping once makes the handler return, the events
pushed being the read-line request and `busy`. While an R event handler is running,
`replInterrupt` called in the waiting state only sets `R_interrupts_pending = 1`: the
queue of posted actions is as it was, no other field changes, and with no posted action
pending the handler is still waiting after the next pump. -/
theorem readLine_interrupt_returns_empty {W : Type} (s : Service W) (text : String)
    (hbusy : s.replState = .REPL_BUSY) :
    (readLineHandler (runEventLoop []) text s).completion = .blocked ∧
    (readLineHandler (runEventLoop []) text s).service = { s with replState := .READ_LINE } ∧
    (∀ (queue : List LoopAction) (rest : List Tick),
      (readLineHandler (runEventLoop (.pump :: rest)) text
          { s with eventLoopQueue := .interruptReadLine :: queue }).completion = .ret "" ∧
      (readLineHandler (runEventLoop (.pump :: rest)) text
          { s with eventLoopQueue := .interruptReadLine :: queue }).service
        = { s with eventLoopQueue := queue, R_interrupts_pending := 1 } ∧
      (readLineHandler (runEventLoop (.pump :: rest)) text
          { s with eventLoopQueue := .interruptReadLine :: queue }).service.replState
        = .REPL_BUSY) ∧
    (s.eventHandlerRunning = false →
      (replInterrupt { s with replState := .READ_LINE }).completion = .ret () ∧
      (replInterrupt { s with replState := .READ_LINE }).service
        = { s with
            replState := .READ_LINE
            eventLoopQueue := s.eventLoopQueue ++ [.interruptReadLine] } ∧
      (replInterrupt { s with replState := .READ_LINE }).out = Out.empty ∧
      (s.eventLoopQueue = [] → ∀ rest : List Tick,
        (readLineHandler (runEventLoop (.replInterrupt :: .pump :: rest)) text s).completion
          = .ret "" ∧
        (readLineHandler (runEventLoop (.replInterrupt :: .pump :: rest)) text
            s).service.R_interrupts_pending = 1 ∧
        (readLineHandler (runEventLoop (.replInterrupt :: .pump :: rest)) text
            s).service.replState = .REPL_BUSY ∧
        (readLineHandler (runEventLoop (.replInterrupt :: .pump :: rest)) text s).service
          = { s with R_interrupts_pending := 1 } ∧
        (readLineHandler (runEventLoop (.replInterrupt :: .pump :: rest)) text
            s).out.asyncEvents = [.requestReadLn text, .busy])) ∧
    (s.eventHandlerRunning = true →
      (replInterrupt { s with replState := .READ_LINE }).completion = .ret () ∧
      (replInterrupt { s with replState := .READ_LINE }).service
        = { s with replState := .READ_LINE, R_interrupts_pending := 1 } ∧
      (replInterrupt { s with replState := .READ_LINE }).service.eventLoopQueue
        = s.eventLoopQueue ∧
      (replInterrupt { s with replState := .READ_LINE }).out = Out.empty ∧
      (s.eventLoopQueue = [] →
        (readLineHandler (runEventLoop [.replInterrupt, .pump]) text s).completion
          = .blocked ∧
        (readLineHandler (runEventLoop [.replInterrupt, .pump]) text s).service
          = { s with replState := .READ_LINE, R_interrupts_pending := 1 } ∧
        (readLineHandler (runEventLoop [.replInterrupt, .pump]) text s).out.asyncEvents
          = [.requestReadLn text])) := by
  refine ⟨?_, ?_, ?_, ?_, ?_⟩
  · simp [readLineHandler, runEventLoop, bind, Exec.bind, getService, pushAsyncEvent,
      withState, scopedAssign, hbusy]
  · simp [readLineHandler, runEventLoop, bind, Exec.bind, getService, pushAsyncEvent,
      withState, scopedAssign, hbusy]
  · intro queue rest
    simp [readLineHandler, runEventLoop, LoopAction.run, bind, Exec.bind, getService,
      pushAsyncEvent, withState, scopedAssign, pure, Exec.pure, Out.append, Out.empty, hbusy]
  · intro hrun
    refine ⟨?_, ?_, ?_, ?_⟩
    · simp [replInterrupt, eventLoopExecute, bind, Exec.bind, getService, modifyService, hrun,
        Out.append, Out.empty]
    · simp [replInterrupt, eventLoopExecute, bind, Exec.bind, getService, modifyService, hrun,
        Out.append, Out.empty]
    · simp [replInterrupt, eventLoopExecute, bind, Exec.bind, getService, modifyService, hrun,
        Out.append, Out.empty]
    · intro hq rest
      simp [readLineHandler, runEventLoop, replInterrupt, eventLoopExecute, LoopAction.run, bind,
        Exec.bind, getService, modifyService, pushAsyncEvent, withState, scopedAssign, pure,
        Exec.pure, Out.append, Out.empty, hbusy, hrun, hq]
  · intro hrun
    refine ⟨?_, ?_, ?_, ?_, ?_⟩
    · simp [replInterrupt, eventLoopExecute, bind, Exec.bind, getService, modifyService, hrun,
        Out.append, Out.empty]
    · simp [replInterrupt, eventLoopExecute, bind, Exec.bind, getService, modifyService, hrun,
        Out.append, Out.empty]
    · simp [replInterrupt, eventLoopExecute, bind, Exec.bind, getService, modifyService, hrun,
        Out.append, Out.empty]
    · simp [replInterrupt, eventLoopExecute, bind, Exec.bind, getService, modifyService, hrun,
        Out.append, Out.empty]
    · intro hq
      simp [readLineHandler, runEventLoop, replInterrupt, eventLoopExecute, LoopAction.run, bind,
        Exec.bind, getService, modifyService, pushAsyncEvent, withState, scopedAssign, pure,
        Exec.pure, Out.append, Out.empty, hbusy, hrun, hq]

/-- Witness for C1 (amended): the initial service state, where no R event handler is
running and the interrupt makes the read return, and the same state with an R event
handler running, where the interrupt only sets the flag and the read stays pending. -/
theorem readLine_interrupt_returns_empty_witness :
    (Service.initial ()).replState = .REPL_BUSY ∧
    (Service.initial ()).eventHandlerRunning = false ∧
    (readLineHandler (runEventLoop [.replInterrupt, .pump]) "> "
      (Service.initial ())).completion = .ret "" ∧
    (readLineHandler (runEventLoop [.replInterrupt, .pump]) "> "
      (Service.initial ())).service.R_interrupts_pending = 1 ∧
    busyHandlerRunning.replState = .REPL_BUSY ∧
    busyHandlerRunning.eventHandlerRunning = true ∧
    (replInterrupt { busyHandlerRunning with replState := .READ_LINE }).service
      = { busyHandlerRunning with replState := .READ_LINE, R_interrupts_pending := 1 } ∧
    (readLineHandler (runEventLoop [.replInterrupt, .pump]) "> " busyHandlerRunning).completion
      = .blocked :=
  ⟨rfl, rfl,
    ((((readLine_interrupt_returns_empty (Service.initial ()) "> " rfl).2.2.2.1 rfl).2.2.2
      rfl []).1),
    ((((readLine_interrupt_returns_empty (Service.initial ()) "> " rfl).2.2.2.1 rfl).2.2.2
      rfl []).2.1),
    rfl, rfl,
    ((readLine_interrupt_returns_empty busyHandlerRunning "> " rfl).2.2.2.2 rfl).2.1,
    (((readLine_interrupt_returns_empty busyHandlerRunning "> " rfl).2.2.2.2 rfl).2.2.2.2
      rfl).1⟩

/-- C2: in every service state with `replState = REPL_BUSY`, `replInterrupt` returns after
setting `R_interrupts_pending = 1`; it posts nothing to the event loop, leaves `replState`
and `subprocessInterrupt` as they were, changes no other field and pushes no event. -/
theorem replInterrupt_busy_sets_flag {W : Type} (s : Service W)
    (hbusy : s.replState = .REPL_BUSY) :
    (replInterrupt s).completion = .ret () ∧
    (replInterrupt s).service.R_interrupts_pending = 1 ∧
    (replInterrupt s).service.eventLoopQueue = s.eventLoopQueue ∧
    (replInterrupt s).service.replState = s.replState ∧
    (replInterrupt s).service.subprocessInterrupt = s.subprocessInterrupt ∧
    (replInterrupt s).service = { s with R_interrupts_pending := 1 } ∧
    (replInterrupt s).out = Out.empty := by
  simp [replInterrupt, bind, Exec.bind, getService, modifyService, hbusy, Out.append,
    Out.empty]

/-- Witness for C2: the initial service state, with a posted action already queued. -/
theorem replInterrupt_busy_sets_flag_witness :
    ({ Service.initial () with eventLoopQueue := [.deliverLine "x"] } : Service Unit).replState
      = .REPL_BUSY ∧
    (replInterrupt ({ Service.initial () with eventLoopQueue := [.deliverLine "x"] } :
      Service Unit)).service.R_interrupts_pending = 1 ∧
    (replInterrupt ({ Service.initial () with eventLoopQueue := [.deliverLine "x"] } :
      Service Unit)).service.eventLoopQueue = [.deliverLine "x"] :=
  ⟨rfl,
    (replInterrupt_busy_sets_flag
      ({ Service.initial () with eventLoopQueue := [.deliverLine "x"] } : Service Unit) rfl).2.1,
    (replInterrupt_busy_sets_flag
      ({ Service.initial () with eventLoopQueue := [.deliverLine "x"] } : Service Unit)
      rfl).2.2.1⟩

/-- C3 (as stated, refuted): at `PROMPT` with an R event handler running, `replInterrupt`
changes the interrupt-pending flag from 0 to 1. -/
theorem replInterrupt_at_prompt_with_handler_running_sets_flag :
    promptHandlerRunning.replState = .PROMPT ∧
    promptHandlerRunning.R_interrupts_pending = 0 ∧
    (replInterrupt promptHandlerRunning).service.R_interrupts_pending = 1 ∧
    (replInterrupt promptHandlerRunning).service.R_interrupts_pending
      ≠ promptHandlerRunning.R_interrupts_pending := by
  decide

/-- C3 (amended): in every service state whose `replState` is none of `REPL_BUSY`,
`READ_LINE`, `SUBPROCESS_INPUT` and in which no R event handler is running,
`replInterrupt` is a no-op: the interrupt-pending flag, the subprocess-interrupt flag,
`replState` and the event-loop queue are unchanged, as is the whole service state. -/
theorem replInterrupt_elsewhere_noop {W : Type} (s : Service W)
    (h1 : s.replState ≠ .REPL_BUSY) (h2 : s.replState ≠ .READ_LINE)
    (h3 : s.replState ≠ .SUBPROCESS_INPUT) (hrun : s.eventHandlerRunning = false) :
    (replInterrupt s).completion = .ret () ∧
    (replInterrupt s).service.R_interrupts_pending = s.R_interrupts_pending ∧
    (replInterrupt s).service.subprocessInterrupt = s.subprocessInterrupt ∧
    (replInterrupt s).service.replState = s.replState ∧
    (replInterrupt s).service.eventLoopQueue = s.eventLoopQueue ∧
    (replInterrupt s).service = s ∧
    (replInterrupt s).out = Out.empty := by
  simp [replInterrupt, bind, Exec.bind, getService, modifyService, h1, h2, h3, hrun,
    Out.append, Out.empty, pure, Exec.pure]

/-- Witness for C3 (amended): a service idle at the prompt, no event handler running. -/
theorem replInterrupt_elsewhere_noop_witness :
    ({ Service.initial () with replState := .PROMPT } : Service Unit).replState ≠ .REPL_BUSY ∧
    (replInterrupt ({ Service.initial () with replState := .PROMPT } : Service Unit)).service
      = { Service.initial () with replState := .PROMPT } :=
  ⟨by decide,
    (replInterrupt_elsewhere_noop ({ Service.initial () with replState := .PROMPT } :
      Service Unit) (by decide) (by decide) (by decide) rfl).2.2.2.2.2.1⟩

/-- C4 (as stated, refuted): in `SUBPROCESS_INPUT` with `subprocessActive = false`,
`replInterrupt` posts no action at all and the subprocess-interrupt flag stays false; in
`SUBPROCESS_INPUT` with an R event handler running it posts nothing either and sets the
ordinary interrupt-pending flag. -/
theorem replInterrupt_subprocess_inactive_posts_nothing :
    subprocessInputInactive.replState = .SUBPROCESS_INPUT ∧
    (replInterrupt subprocessInputInactive).service.eventLoopQueue = [] ∧
    (runEventLoop [.replInterrupt, .pump] subprocessInputInactive).completion = .blocked ∧
    (runEventLoop [.replInterrupt, .pump] subprocessInputInactive).service.subprocessInterrupt
      = false ∧
    subprocessInputHandlerRunning.replState = .SUBPROCESS_INPUT ∧
    (replInterrupt subprocessInputHandlerRunning).service.eventLoopQueue = [] ∧
    subprocessInputHandlerRunning.R_interrupts_pending = 0 ∧
    (replInterrupt subprocessInputHandlerRunning).service.R_interrupts_pending = 1 := by
  decide

/-- C4 (amended): in every service state with `replState = SUBPROCESS_INPUT`, an active
subprocess and no R event handler running, `replInterrupt` changes nothing but the
event-loop queue, to which it appends one action; when the loop runs that action in such
a state it returns the empty string with `subprocessInterrupt = true`, and
`R_interrupts_pending` is left as it was. -/
theorem replInterrupt_subprocess_posts_interrupt {W : Type} (s : Service W)
    (hstate : s.replState = .SUBPROCESS_INPUT) (hactive : s.subprocessActive = true)
    (hrun : s.eventHandlerRunning = false) :
    (replInterrupt s).service
      = { s with eventLoopQueue := s.eventLoopQueue ++ [.interruptSubprocess] } ∧
    (replInterrupt s).service.R_interrupts_pending = s.R_interrupts_pending ∧
    (∀ (queue : List LoopAction) (rest : List Tick),
      (runEventLoop (.pump :: rest)
          { s with eventLoopQueue := .interruptSubprocess :: queue }).completion = .ret "" ∧
      (runEventLoop (.pump :: rest)
          { s with eventLoopQueue := .interruptSubprocess :: queue }).service
        = { s with eventLoopQueue := queue, subprocessInterrupt := true }) ∧
    (s.eventLoopQueue = [] → ∀ rest : List Tick,
      (runEventLoop (.replInterrupt :: .pump :: rest) s).completion = .ret "" ∧
      (runEventLoop (.replInterrupt :: .pump :: rest) s).service
        = { s with subprocessInterrupt := true }) := by
  refine ⟨?_, ?_, ?_, ?_⟩
  · simp [replInterrupt, eventLoopExecute, bind, Exec.bind, getService, modifyService, hstate,
      hactive, hrun, Out.append, Out.empty]
  · simp [replInterrupt, eventLoopExecute, bind, Exec.bind, getService, modifyService, hstate,
      hactive, hrun, Out.append, Out.empty]
  · intro queue rest
    simp [runEventLoop, LoopAction.run, hstate, hactive]
  · intro hq rest
    simp [runEventLoop, LoopAction.run, replInterrupt, eventLoopExecute, bind, Exec.bind,
      getService, modifyService, hstate, hactive, hrun, hq, Out.append, Out.empty]

/-- Witness for C4 (amended): `SUBPROCESS_INPUT` with an active subprocess. -/
theorem replInterrupt_subprocess_posts_interrupt_witness :
    subprocessInputActive.replState = .SUBPROCESS_INPUT ∧
    subprocessInputActive.subprocessActive = true ∧
    subprocessInputActive.eventHandlerRunning = false ∧
    (replInterrupt subprocessInputActive).service
      = { subprocessInputActive with eventLoopQueue := [.interruptSubprocess] } :=
  ⟨rfl, rfl, rfl, (replInterrupt_subprocess_posts_interrupt subprocessInputActive rfl rfl rfl).1⟩

/-! ## Scoped state of the blocking handlers -/

/-- C5: whatever the starting `replState` and however the nested event loop ends (it
returns a value or raises, after changing the service state in any way), `replState`
right after `readLineHandler` and right after `debugPromptHandler` equals `replState`
right before the call. -/
theorem handlers_restore_replState {W : Type} (I : Collab W) (loop : Exec W String)
    (text : String) (s : Service W) (hends : ∀ w, (loop w).completion ≠ .blocked) :
    (readLineHandler loop text s).completion ≠ .blocked ∧
    (readLineHandler loop text s).service.replState = s.replState ∧
    (debugPromptHandler I loop s).completion ≠ .blocked ∧
    (debugPromptHandler I loop s).service.replState = s.replState := by
  by_cases hb : s.replState = .REPL_BUSY
  · have h1 := hends { s with replState := .READ_LINE }
    have h2 := hends { s with replState := .DEBUG_PROMPT }
    refine ⟨?_, ?_, ?_, ?_⟩
    · rcases hl : (loop { s with replState := .READ_LINE }).completion with v | t | _ <;>
        simp_all [readLineHandler, bind, Exec.bind, getService, pushAsyncEvent, withState,
          scopedAssign, pure, Exec.pure]
    · rcases hl : (loop { s with replState := .READ_LINE }).completion with v | t | _ <;>
        simp_all [readLineHandler, bind, Exec.bind, getService, pushAsyncEvent, withState,
          scopedAssign, pure, Exec.pure]
    · rcases hl : (loop { s with replState := .DEBUG_PROMPT }).completion with v | t | _ <;>
        simp_all [debugPromptHandler, bind, Exec.bind, getService, pushAsyncEvent, withState,
          scopedAssign, pure, Exec.pure]
    · rcases hl : (loop { s with replState := .DEBUG_PROMPT }).completion with v | t | _ <;>
        simp_all [debugPromptHandler, bind, Exec.bind, getService, pushAsyncEvent, withState,
          scopedAssign, pure, Exec.pure]
  · simp [readLineHandler, debugPromptHandler, bind, Exec.bind, getService, hb, pure,
      Exec.pure]

/-- Witness for C5: a loop that returns and a loop that raises, each after changing
`replState`, entered from `REPL_BUSY`. -/
theorem handlers_restore_replState_witness :
    (∀ w, (loopReturning w).completion ≠ .blocked) ∧
    (readLineHandler loopReturning "> " (Service.initial quietScript)).completion
      = .ret "line" ∧
    (readLineHandler loopReturning "> " (Service.initial quietScript)).service.replState
      = .REPL_BUSY ∧
    (debugPromptHandler scripted loopRaising (Service.initial quietScript)).service.replState
      = .REPL_BUSY :=
  ⟨fun _ => by simp [loopReturning], by decide,
    (handlers_restore_replState scripted loopReturning "> " (Service.initial quietScript)
      (fun _ => by simp [loopReturning])).2.1,
    (handlers_restore_replState scripted loopRaising "> " (Service.initial quietScript)
      (fun _ => by simp [loopRaising])).2.2.2⟩

/-! ## The batch loop (`executeCodeImpl`) -/

/-! ### Sequencing and the interpreter call -/

/-- Sequencing after a part that returned: the second part runs from the state the first
left, and the outputs are concatenated. -/
theorem Exec.bind_ret {W α β : Type} (m : Exec W α) (f : α → Exec W β) (s : Service W) (a : α)
    (h : (m s).completion = .ret a) :
    Exec.bind m f s
      = { completion := (f a (m s).service).completion
          service := (f a (m s).service).service
          out := (m s).out.append (f a (m s).service).out } := by
  simp [Exec.bind, h]

/-- Sequencing after a part that raised: the second part does not run. -/
theorem Exec.bind_raised {W α β : Type} (m : Exec W α) (f : α → Exec W β) (s : Service W)
    (t : Thrown) (h : (m s).completion = .raised t) :
    Exec.bind m f s = { completion := .raised t, service := (m s).service, out := (m s).out } := by
  simp [Exec.bind, h]

/-- Routing console text performs no `safeEval` call and pushes no async event. -/
theorem routeChunks_quiet (h : OutputHandler) (l : List (OutputType × String)) :
    (routeChunks h l).evals = [] ∧ (routeChunks h l).asyncEvents = [] := by
  induction l with
  | nil => simp [routeChunks, Out.empty]
  | cons c rest ih =>
    obtain ⟨type, text⟩ := c
    cases h <;> simp [routeChunks, routeChunk, Out.append, Out.empty, ih]
    split <;> simp

/-- A `safeEval` call returns or raises according to the outcome of the interpreter. -/
theorem safeEval_completion {W : Type} (I : Collab W) (i : Nat) (p : Bool) (c : Code)
    (env : RObj) (s : Service W) :
    (safeEval I i p c env s).completion
      = (match (I.safeEval c env s).outcome with
        | .ok v => .ret v
        | .threw t => .raised t) := rfl

/-- A `safeEval` call leaves exactly one trace entry, its own. -/
theorem safeEval_evals {W : Type} (I : Collab W) (i : Nat) (p : Bool) (c : Code) (env : RObj)
    (s : Service W) :
    (safeEval I i p c env s).out.evals
      = [{ index := i, isPrint := p, code := c, env := env,
           outcome := (I.safeEval c env s).outcome,
           pushed := (I.safeEval c env s).asyncEvents }] := by
  simp [safeEval, Out.append, Out.empty, routeChunks_quiet]

/-- The async events of a `safeEval` call are those the interpreter pushed. -/
theorem safeEval_asyncEvents {W : Type} (I : Collab W) (i : Nat) (p : Bool) (c : Code)
    (env : RObj) (s : Service W) :
    (safeEval I i p c env s).out.asyncEvents = (I.safeEval c env s).asyncEvents := by
  simp [safeEval, Out.append, Out.empty, routeChunks_quiet]

/-- The trace entry of a `safeEval` call that returned `v`. -/
theorem safeEval_ret {W : Type} (I : Collab W) (i : Nat) (p : Bool) (c : Code) (env : RObj)
    (s : Service W) (v : EvalValue) (h : (safeEval I i p c env s).completion = .ret v) :
    ∃ pushed, (safeEval I i p c env s).out.evals
      = [{ index := i, isPrint := p, code := c, env := env, outcome := .ok v,
           pushed := pushed }] := by
  refine ⟨(I.safeEval c env s).asyncEvents, ?_⟩
  rw [safeEval_evals]
  rw [safeEval_completion] at h
  rcases ho : (I.safeEval c env s).outcome with v' | t <;> simp_all

/-- The trace entry of a `safeEval` call that raised `t`. -/
theorem safeEval_raised {W : Type} (I : Collab W) (i : Nat) (p : Bool) (c : Code) (env : RObj)
    (s : Service W) (t : Thrown) (h : (safeEval I i p c env s).completion = .raised t) :
    ∃ pushed, (safeEval I i p c env s).out.evals
      = [{ index := i, isPrint := p, code := c, env := env, outcome := .threw t,
           pushed := pushed }] := by
  refine ⟨(I.safeEval c env s).asyncEvents, ?_⟩
  rw [safeEval_evals]
  rw [safeEval_completion] at h
  rcases ho : (I.safeEval c env s).outcome with v' | t <;> simp_all

/-- A `safeEval` call always ends. -/
theorem safeEval_not_blocked {W : Type} (I : Collab W) (i : Nat) (p : Bool) (c : Code)
    (env : RObj) (s : Service W) : (safeEval I i p c env s).completion ≠ .blocked := by
  rw [safeEval_completion]
  rcases (I.safeEval c env s).outcome with v' | t <;> simp

/-- The loop body as two `safeEval` calls on the calls `evalCall` and `printCall`. -/
theorem iteration_eq {W : Type} (I : Collab W) (b : BatchArgs) (i e : Nat) :
    executeCodeImpl.iteration I b.srcrefs b.env b.withEcho b.isDebug b.withExceptionHandler i e
      = Exec.bind (safeEval I i false (evalCall b i e) R_GlobalEnv)
          (fun result =>
            if (b.withEcho && result.visible) = true then
              Exec.bind (safeEval I i true (printCall b i result.value) b.env)
                (fun _ => Exec.pure ())
            else Exec.pure ()) := rfl

/-- One unfolding of the loop. -/
theorem loop_cons_eq {W : Type} (I : Collab W) (b : BatchArgs) (i e : Nat) (rest : List Nat) :
    executeCodeImpl.loop I b.srcrefs b.env b.withEcho b.isDebug b.withExceptionHandler i
        (e :: rest)
      = Exec.bind
          (executeCodeImpl.iteration I b.srcrefs b.env b.withEcho b.isDebug
            b.withExceptionHandler i e)
          (fun _ =>
            executeCodeImpl.loop I b.srcrefs b.env b.withEcho b.isDebug b.withExceptionHandler
              (i + 1) rest) := rfl

/-- The four ways one iteration can go: the evaluation raises; the evaluation returns a
visible value under `withEcho` and the print call raises; the evaluation returns and
nothing is printed; the evaluation returns and the print call returns. -/
theorem iteration_cases {W : Type} (I : Collab W) (b : BatchArgs) (i e : Nat) (s : Service W) :
    (∃ t p,
      (executeCodeImpl.iteration I b.srcrefs b.env b.withEcho b.isDebug b.withExceptionHandler
          i e s).out.evals = [evalStep b i e (.threw t) p] ∧
      (executeCodeImpl.iteration I b.srcrefs b.env b.withEcho b.isDebug b.withExceptionHandler
          i e s).completion = .raised t) ∨
    (∃ v t p p',
      (executeCodeImpl.iteration I b.srcrefs b.env b.withEcho b.isDebug b.withExceptionHandler
          i e s).out.evals = [evalStep b i e (.ok v) p, printStep b i v (.threw t) p'] ∧
      (executeCodeImpl.iteration I b.srcrefs b.env b.withEcho b.isDebug b.withExceptionHandler
          i e s).completion = .raised t ∧
      (b.withEcho && v.visible) = true) ∨
    (∃ v p,
      (executeCodeImpl.iteration I b.srcrefs b.env b.withEcho b.isDebug b.withExceptionHandler
          i e s).out.evals = [evalStep b i e (.ok v) p] ∧
      (executeCodeImpl.iteration I b.srcrefs b.env b.withEcho b.isDebug b.withExceptionHandler
          i e s).completion = .ret () ∧
      (b.withEcho && v.visible) = false) ∨
    (∃ v v' p p',
      (executeCodeImpl.iteration I b.srcrefs b.env b.withEcho b.isDebug b.withExceptionHandler
          i e s).out.evals = [evalStep b i e (.ok v) p, printStep b i v (.ok v') p'] ∧
      (executeCodeImpl.iteration I b.srcrefs b.env b.withEcho b.isDebug b.withExceptionHandler
          i e s).completion = .ret () ∧
      (b.withEcho && v.visible) = true) := by
  rw [iteration_eq]
  rcases h1 : (safeEval I i false (evalCall b i e) R_GlobalEnv s).completion with v | t | _
  · obtain ⟨p, hst⟩ := safeEval_ret I _ _ _ _ _ _ h1
    rw [Exec.bind_ret _ _ _ _ h1]
    by_cases hv : (b.withEcho && v.visible) = true
    · simp only [hv, if_true]
      rcases h2 : (safeEval I i true (printCall b i v.value) b.env
          (safeEval I i false (evalCall b i e) R_GlobalEnv s).service).completion
        with v' | t | _
      · obtain ⟨p', hst'⟩ := safeEval_ret I _ _ _ _ _ _ h2
        rw [Exec.bind_ret _ _ _ _ h2]
        refine Or.inr (Or.inr (Or.inr ⟨v, v', p, p', ?_, ?_, hv⟩))
        · simp [Out.append, hst, hst', Exec.pure, Out.empty, evalStep, printStep]
        · simp [Exec.pure]
      · obtain ⟨p', hst'⟩ := safeEval_raised I _ _ _ _ _ _ h2
        rw [Exec.bind_raised _ _ _ _ h2]
        refine Or.inr (Or.inl ⟨v, t, p, p', ?_, ?_, hv⟩)
        · simp [Out.append, hst, hst', evalStep, printStep]
        · simp
      · exact absurd h2 (safeEval_not_blocked _ _ _ _ _ _)
    · simp only [hv]
      refine Or.inr (Or.inr (Or.inl ⟨v, p, ?_, ?_, by simpa using hv⟩))
      · simp [Out.append, hst, Exec.pure, Out.empty, evalStep]
      · simp [Exec.pure]
  · obtain ⟨p, hst⟩ := safeEval_raised I _ _ _ _ _ _ h1
    rw [Exec.bind_raised _ _ _ _ h1]
    exact Or.inl ⟨t, p, by simp [hst, evalStep], by simp⟩
  · exact absurd h1 (safeEval_not_blocked _ _ _ _ _ _)

/-- Every run of the loop leaves a trace described by `LoopTrace`. -/
theorem loop_trace {W : Type} (I : Collab W) (b : BatchArgs) (es : List Nat) :
    ∀ (i : Nat) (s : Service W),
      LoopTrace b i es
        (executeCodeImpl.loop I b.srcrefs b.env b.withEcho b.isDebug b.withExceptionHandler
          i es s).out.evals
        (executeCodeImpl.loop I b.srcrefs b.env b.withEcho b.isDebug b.withExceptionHandler
          i es s).completion := by
  induction es with
  | nil =>
    intro i s
    simp [executeCodeImpl.loop, pure, Exec.pure, Out.empty]
    exact LoopTrace.done i
  | cons e rest ih =>
    intro i s
    rw [loop_cons_eq]
    rcases iteration_cases I b i e s with
      ⟨t, p, hev, hc⟩ | ⟨v, t, p, p', hev, hc, hv⟩ | ⟨v, p, hev, hc, hv⟩ |
      ⟨v, v', p, p', hev, hc, hv⟩
    · rw [Exec.bind_raised _ _ _ _ hc]
      simp only [hev]
      exact LoopTrace.evalThrew i e rest t p
    · rw [Exec.bind_raised _ _ _ _ hc]
      simp only [hev]
      exact LoopTrace.printThrew i e rest v t p p' hv
    · rw [Exec.bind_ret _ _ _ _ hc]
      simp only [Out.append, hev, List.singleton_append]
      exact LoopTrace.silent i e rest v p _ _ hv (ih _ _)
    · rw [Exec.bind_ret _ _ _ _ hc]
      simp only [Out.append, hev, List.cons_append, List.nil_append]
      exact LoopTrace.printed i e rest v v' p p' _ _ hv (ih _ _)

/-- A loop trace from index `i` on has no entry with a smaller index. -/
theorem LoopTrace.index_ge {b : BatchArgs} {i : Nat} {es : List Nat} {tr : List EvalStep}
    {c : Completion Unit} (h : LoopTrace b i es tr c) : ∀ st ∈ tr, i ≤ st.index := by
  induction h with
  | done i => simp
  | evalThrew i e es t p => simp [evalStep]
  | printThrew i e es v t p p' hv => simp [evalStep, printStep]
  | silent i e es v p tr c hv _ ih =>
    intro st hst
    rcases List.mem_cons.1 hst with rfl | hmem
    · simp [evalStep]
    · exact Nat.le_of_succ_le (ih st hmem)
  | printed i e es v v' p p' tr c hv _ ih =>
    intro st hst
    rcases List.mem_cons.1 hst with rfl | hmem
    · simp [evalStep]
    · rcases List.mem_cons.1 hmem with rfl | hmem'
      · simp [printStep]
      · exact Nat.le_of_succ_le (ih st hmem')

/-- In a loop trace, an entry that raised is the last entry, carries the greatest index,
and its exception is the completion of the loop. -/
theorem LoopTrace.fault_is_last {b : BatchArgs} {i : Nat} {es : List Nat} {tr : List EvalStep}
    {c : Completion Unit} (h : LoopTrace b i es tr c) :
    ∀ (pre post : List EvalStep) (st : EvalStep) (t : Thrown),
      tr = pre ++ st :: post → st.outcome = .threw t →
      post = [] ∧ c = .raised t ∧ ∀ st' ∈ tr, st'.index ≤ st.index := by
  induction h with
  | done i => intro pre post st t h; simp at h
  | evalThrew i e es t p =>
    intro pre post st t' h ho
    rcases pre with _ | ⟨x, pre⟩
    · simp at h
      obtain ⟨rfl, rfl⟩ := h
      simp [evalStep] at ho
      simp [ho, evalStep]
    · simp at h
  | printThrew i e es v t p p' hv =>
    intro pre post st t' h ho
    rcases pre with _ | ⟨x, _ | ⟨y, pre⟩⟩
    · simp at h
      obtain ⟨rfl, -⟩ := h
      simp [evalStep] at ho
    · simp at h
      obtain ⟨-, rfl, rfl⟩ := h
      simp [printStep] at ho
      simp [ho, evalStep, printStep]
    · simp at h
  | silent i e es v p tr c hv htr ih =>
    intro pre post st t' h ho
    rcases pre with _ | ⟨x, pre⟩
    · simp at h
      obtain ⟨rfl, -⟩ := h
      simp [evalStep] at ho
    · simp at h
      obtain ⟨rfl, h⟩ := h
      obtain ⟨h1, h2, h3⟩ := ih pre post st t' h ho
      refine ⟨h1, h2, ?_⟩
      intro st' hst'
      rcases List.mem_cons.1 hst' with rfl | hmem
      · have := htr.index_ge st (by rw [h]; simp)
        simp [evalStep]; omega
      · exact h3 st' hmem
  | printed i e es v v' p p' tr c hv htr ih =>
    intro pre post st t' h ho
    rcases pre with _ | ⟨x, _ | ⟨y, pre⟩⟩
    · simp at h
      obtain ⟨rfl, -⟩ := h
      simp [evalStep] at ho
    · simp at h
      obtain ⟨-, rfl, -⟩ := h
      simp [printStep] at ho
    · simp at h
      obtain ⟨rfl, rfl, h⟩ := h
      obtain ⟨h1, h2, h3⟩ := ih pre post st t' h ho
      refine ⟨h1, h2, ?_⟩
      have := htr.index_ge st (by rw [h]; simp)
      intro st' hst'
      rcases List.mem_cons.1 hst' with rfl | hmem
      · simp [evalStep]; omega
      · rcases List.mem_cons.1 hmem with rfl | hmem'
        · simp [printStep]; omega
        · exact h3 st' hmem'

/-- The trace of `executeCodeImpl` is a trace of its loop, over no expressions at all when
the type guard of line 251 returns early. -/
theorem executeCodeImpl_trace {W : Type} (I : Collab W) (exprs : ExprVector) (env : RObj)
    (withEcho isDebug withExceptionHandler : Bool) (s : Service W) :
    LoopTrace
      { srcrefs := exprs.srcrefs, env := env, withEcho := withEcho, isDebug := isDebug,
        withExceptionHandler := withExceptionHandler }
      0 (if exprs.type ≠ .EXPRSXP ∨ env.type ≠ .ENVSXP then [] else exprs.elems)
      (executeCodeImpl I exprs env withEcho isDebug withExceptionHandler s).out.evals
      (executeCodeImpl I exprs env withEcho isDebug withExceptionHandler s).completion := by
  unfold executeCodeImpl
  by_cases h : exprs.type ≠ .EXPRSXP ∨ env.type ≠ .ENVSXP
  · simp only [h, if_true]
    exact LoopTrace.done 0
  · simp only [h, if_false]
    exact loop_trace I
      { srcrefs := exprs.srcrefs, env := env, withEcho := withEcho, isDebug := isDebug,
        withExceptionHandler := withExceptionHandler } exprs.elems 0 s

/-- C9: in every run of `executeCodeImpl`, if a `safeEval` call (the evaluation step or the
print step of some expression) raises a fault, that call is the last one performed, so no
step of an expression with a greater index is performed, and the fault propagates to the
caller of `executeCodeImpl`. -/
theorem executeCodeImpl_fault_aborts_batch {W : Type} (I : Collab W) (exprs : ExprVector)
    (env : RObj) (withEcho isDebug withExceptionHandler : Bool) (s : Service W)
    (pre post : List EvalStep) (st : EvalStep) (t : Thrown)
    (htrace : (executeCodeImpl I exprs env withEcho isDebug withExceptionHandler s).out.evals
      = pre ++ st :: post)
    (hfault : st.outcome = .threw t) :
    post = [] ∧
    (executeCodeImpl I exprs env withEcho isDebug withExceptionHandler s).completion
      = .raised t ∧
    ∀ st' ∈ (executeCodeImpl I exprs env withEcho isDebug withExceptionHandler s).out.evals,
      st'.index ≤ st.index :=
  (executeCodeImpl_trace I exprs env withEcho isDebug withExceptionHandler s).fault_is_last
    pre post st t htrace hfault

/-- Witness for C9: the evaluation of the second of three expressions raises; the trace
is the evaluation and print of the first and the evaluation of the second. -/
theorem executeCodeImpl_fault_aborts_batch_witness :
    (executeCodeImpl scripted sampleBatch sampleEnv true false true
        (Service.initial faultScript)).out.evals
      = [evalStep sampleArgs 0 10 (.ok { value := 1, visible := true }) [],
          printStep sampleArgs 0 { value := 1, visible := true }
            (.ok { value := 0, visible := false }) []]
        ++ evalStep sampleArgs 1 11 (.threw (.rError sampleError)) [] :: [] ∧
    (executeCodeImpl scripted sampleBatch sampleEnv true false true
        (Service.initial faultScript)).completion = .raised (.rError sampleError) :=
  ⟨by decide,
    (executeCodeImpl_fault_aborts_batch scripted sampleBatch sampleEnv true false true
      (Service.initial faultScript)
      [evalStep sampleArgs 0 10 (.ok { value := 1, visible := true }) [],
        printStep sampleArgs 0 { value := 1, visible := true }
          (.ok { value := 0, visible := false }) []]
      [] (evalStep sampleArgs 1 11 (.threw (.rError sampleError)) [])
      (.rError sampleError) (by decide) rfl).2.1⟩

/-- Returning a value is traced. -/
theorem Traced.pure {W α : Type} (a : α) (s : Service W) : Traced ((Exec.pure a : Exec W α) s) := by
  simp [Traced, Exec.pure, Out.empty]

/-- Sequencing of traced parts is traced. -/
theorem Traced.bind {W α β : Type} (m : Exec W α) (f : α → Exec W β) (s : Service W)
    (hm : Traced (m s)) (hf : ∀ a s', Traced (f a s')) : Traced (Exec.bind m f s) := by
  rcases hc : (m s).completion with a | t | _
  · rw [Exec.bind_ret _ _ _ _ hc]
    have h := hf a (m s).service
    exact ⟨h.1, by simp [Out.append, hm.2, h.2]⟩
  · rw [Exec.bind_raised _ _ _ _ hc]
    exact ⟨by simp, hm.2⟩
  · exact absurd hc hm.1

/-- A `safeEval` call is traced. -/
theorem Traced.safeEval {W : Type} (I : Collab W) (i : Nat) (p : Bool) (c : Code) (env : RObj)
    (s : Service W) : Traced (safeEval I i p c env s) :=
  ⟨safeEval_not_blocked I i p c env s, by simp [safeEval_asyncEvents, safeEval_evals]⟩

/-- One iteration of the loop is traced. -/
theorem Traced.iteration {W : Type} (I : Collab W) (b : BatchArgs) (i e : Nat) (s : Service W) :
    Traced (executeCodeImpl.iteration I b.srcrefs b.env b.withEcho b.isDebug
      b.withExceptionHandler i e s) := by
  rw [iteration_eq]
  refine Traced.bind _ _ _ (Traced.safeEval _ _ _ _ _ _) ?_
  intro v s'
  by_cases hv : (b.withEcho && v.visible) = true
  · simp only [hv, if_true]
    exact Traced.bind _ _ _ (Traced.safeEval _ _ _ _ _ _) (fun _ s'' => Traced.pure _ _)
  · simp only [hv]
    exact Traced.pure _ _

/-- The loop is traced. -/
theorem Traced.loop {W : Type} (I : Collab W) (b : BatchArgs) (es : List Nat) :
    ∀ (i : Nat) (s : Service W),
      Traced (executeCodeImpl.loop I b.srcrefs b.env b.withEcho b.isDebug
        b.withExceptionHandler i es s) := by
  induction es with
  | nil => intro i s; exact Traced.pure _ _
  | cons e rest ih =>
    intro i s
    rw [loop_cons_eq]
    exact Traced.bind _ _ _ (Traced.iteration I b i e s) (fun _ s' => ih _ s')

/-- The function `executeCodeImpl` always ends, and its async events are those pushed during
its `safeEval` calls. -/
theorem Traced.executeCodeImpl {W : Type} (I : Collab W) (exprs : ExprVector) (env : RObj)
    (withEcho isDebug withExceptionHandler : Bool) (s : Service W) :
    Traced (executeCodeImpl I exprs env withEcho isDebug withExceptionHandler s) := by
  unfold Rkernel.executeCodeImpl
  by_cases h : exprs.type ≠ .EXPRSXP ∨ env.type ≠ .ENVSXP
  · simp only [h, if_true]
    exact Traced.pure _ _
  · simp only [h, if_false]
    exact Traced.loop I
      { srcrefs := exprs.srcrefs, env := env, withEcho := withEcho, isDebug := isDebug,
        withExceptionHandler := withExceptionHandler } exprs.elems 0 s


/-- Parsing returns or raises, pushes nothing and leaves `replState` alone. -/
theorem parseSourceFile_cases {W : Type} (I : Collab W) (code sourceFileId : String)
    (offset : Int) (s : Service W) :
    (parseSourceFile I code sourceFileId offset s).out = Out.empty ∧
    (parseSourceFile I code sourceFileId offset s).service.replState = s.replState ∧
    ((∃ exprs, (parseSourceFile I code sourceFileId offset s).completion = .ret exprs) ∨
      (∃ t, (parseSourceFile I code sourceFileId offset s).completion = .raised t)) := by
  unfold parseSourceFile
  rcases I.parseSourceFile code sourceFileId offset s.world with ⟨exprs | t, w⟩ <;> simp

/-- A scoped assignment around a body that ends: the result of the body, with the
previous value put back. -/
theorem scopedAssign_eq {W α β : Type} (get : Service W → β)
    (set : β → Service W → Service W) (value : β) (body : Exec W α) (s e : Service W)
    (r : Ran W α) (he : set value s = e) (hr : body e = r) (hc : r.completion ≠ .blocked) :
    scopedAssign get set value body s = { r with service := set (get s) r.service } := by
  subst he hr
  unfold scopedAssign
  rcases hb : (body (set value s)).completion with a | t | _
  · simp [hb]
  · simp [hb]
  · exact absurd hb hc

/-- A scoped assignment around a body that ends, by components. -/
theorem scopedAssign_facts {W α β : Type} (get : Service W → β)
    (set : β → Service W → Service W) (value : β) (body : Exec W α) (s : Service W)
    (h : (body (set value s)).completion ≠ .blocked) :
    (scopedAssign get set value body s).completion = (body (set value s)).completion ∧
    (scopedAssign get set value body s).out = (body (set value s)).out ∧
    (scopedAssign get set value body s).service = set (get s) (body (set value s)).service := by
  unfold scopedAssign
  rcases hc : (body (set value s)).completion with a | t | _
  · simp [hc]
  · simp [hc]
  · exact absurd hc h

/-- The statements of the `try` block as explicit sequencing. -/
theorem tryBody_eq {W : Type} (I : Collab W) (request : ExecuteCodeRequest)
    (isRepl isDebug resetDebugCommand : Bool) :
    executeCode.tryBody I request isRepl isDebug resetDebugCommand =
  Exec.bind
    (if isRepl = true then
      Exec.bind (pushAsyncEvent .busy) fun _ =>
        Exec.bind (modifyWorld I.resetLastErrorStack) fun _ =>
          if resetDebugCommand = true then modifyWorld I.setCommandContinue else Exec.pure ()
    else Exec.pure ())
    fun _ =>
      Exec.bind
        (parseSourceFile I request.code request.sourceFileId request.sourceFileLineOffset)
        fun expressions =>
          Exec.bind getService fun s =>
            executeCodeImpl I expressions (I.currentEnvironment s) request.withEcho isDebug
              isRepl := rfl

/-- The `try` block is its body under the scoped assignment of `replState`. -/
theorem tryBlock_eq {W : Type} (I : Collab W) (request : ExecuteCodeRequest)
    (isRepl isDebug resetDebugCommand : Bool) (s : Service W) :
    executeCode.tryBlock I request isRepl isDebug resetDebugCommand s
      = withState (if isRepl = true then .REPL_BUSY else s.replState)
          (executeCode.tryBody I request isRepl isDebug resetDebugCommand) s := rfl

/-- The body of the `try` block always ends; its async events are `busy` (REPL turn only)
followed by those pushed during the `safeEval` calls. -/
theorem tryBody_facts {W : Type} (I : Collab W) (request : ExecuteCodeRequest)
    (isRepl isDebug resetDebugCommand : Bool) (s : Service W) :
    (executeCode.tryBody I request isRepl isDebug resetDebugCommand s).completion ≠ .blocked ∧
    (executeCode.tryBody I request isRepl isDebug resetDebugCommand s).out.asyncEvents
      = (if isRepl = true then [AsyncEvent.busy] else []) ++
        ((executeCode.tryBody I request isRepl isDebug resetDebugCommand s).out.evals.map
          fun st => st.pushed).flatten := by
  have key : ∀ s' : Service W,
      Traced (Exec.bind
        (parseSourceFile I request.code request.sourceFileId request.sourceFileLineOffset)
        (fun expressions =>
          Exec.bind getService fun s =>
            executeCodeImpl I expressions (I.currentEnvironment s) request.withEcho isDebug
              isRepl) s') := by
    intro s'
    refine Traced.bind _ _ _ ?_ ?_
    · obtain ⟨h1, -, h3⟩ := parseSourceFile_cases I request.code request.sourceFileId
        request.sourceFileLineOffset s'
      refine ⟨?_, by simp [h1, Out.empty]⟩
      rcases h3 with ⟨e, he⟩ | ⟨t, ht⟩
      · simp [he]
      · simp [ht]
    · intro exprs s''
      refine Traced.bind _ _ _ ?_ ?_
      · simp [Traced, getService, Out.empty]
      · intro s3 s4
        exact Traced.executeCodeImpl _ _ _ _ _ _ _
  rw [tryBody_eq]
  cases isRepl
  · have h := key s
    simp only [Bool.false_eq_true, if_false, List.nil_append]
    rw [Exec.bind_ret _ _ _ () (by simp [Exec.pure])]
    simp only [Exec.pure, Out.append, Out.empty, List.nil_append]
    exact h
  · simp only [if_true]
    cases resetDebugCommand
    · have h := key { s with world := I.resetLastErrorStack s.world }
      rw [Exec.bind_ret _ _ _ ()
        (by simp [Exec.bind, Exec.pure, pushAsyncEvent, modifyWorld, modifyService])]
      simp only [Exec.bind, Exec.pure, pushAsyncEvent, modifyWorld, modifyService, Out.append,
        Out.empty, List.nil_append, List.append_nil, Bool.false_eq_true, if_false] at h ⊢
      exact ⟨h.1, by simp [h.2]⟩
    · have h := key { s with world := I.setCommandContinue (I.resetLastErrorStack s.world) }
      rw [Exec.bind_ret _ _ _ ()
        (by simp [Exec.bind, Exec.pure, pushAsyncEvent, modifyWorld, modifyService])]
      simp only [Exec.bind, Exec.pure, pushAsyncEvent, modifyWorld, modifyService, Out.append,
        Out.empty, List.nil_append, List.append_nil, if_true] at h ⊢
      exact ⟨h.1, by simp [h.2]⟩

/-- The `try` block always ends, leaves `replState` as it found it, and pushes `busy` (REPL
turn only) followed by the events of the `safeEval` calls. -/
theorem tryBlock_facts {W : Type} (I : Collab W) (request : ExecuteCodeRequest)
    (isRepl isDebug resetDebugCommand : Bool) (s : Service W) :
    (executeCode.tryBlock I request isRepl isDebug resetDebugCommand s).completion ≠ .blocked ∧
    (executeCode.tryBlock I request isRepl isDebug resetDebugCommand s).service.replState
      = s.replState ∧
    (executeCode.tryBlock I request isRepl isDebug resetDebugCommand s).out.asyncEvents
      = (if isRepl = true then [AsyncEvent.busy] else []) ++
        ((executeCode.tryBlock I request isRepl isDebug resetDebugCommand s).out.evals.map
          fun st => st.pushed).flatten := by
  rw [tryBlock_eq]
  unfold withState
  have hb := tryBody_facts I request isRepl isDebug resetDebugCommand
    { s with replState := if isRepl = true then .REPL_BUSY else s.replState }
  obtain ⟨h1, h2, h3⟩ := scopedAssign_facts (fun s : Service W => s.replState)
    (fun v s => { s with replState := v }) (if isRepl = true then .REPL_BUSY else s.replState)
    (executeCode.tryBody I request isRepl isDebug resetDebugCommand) s hb.1
  refine ⟨by rw [h1]; exact hb.1, by rw [h3], by rw [h2]; exact hb.2⟩

/-- Appending nothing. -/
theorem Out.append_empty (o : Out) : o.append Out.empty = o := by
  cases o; simp [Out.append, Out.empty]

/-- Every `catch` clause returns, leaves `replState` alone, performs no `safeEval` call and
pushes at most the one exception event of a REPL turn. -/
theorem handlers_facts {W : Type} (I : Collab W) (writer isRepl : Bool) (t : Thrown)
    (s : Service W) :
    (executeCode.handlers I writer isRepl t s).completion = .ret () ∧
    (executeCode.handlers I writer isRepl t s).service.replState = s.replState ∧
    (executeCode.handlers I writer isRepl t s).out.evals = [] ∧
    (executeCode.handlers I writer isRepl t s).out.asyncEvents
      = (if isRepl = true then
          match t with
          | .rError e =>
            [AsyncEvent.exception
              (exceptionToProto e.getRError { message := "", cause := .unset })
              (executeCode.handlers I writer isRepl t s).service.lastErrorStack]
          | .rInterrupted _ =>
            [AsyncEvent.exception { message := "Interrupted", cause := .interrupted } []]
          | .unrecognised _ => []
        else []) := by
  cases t with
  | rError e =>
    cases writer <;> cases isRepl <;>
      simp [executeCode.handlers, bind, Exec.bind, pure, Exec.pure, writerWrite, modifyService,
        getService, sendAsyncEvent, pushAsyncEvent, myWriteConsoleEx, buildStackProto,
        Out.append, Out.empty] <;>
      cases s.outputHandler <;> simp [routeChunk, Out.empty] <;> split <;> simp
  | rInterrupted what =>
    cases writer <;> cases isRepl <;>
      simp [executeCode.handlers, bind, Exec.bind, pure, Exec.pure, writerWrite,
        sendAsyncEvent, pushAsyncEvent, Out.append, Out.empty]
  | unrecognised n =>
    cases isRepl <;> simp [executeCode.handlers, pure, Exec.pure, Out.empty]

/-- The closing block returns, leaves `replState` and `lastErrorStack` alone and, in a REPL
turn, pushes the one closing event chosen by `replState`. -/
theorem closing_facts {W : Type} (I : Collab W) (isRepl : Bool) (s : Service W) :
    (executeCode.closing I isRepl s).completion = .ret () ∧
    (executeCode.closing I isRepl s).service.replState = s.replState ∧
    (executeCode.closing I isRepl s).service.lastErrorStack = s.lastErrorStack ∧
    (executeCode.closing I isRepl s).out.evals = [] ∧
    (executeCode.closing I isRepl s).out.asyncEvents
      = (if isRepl = true then
          [if s.replState = .DEBUG_PROMPT then
            AsyncEvent.debugPrompt { changed := false, stack := [] }
          else AsyncEvent.prompt]
        else []) := by
  cases isRepl
  · simp [executeCode.closing, pure, Exec.pure, Out.empty]
  · by_cases h : s.replState = .DEBUG_PROMPT <;>
      simp [executeCode.closing, bind, Exec.bind, pure, Exec.pure, getService, modifyWorld,
        modifyService, pushAsyncEvent, Out.append, Out.empty, h]

/-- The turn is its `try` block, then the `catch` clause if any, then the closing block;
it always returns, and the two scoped variables are restored. -/
theorem executeCode_run {W : Type} (I : Collab W) (request : ExecuteCodeRequest)
    (writer : Bool) (s : Service W) :
    (executeCode I request writer s).completion = .ret () ∧
    (executeCode I request writer s).service
      = { (closingRun I request writer s).service with
          isReplOutput := s.isReplOutput, outputHandler := s.outputHandler } ∧
    (executeCode I request writer s).out
      = ((tryRun I request writer s).out.append (catchRun I request writer s).out).append
          (closingRun I request writer s).out := by
  have hT := tryBlock_facts I request request.isRepl (request.isRepl && request.isDebug)
    (request.isRepl && request.isDebug && request.resetDebugCommand)
    (executeCode.tryEntry request writer s)
  have hC := closing_facts I request.isRepl (catchRun I request writer s).service
  -- the statements inside the two scoped variables
  have inner :
      Exec.bind
          (tryCatch
            (executeCode.tryBlock I request request.isRepl (request.isRepl && request.isDebug)
              (request.isRepl && request.isDebug && request.resetDebugCommand))
            (executeCode.handlers I writer request.isRepl))
          (fun _ => executeCode.closing I request.isRepl)
          (executeCode.tryEntry request writer s)
        = { completion := .ret ()
            service := (closingRun I request writer s).service
            out := ((tryRun I request writer s).out.append
              (catchRun I request writer s).out).append (closingRun I request writer s).out } := by
    have hcatch :
        tryCatch
            (executeCode.tryBlock I request request.isRepl (request.isRepl && request.isDebug)
              (request.isRepl && request.isDebug && request.resetDebugCommand))
            (executeCode.handlers I writer request.isRepl)
            (executeCode.tryEntry request writer s)
          = { completion := .ret ()
              service := (catchRun I request writer s).service
              out := (tryRun I request writer s).out.append (catchRun I request writer s).out } := by
      unfold tryCatch catchRun
      rcases hc : (tryRun I request writer s).completion with a | t | _
      · unfold tryRun at hc ⊢
        simp only [hc, Out.append_empty]
        rw [← hc]
      · have hH := handlers_facts I writer request.isRepl t (tryRun I request writer s).service
        unfold tryRun at hc hH ⊢
        simp [hc, hH.1]
      · exact absurd hc hT.1
    rw [Exec.bind_ret _ _ _ () (by rw [hcatch])]
    rw [hcatch]
    simp [closingRun, hC.1]
  have hentry : executeCode.tryEntry request writer s
      = { s with
          isReplOutput := request.isRepl && !(request.streamOutput && writer)
          outputHandler :=
            if (request.isRepl && !(request.streamOutput && writer)) = true then .repl
            else .turn (request.streamOutput && writer) } := rfl
  have hin := scopedAssign_eq (fun s : Service W => s.outputHandler)
    (fun v s => { s with outputHandler := v })
    (if (request.isRepl && !(request.streamOutput && writer)) = true then OutputHandler.repl
      else .turn (request.streamOutput && writer))
    _ { s with isReplOutput := request.isRepl && !(request.streamOutput && writer) }
    (executeCode.tryEntry request writer s) _ rfl inner (by simp)
  have hbody :
      (Exec.bind getService fun s' =>
        withOutputHandler
          (if s'.isReplOutput = true then OutputHandler.repl
            else .turn (request.streamOutput && writer))
          (Exec.bind
            (tryCatch
              (executeCode.tryBlock I request request.isRepl (request.isRepl && request.isDebug)
                (request.isRepl && request.isDebug && request.resetDebugCommand))
              (executeCode.handlers I writer request.isRepl))
            (fun _ => executeCode.closing I request.isRepl)))
        { s with isReplOutput := request.isRepl && !(request.streamOutput && writer) }
      = { completion := .ret ()
          service := { (closingRun I request writer s).service with
            outputHandler := s.outputHandler }
          out := ((tryRun I request writer s).out.append
              (catchRun I request writer s).out).append (closingRun I request writer s).out } := by
    rw [Exec.bind_ret _ _ _ _ (rfl : (getService _).completion = .ret _)]
    simp only [getService, withOutputHandler, hin, Out.append, Out.empty, List.nil_append]
  have hout := scopedAssign_eq (fun s : Service W => s.isReplOutput)
    (fun v s => { s with isReplOutput := v })
    (request.isRepl && !(request.streamOutput && writer)) _ s _ _ rfl hbody (by simp)
  have hexec : executeCode I request writer s
      = scopedAssign (fun s : Service W => s.isReplOutput)
          (fun v s => { s with isReplOutput := v })
          (request.isRepl && !(request.streamOutput && writer))
          (Exec.bind getService fun s' =>
            withOutputHandler
              (if s'.isReplOutput = true then OutputHandler.repl
                else .turn (request.streamOutput && writer))
              (Exec.bind
                (tryCatch
                  (executeCode.tryBlock I request request.isRepl
                    (request.isRepl && request.isDebug)
                    (request.isRepl && request.isDebug && request.resetDebugCommand))
                  (executeCode.handlers I writer request.isRepl))
                (fun _ => executeCode.closing I request.isRepl))) s := rfl
  rw [hexec, hout]
  exact ⟨rfl, rfl, rfl⟩

/-- The fault of the turn is what the run of the `try` block raised. -/
theorem thrown_eq {W : Type} (I : Collab W) (request : ExecuteCodeRequest) (writer : Bool)
    (s : Service W) :
    executeCode.thrown I request writer s
      = (match (tryRun I request writer s).completion with
        | .raised t => some t
        | _ => none) := rfl

/-- What the `catch` clause of a turn does, by the fault of the turn. -/
theorem catchRun_facts {W : Type} (I : Collab W) (request : ExecuteCodeRequest) (writer : Bool)
    (s : Service W) :
    (catchRun I request writer s).service.replState = s.replState ∧
    (catchRun I request writer s).out.evals = [] ∧
    (catchRun I request writer s).out.asyncEvents
      = (if request.isRepl = true then
          match executeCode.thrown I request writer s with
          | some (.rError e) =>
            [AsyncEvent.exception
              (exceptionToProto e.getRError { message := "", cause := .unset })
              (catchRun I request writer s).service.lastErrorStack]
          | some (.rInterrupted _) =>
            [AsyncEvent.exception { message := "Interrupted", cause := .interrupted } []]
          | _ => []
        else []) ∧
    (∀ e, executeCode.thrown I request writer s = some (.rError e) → request.isRepl = true →
      (catchRun I request writer s).service.lastErrorStack
        = I.getLastErrorStack (tryRun I request writer s).service.world) := by
  have hT := tryBlock_facts I request request.isRepl (request.isRepl && request.isDebug)
    (request.isRepl && request.isDebug && request.resetDebugCommand)
    (executeCode.tryEntry request writer s)
  have hrs : (tryRun I request writer s).service.replState = s.replState := hT.2.1
  rw [thrown_eq]
  unfold catchRun
  rcases hc : (tryRun I request writer s).completion with a | t | _
  · simp [hrs, Out.empty]
  · have hH := handlers_facts I writer request.isRepl t (tryRun I request writer s).service
    refine ⟨by simp only [hH.2.1, hrs], by simp only [hH.2.2.1], ?_, ?_⟩
    · simp only [hH.2.2.2]
      cases t <;> simp
    · intro e he hrepl
      simp only [Option.some.injEq] at he
      subst he
      cases writer <;>
        simp [executeCode.handlers, hrepl, bind, Exec.bind, pure, Exec.pure, writerWrite,
          modifyService, getService, sendAsyncEvent, pushAsyncEvent]
  · exact absurd hc hT.1

/-- Summary of a turn: it returns, `replState` is restored, and the async events are `busy`,
the events of the `safeEval` calls, the events of the `catch` clause and the closing
event (the first and the last in a REPL turn only). -/
theorem executeCode_facts {W : Type} (I : Collab W) (request : ExecuteCodeRequest)
    (writer : Bool) (s : Service W) :
    (executeCode I request writer s).completion = .ret () ∧
    (executeCode I request writer s).service.replState = s.replState ∧
    (executeCode I request writer s).service.lastErrorStack
      = (catchRun I request writer s).service.lastErrorStack ∧
    (executeCode I request writer s).out.evals = (tryRun I request writer s).out.evals ∧
    (executeCode I request writer s).out.asyncEvents
      = (if request.isRepl = true then [AsyncEvent.busy] else []) ++
        ((executeCode I request writer s).out.evals.map fun st => st.pushed).flatten ++
        (catchRun I request writer s).out.asyncEvents ++
        (if request.isRepl = true then
          [if (executeCode I request writer s).service.replState = .DEBUG_PROMPT then
            AsyncEvent.debugPrompt { changed := false, stack := [] }
          else AsyncEvent.prompt]
        else []) := by
  obtain ⟨h1, h2, h3⟩ := executeCode_run I request writer s
  have hT := tryBlock_facts I request request.isRepl (request.isRepl && request.isDebug)
    (request.isRepl && request.isDebug && request.resetDebugCommand)
    (executeCode.tryEntry request writer s)
  have hK := catchRun_facts I request writer s
  have hC := closing_facts I request.isRepl (catchRun I request writer s).service
  have hstate : (executeCode I request writer s).service.replState = s.replState := by
    rw [h2]
    show (closingRun I request writer s).service.replState = s.replState
    unfold closingRun
    rw [hC.2.1, hK.1]
  have hevals : (executeCode I request writer s).out.evals
      = (tryRun I request writer s).out.evals := by
    rw [h3]
    simp [Out.append, closingRun, hC.2.2.2.1, hK.2.1]
  refine ⟨h1, hstate, ?_, hevals, ?_⟩
  · rw [h2]
    show (closingRun I request writer s).service.lastErrorStack = _
    unfold closingRun
    rw [hC.2.2.1]
  · rw [hevals, hstate, h3]
    simp only [Out.append, closingRun, hC.2.2.2.2, hK.1]
    unfold tryRun
    rw [hT.2.2]

/-! ### `replState` along the `try` block -/

/-- Sequencing of parts that leave `replState` as they found it. -/
theorem Exec.bind_replState {W α β : Type} (m : Exec W α) (f : α → Exec W β)
    (hm : ∀ s, (m s).service.replState = s.replState)
    (hf : ∀ a s, (f a s).service.replState = s.replState) (s : Service W) :
    (Exec.bind m f s).service.replState = s.replState := by
  unfold Exec.bind
  rcases hc : (m s).completion with a | t | _
  · simp [hc, hf, hm]
  · simp [hc, hm]
  · simp [hc, hm]

/-- One iteration of the loop leaves `replState` alone when the interpreter does. -/
theorem iteration_replState {W : Type} (I : Collab W)
    (hkeep : ∀ c env s, (I.safeEval c env s).service.replState = s.replState)
    (b : BatchArgs) (i e : Nat) (s : Service W) :
    (executeCodeImpl.iteration I b.srcrefs b.env b.withEcho b.isDebug b.withExceptionHandler
      i e s).service.replState = s.replState := by
  rw [iteration_eq]
  refine Exec.bind_replState _ _ (fun s' => hkeep _ _ s') ?_ s
  intro v s'
  by_cases hv : (b.withEcho && v.visible) = true
  · simp only [hv, if_true]
    exact Exec.bind_replState _ _ (fun s'' => hkeep _ _ s'') (fun _ _ => rfl) s'
  · simp only [hv]
    rfl

/-- The loop leaves `replState` alone when the interpreter does. -/
theorem loop_replState {W : Type} (I : Collab W)
    (hkeep : ∀ c env s, (I.safeEval c env s).service.replState = s.replState)
    (b : BatchArgs) (es : List Nat) :
    ∀ (i : Nat) (s : Service W),
      (executeCodeImpl.loop I b.srcrefs b.env b.withEcho b.isDebug b.withExceptionHandler
        i es s).service.replState = s.replState := by
  induction es with
  | nil => intro i s; rfl
  | cons e rest ih =>
    intro i s
    rw [loop_cons_eq]
    exact Exec.bind_replState _ _ (iteration_replState I hkeep b i e) (fun _ s' => ih _ s') s

/-- The function `executeCodeImpl` leaves `replState` alone when the interpreter does. -/
theorem executeCodeImpl_replState {W : Type} (I : Collab W)
    (hkeep : ∀ c env s, (I.safeEval c env s).service.replState = s.replState)
    (exprs : ExprVector) (env : RObj) (withEcho isDebug withExceptionHandler : Bool)
    (s : Service W) :
    (executeCodeImpl I exprs env withEcho isDebug withExceptionHandler s).service.replState
      = s.replState := by
  unfold Rkernel.executeCodeImpl
  by_cases h : exprs.type ≠ .EXPRSXP ∨ env.type ≠ .ENVSXP
  · simp only [h, if_true]
    rfl
  · simp only [h, if_false]
    exact loop_replState I hkeep
      { srcrefs := exprs.srcrefs, env := env, withEcho := withEcho, isDebug := isDebug,
        withExceptionHandler := withExceptionHandler } exprs.elems 0 s

/-- The statements of the `try` block never assign `replState` themselves: they end with
the value they started with when every interpreter call does. -/
theorem tryBody_replState {W : Type} (I : Collab W)
    (hkeep : ∀ c env s, (I.safeEval c env s).service.replState = s.replState)
    (request : ExecuteCodeRequest) (isRepl isDebug resetDebugCommand : Bool) (s : Service W) :
    (executeCode.tryBody I request isRepl isDebug resetDebugCommand s).service.replState
      = s.replState := by
  rw [tryBody_eq]
  refine Exec.bind_replState _ _ ?_ ?_ s
  · intro s'
    cases isRepl <;> cases resetDebugCommand <;>
      simp [Exec.bind, Exec.pure, pushAsyncEvent, modifyWorld, modifyService]
  · intro _ s'
    refine Exec.bind_replState _ _ ?_ ?_ s'
    · intro s''
      exact (parseSourceFile_cases I _ _ _ s'').2.1
    · intro exprs s''
      refine Exec.bind_replState _ _ (fun _ => rfl) ?_ s''
      intro s3 s4
      exact executeCodeImpl_replState I hkeep _ _ _ _ _ s4

/-- The `try` block is the run of its statements from the state the scoped assignment sets
up, with `replState` put back to the value of the start of the turn. -/
theorem tryRun_eq_bodyRun {W : Type} (I : Collab W) (request : ExecuteCodeRequest)
    (writer : Bool) (s : Service W) :
    tryRun I request writer s
      = { completion := (bodyRun I request writer s).completion
          service := { (bodyRun I request writer s).service with replState := s.replState }
          out := (bodyRun I request writer s).out } := by
  have hb := tryBody_facts I request request.isRepl (request.isRepl && request.isDebug)
    (request.isRepl && request.isDebug && request.resetDebugCommand)
    { executeCode.tryEntry request writer s with
      replState := if request.isRepl = true then .REPL_BUSY else s.replState }
  unfold tryRun
  rw [tryBlock_eq]
  unfold withState
  exact scopedAssign_eq (fun s : Service W => s.replState)
    (fun v s => { s with replState := v }) _ _ (executeCode.tryEntry request writer s) _ _ rfl rfl
    hb.1

/-! ### State and events of a whole turn -/

/-- C6 (as stated, refuted): a REPL turn run from the initial service state
(`replState = REPL_BUSY`) finishes with `replState = REPL_BUSY`, which is neither `PROMPT`
nor `DEBUG_PROMPT`, although the last event it pushes is `prompt`. -/
theorem executeCode_from_initial_state_ends_busy :
    replRequest.isRepl = true ∧
    (Service.initial quietScript).replState = .REPL_BUSY ∧
    (executeCode scripted replRequest false (Service.initial quietScript)).completion
      = .ret () ∧
    (executeCode scripted replRequest false (Service.initial quietScript)).service.replState
      = .REPL_BUSY ∧
    (executeCode scripted replRequest false (Service.initial quietScript)).service.replState
      ≠ .PROMPT ∧
    (executeCode scripted replRequest false (Service.initial quietScript)).service.replState
      ≠ .DEBUG_PROMPT ∧
    (executeCode scripted replRequest false
      (Service.initial quietScript)).out.asyncEvents.getLast? = some .prompt := by
  decide

/-- C6 (amended): for every turn, REPL or not, from every service state and for every
outcome of parsing and evaluation, `replState` when the work item of `executeCode`
finishes equals `replState` when it started; so it is `PROMPT` or `DEBUG_PROMPT` at the
end exactly when the turn was started from `PROMPT` or `DEBUG_PROMPT`. Every collaborator
call of the embedding returns or throws, and the first conjunct records that the work item
then finishes, so that the end spoken of exists.

The other conjuncts say where `REPL_BUSY` is in force. The `try` block is the run of its
statements from the state in which `replState` is `REPL_BUSY` (REPL turn; unchanged
otherwise), with `replState` put back to the starting value when the block is left; the
evaluation calls of the turn are those of that run; when every interpreter call returns
with `replState` as it found it, the statements also end with `replState = REPL_BUSY` in a
REPL turn; and the `catch` clause and the closing block start with the value of the start
of the turn, which chooses the closing event. -/
theorem executeCode_restores_replState {W : Type} (I : Collab W)
    (request : ExecuteCodeRequest) (writer : Bool) (s : Service W) :
    (executeCode I request writer s).completion = .ret () ∧
    (executeCode I request writer s).service.replState = s.replState ∧
    (((executeCode I request writer s).service.replState = .PROMPT ∨
        (executeCode I request writer s).service.replState = .DEBUG_PROMPT) ↔
      (s.replState = .PROMPT ∨ s.replState = .DEBUG_PROMPT)) ∧
    bodyRun I request writer s
      = executeCode.tryBody I request request.isRepl (request.isRepl && request.isDebug)
          (request.isRepl && request.isDebug && request.resetDebugCommand)
          { executeCode.tryEntry request writer s with
            replState := if request.isRepl then .REPL_BUSY else s.replState } ∧
    tryRun I request writer s
      = { completion := (bodyRun I request writer s).completion
          service := { (bodyRun I request writer s).service with replState := s.replState }
          out := (bodyRun I request writer s).out } ∧
    (executeCode I request writer s).out.evals = (bodyRun I request writer s).out.evals ∧
    ((∀ c env s', (I.safeEval c env s').service.replState = s'.replState) →
      (bodyRun I request writer s).service.replState
        = if request.isRepl then .REPL_BUSY else s.replState) ∧
    (tryRun I request writer s).service.replState = s.replState ∧
    (catchRun I request writer s).service.replState = s.replState ∧
    (closingRun I request writer s).out.asyncEvents
      = (if request.isRepl = true then
          [if s.replState = .DEBUG_PROMPT then
            AsyncEvent.debugPrompt { changed := false, stack := [] }
          else AsyncEvent.prompt]
        else []) := by
  obtain ⟨h1, h2, -, h4, -⟩ := executeCode_facts I request writer s
  have hT := tryRun_eq_bodyRun I request writer s
  have hK := catchRun_facts I request writer s
  have hC := closing_facts I request.isRepl (catchRun I request writer s).service
  refine ⟨h1, h2, by rw [h2], rfl, hT, ?_, ?_, ?_, hK.1, ?_⟩
  · rw [h4, hT]
  · intro hkeep
    exact tryBody_replState I hkeep request _ _ _ _
  · rw [hT]
  · unfold closingRun
    rw [hC.2.2.2.2, hK.1]

/-- Witness for C6 (amended): a REPL turn started at the prompt whose second expression
raises. The scripted interpreter leaves `replState` alone; the statements of the `try`
block end in `REPL_BUSY` with the exception, and the turn ends at `PROMPT`. -/
theorem executeCode_restores_replState_witness :
    (∀ (c : Code) (env : RObj) (s' : Service Script),
      (scripted.safeEval c env s').service.replState = s'.replState) ∧
    replRequest.isRepl = true ∧
    promptState.replState = .PROMPT ∧
    (bodyRun scripted replRequest false promptState).completion
      = .raised (.rError sampleError) ∧
    (bodyRun scripted replRequest false promptState).service.replState = .REPL_BUSY ∧
    (executeCode scripted replRequest false promptState).service.replState = .PROMPT :=
  ⟨fun c env s' => by simp only [scripted]; split <;> rfl, rfl, rfl, by decide,
    (executeCode_restores_replState scripted replRequest false promptState).2.2.2.2.2.2.1
      (fun c env s' => by simp only [scripted]; split <;> rfl),
    (executeCode_restores_replState scripted replRequest false promptState).2.1⟩

/-- C7: the async events of a REPL turn are, in order: `busy`; the events pushed while the
`safeEval` calls of the turn ran; one exception event exactly when the `try` block was left
by an `RError` or an `RInterruptedException`; and one closing event, which is
`debugPrompt` with `changed = false` when `replState` is `DEBUG_PROMPT` at the end of the
turn and `prompt` otherwise. -/
theorem executeCode_repl_event_shape {W : Type} (I : Collab W) (request : ExecuteCodeRequest)
    (writer : Bool) (s : Service W) (hrepl : request.isRepl = true) :
    ∃ report : List AsyncEvent,
      (executeCode I request writer s).out.asyncEvents
        = .busy ::
          (((executeCode I request writer s).out.evals.map fun st => st.pushed).flatten
            ++ report
            ++ [if (executeCode I request writer s).service.replState = .DEBUG_PROMPT then
                  .debugPrompt { changed := false, stack := [] }
                else .prompt]) ∧
      ((report = [] ∧
          ∀ t, executeCode.thrown I request writer s = some t → ∃ n, t = .unrecognised n) ∨
        (∃ info stack, report = [.exception info stack] ∧
          ∃ t, executeCode.thrown I request writer s = some t ∧ ∀ n, t ≠ .unrecognised n)) := by
  obtain ⟨-, -, -, -, hev⟩ := executeCode_facts I request writer s
  obtain ⟨-, -, hrep, -⟩ := catchRun_facts I request writer s
  refine ⟨(catchRun I request writer s).out.asyncEvents, ?_, ?_⟩
  · rw [hev]
    simp [hrepl]
  · rw [hrep]
    simp only [hrepl, if_true]
    rcases hth : executeCode.thrown I request writer s with _ | t
    · simp
    · cases t with
      | rError e => exact Or.inr ⟨_, _, rfl, _, rfl, by simp⟩
      | rInterrupted what => exact Or.inr ⟨_, _, rfl, _, rfl, by simp⟩
      | unrecognised n => exact Or.inl ⟨rfl, by simp⟩

/-- Witness for C7: a REPL turn whose second evaluation raises an ordinary error. -/
theorem executeCode_repl_event_shape_witness :
    replRequest.isRepl = true ∧
    (executeCode scripted replRequest false (Service.initial faultScript)).out.asyncEvents
      = [.busy,
          .exception { message := "boom", cause := .simpleError } [{ id := 3 }],
          .prompt] ∧
    ∃ report : List AsyncEvent,
      (executeCode scripted replRequest false (Service.initial faultScript)).out.asyncEvents
        = .busy ::
          (((executeCode scripted replRequest false
              (Service.initial faultScript)).out.evals.map fun st => st.pushed).flatten
            ++ report
            ++ [if (executeCode scripted replRequest false
                  (Service.initial faultScript)).service.replState = .DEBUG_PROMPT then
                  .debugPrompt { changed := false, stack := [] }
                else .prompt]) :=
  ⟨rfl, by decide,
    (executeCode_repl_event_shape scripted replRequest false (Service.initial faultScript)
      rfl).imp fun _ h => h.1⟩

/-- C8 (as stated, refuted): a REPL turn ends with an `RError` whose condition inherits
class `interrupt` while the debugger holds a captured stack; the exception event carries
the message and the interrupted cause, and a stack that is not empty. -/
theorem executeCode_interrupt_error_event_carries_stack :
    replRequest.isRepl = true ∧
    "interrupt" ∈ interruptError.getRError.classes ∧
    executeCode.thrown scripted replRequest false (Service.initial interruptErrorScript)
      = some (.rError interruptError) ∧
    (executeCode scripted replRequest false
        (Service.initial interruptErrorScript)).out.asyncEvents
      = [.busy,
          .exception { message := "Interrupted", cause := .interrupted } [{ id := 3 }],
          .prompt] := by
  decide

/-- C8 (amended): when a REPL turn ends with an interrupted condition, the one exception
event of the turn carries the message "Interrupted" and the interrupted cause. Its stack
is empty when the condition is an `RInterruptedException`; when it is an `RError` whose
condition inherits class `interrupt`, its stack is the last-error stack the debugger
holds when the fault is caught (also stored in `lastErrorStack`). -/
theorem executeCode_interrupted_event {W : Type} (I : Collab W) (request : ExecuteCodeRequest)
    (writer : Bool) (s : Service W) (t : Thrown) (hrepl : request.isRepl = true)
    (hthrown : executeCode.thrown I request writer s = some t)
    (hinterrupted : (∃ what, t = .rInterrupted what) ∨
      ∃ e, t = .rError e ∧ "interrupt" ∈ e.getRError.classes) :
    ∃ stack : List RDebuggerStackFrame,
      (executeCode I request writer s).out.asyncEvents
        = .busy ::
          (((executeCode I request writer s).out.evals.map fun st => st.pushed).flatten
            ++ [.exception { message := "Interrupted", cause := .interrupted } stack,
                if (executeCode I request writer s).service.replState = .DEBUG_PROMPT then
                  .debugPrompt { changed := false, stack := [] }
                else .prompt]) ∧
      ((∃ what, t = .rInterrupted what) → stack = []) ∧
      ((∃ e, t = .rError e) →
        stack = I.getLastErrorStack (tryRun I request writer s).service.world ∧
        stack = (executeCode I request writer s).service.lastErrorStack) := by
  obtain ⟨-, -, hstack, -, hev⟩ := executeCode_facts I request writer s
  obtain ⟨-, -, hrep, hlast⟩ := catchRun_facts I request writer s
  rw [hthrown] at hrep
  simp only [hrepl, if_true] at hrep hev
  rcases hinterrupted with ⟨what, rfl⟩ | ⟨e, rfl, hclass⟩
  · refine ⟨[], ?_, fun _ => rfl, ?_⟩
    · rw [hev, hrep]
      simp
    · rintro ⟨e, he⟩
      simp at he
  · refine ⟨(catchRun I request writer s).service.lastErrorStack, ?_, ?_, ?_⟩
    · rw [hev, hrep]
      simp [exceptionToProto, hclass]
    · rintro ⟨what, he⟩
      simp at he
    · intro _
      exact ⟨hlast e hthrown hrepl, hstack.symm⟩

/-- Witness for C8 (amended): a REPL turn whose first evaluation raises
`RInterruptedException`. -/
theorem executeCode_interrupted_event_witness :
    replRequest.isRepl = true ∧
    executeCode.thrown scripted replRequest false (Service.initial interruptedScript)
      = some (.rInterrupted "Interrupted") ∧
    ∃ stack : List RDebuggerStackFrame,
      (executeCode scripted replRequest false
          (Service.initial interruptedScript)).out.asyncEvents
        = .busy ::
          (((executeCode scripted replRequest false
              (Service.initial interruptedScript)).out.evals.map fun st => st.pushed).flatten
            ++ [.exception { message := "Interrupted", cause := .interrupted } stack,
                if (executeCode scripted replRequest false
                    (Service.initial interruptedScript)).service.replState = .DEBUG_PROMPT then
                  .debugPrompt { changed := false, stack := [] }
                else .prompt]) :=
  ⟨rfl, by decide,
    (executeCode_interrupted_event scripted replRequest false
      (Service.initial interruptedScript) (.rInterrupted "Interrupted") rfl (by decide)
      (Or.inl ⟨_, rfl⟩)).imp fun _ h => h.1⟩

/-! ## Fault causes, read-line events and line delivery -/

/-- The event loop of the embedding pushes nothing itself. -/
theorem runEventLoop_out {W : Type} (ticks : List Tick) :
    ∀ s : Service W, (runEventLoop ticks s).out = Out.empty := by
  induction ticks with
  | nil => intro s; rfl
  | cons t rest ih =>
    intro s
    cases t with
    | replInterrupt => simp only [runEventLoop]; exact ih _
    | sendReadLn text => simp only [runEventLoop]; exact ih _
    | pump =>
      simp only [runEventLoop]
      rcases hq : s.eventLoopQueue with _ | ⟨a, queue⟩
      · simp only []; exact ih _
      · simp only []
        rcases hr : a.run { s with eventLoopQueue := queue } with ⟨s', _ | v⟩
        · simp only []; exact ih _
        · simp only []

/-- The run of `readLineHandler` from `REPL_BUSY` when the nested loop returns `v`: the
request event, whatever the loop sent, the `busy` event; `replState` is put back. -/
theorem readLineHandler_of_loop_ret {W : Type} (loop : Exec W String) (text : String)
    (s : Service W) (v : String) (hbusy : s.replState = .REPL_BUSY)
    (hloop : (loop { s with replState := .READ_LINE }).completion = .ret v) :
    readLineHandler loop text s
      = { completion := .ret v
          service :=
            { (loop { s with replState := .READ_LINE }).service with replState := .REPL_BUSY }
          out :=
            { Out.empty with
              asyncEvents := .requestReadLn text ::
                ((loop { s with replState := .READ_LINE }).out.asyncEvents ++ [.busy])
              written := (loop { s with replState := .READ_LINE }).out.written
              replOutput := (loop { s with replState := .READ_LINE }).out.replOutput
              outerOutput := (loop { s with replState := .READ_LINE }).out.outerOutput
              evals := (loop { s with replState := .READ_LINE }).out.evals } } := by
  simp [readLineHandler, bind, Exec.bind, getService, pushAsyncEvent, withState, scopedAssign,
    pure, Exec.pure, Out.append, Out.empty, hbusy, hloop]

/-- Every prefix whose elements all satisfy `p` is a prefix of `takeWhile p`. -/
theorem takeWhile_longest (p : Char → Bool) (l : List Char) :
    ∀ q : List Char, q <+: l → (∀ c ∈ q, p c = true) → q <+: l.takeWhile p := by
  induction l with
  | nil => intro q hq _; simpa using hq
  | cons a l ih =>
    intro q hq hall
    rcases q with _ | ⟨b, q⟩
    · exact List.nil_prefix
    · have hb := List.cons_prefix_cons.1 hq
      obtain ⟨rfl, hq'⟩ := hb
      have hpa : p b = true := hall b (List.mem_cons_self _ _)
      simp only [List.takeWhile_cons, hpa, if_true]
      exact List.cons_prefix_cons.2
        ⟨rfl, ih q hq' (fun c hc => hall c (List.mem_cons_of_mem _ hc))⟩

/-- The text left by `eraseFromNewline` is the longest prefix without a newline. -/
theorem eraseFromNewline_facts (text : String) :
    (eraseFromNewline text).data <+: text.data ∧
    '\n' ∉ (eraseFromNewline text).data ∧
    (∀ q : List Char, q <+: text.data → '\n' ∉ q → q <+: (eraseFromNewline text).data) ∧
    ('\n' ∉ text.data → eraseFromNewline text = text) := by
  refine ⟨?_, ?_, ?_, ?_⟩
  · exact List.takeWhile_prefix _
  · intro h
    have := List.mem_takeWhile_imp h
    simp at this
  · intro q hq hn
    refine takeWhile_longest _ _ q hq ?_
    intro c hc
    have : c ≠ '\n' := fun h => hn (h ▸ hc)
    simpa using this
  · intro hn
    have : text.data.takeWhile (fun c => c != '\n') = text.data := by
      rw [List.takeWhile_eq_self_iff]
      intro c hc
      have : c ≠ '\n' := fun h => hn (h ▸ hc)
      simpa using this
    show String.mk (text.data.takeWhile fun c => c != '\n') = text
    rw [this]

/-- C13: for every condition `e` that does not inherit class `interrupt`, and whatever the
message being filled held before, `exceptionToProto` sets the message to the condition
message of `e`, or to "Error" when it cannot be obtained; the cause is
`packageNotFound(p)`, with `p` the package field of `e`, exactly when `e` inherits
`packageNotFoundError` and `p` is not empty, and `simpleError` otherwise; so exactly one
cause variant is set. -/
theorem exceptionToProto_ordinary_cause (e : Condition) (proto : ExceptionInfo)
    (hordinary : "interrupt" ∉ e.classes) :
    (exceptionToProto e proto).message
      = (match e.conditionMessage with
        | some m => m
        | none => "Error") ∧
    ((exceptionToProto e proto).cause = .packageNotFound e.package ↔
      ("packageNotFoundError" ∈ e.classes ∧ e.package ≠ "")) ∧
    ((exceptionToProto e proto).cause = .simpleError ↔
      ¬ ("packageNotFoundError" ∈ e.classes ∧ e.package ≠ "")) ∧
    ((exceptionToProto e proto).cause = .packageNotFound e.package ∨
      (exceptionToProto e proto).cause = .simpleError) ∧
    (exceptionToProto e proto).cause ≠ .unset ∧
    (exceptionToProto e proto).cause ≠ .interrupted := by
  have hempty : e.package ≠ "" ↔ e.package.isEmpty = false := by
    rw [Ne, ← String.isEmpty_iff, Bool.not_eq_true]
  rw [hempty]
  by_cases hp : "packageNotFoundError" ∈ e.classes ∧ e.package.isEmpty = false
  · rcases hm : e.conditionMessage with _ | m <;>
      simp [exceptionToProto, hordinary, hp, hm]
  · rcases hm : e.conditionMessage with _ | m <;>
      simp [exceptionToProto, hordinary, hp, hm]

/-- Witness for C13: a `packageNotFoundError` condition with a package name, and an
ordinary error. -/
theorem exceptionToProto_ordinary_cause_witness :
    "interrupt" ∉ packageNotFoundCondition.classes ∧
    (exceptionToProto packageNotFoundCondition { message := "", cause := .unset }).cause
      = .packageNotFound "ggplot2" ∧
    (exceptionToProto sampleError.getRError { message := "", cause := .unset }).message
      = "boom" ∧
    (exceptionToProto sampleError.getRError { message := "", cause := .unset }).cause
      = .simpleError :=
  ⟨by decide,
    ((exceptionToProto_ordinary_cause packageNotFoundCondition { message := "", cause := .unset }
      (by decide)).2.1).2 ⟨by decide, by decide⟩,
    (exceptionToProto_ordinary_cause sampleError.getRError { message := "", cause := .unset }
      (by decide)).1,
    ((exceptionToProto_ordinary_cause sampleError.getRError { message := "", cause := .unset }
      (by decide)).2.2.1).2 (by decide)⟩

/-- C14: `readLineHandler(p)` called in `REPL_BUSY` pushes the `requestReadLn(p)` event and
then waits in the loop with `replState = READ_LINE`; when the loop is broken with a value
it pushes one `busy` event and returns that value with `replState = REPL_BUSY`. The
events of the call are the request, what was pushed by work run inside the loop, and
`busy`; with the event loop of posted actions they are exactly `requestReadLn(p)`,
`busy`. -/
theorem readLineHandler_request_then_busy {W : Type} (s : Service W) (text : String)
    (hbusy : s.replState = .REPL_BUSY) :
    readLineHandler (runEventLoop []) text s
      = { completion := .blocked
          service := { s with replState := .READ_LINE }
          out := { Out.empty with asyncEvents := [.requestReadLn text] } } ∧
    (∀ (loop : Exec W String) (v : String),
      (loop { s with replState := .READ_LINE }).completion = .ret v →
      (readLineHandler loop text s).completion = .ret v ∧
      (readLineHandler loop text s).service.replState = .REPL_BUSY ∧
      (readLineHandler loop text s).out.asyncEvents
        = .requestReadLn text ::
          ((loop { s with replState := .READ_LINE }).out.asyncEvents ++ [.busy])) ∧
    (∀ (ticks : List Tick) (v : String),
      (runEventLoop ticks { s with replState := .READ_LINE }).completion = .ret v →
      (readLineHandler (runEventLoop ticks) text s).completion = .ret v ∧
      (readLineHandler (runEventLoop ticks) text s).service.replState = .REPL_BUSY ∧
      (readLineHandler (runEventLoop ticks) text s).out.asyncEvents
        = [.requestReadLn text, .busy]) := by
  refine ⟨?_, ?_, ?_⟩
  · simp [readLineHandler, runEventLoop, bind, Exec.bind, getService, pushAsyncEvent,
      withState, scopedAssign, Out.append, Out.empty, hbusy]
  · intro loop v hloop
    rw [readLineHandler_of_loop_ret loop text s v hbusy hloop]
    exact ⟨rfl, rfl, rfl⟩
  · intro ticks v hloop
    rw [readLineHandler_of_loop_ret (runEventLoop ticks) text s v hbusy hloop]
    refine ⟨rfl, rfl, ?_⟩
    simp [runEventLoop_out, Out.empty]

/-- Witness for C14: a read from the initial state answered by `sendReadLn("5")`. -/
theorem readLineHandler_request_then_busy_witness :
    (Service.initial ()).replState = .REPL_BUSY ∧
    (readLineHandler (runEventLoop [.sendReadLn "5", .pump]) "> "
      (Service.initial ())).completion = .ret "5" ∧
    (readLineHandler (runEventLoop [.sendReadLn "5", .pump]) "> "
      (Service.initial ())).out.asyncEvents = [.requestReadLn "> ", .busy] :=
  ⟨rfl,
    ((readLineHandler_request_then_busy (Service.initial ()) "> " rfl).2.2
      [.sendReadLn "5", .pump] "5" (by decide)).1,
    ((readLineHandler_request_then_busy (Service.initial ()) "> " rfl).2.2
      [.sendReadLn "5", .pump] "5" (by decide)).2.2⟩

/-- C16: in every service state with `replState` other than `REPL_BUSY`, and whatever the
nested event loop would do, `readLineHandler` returns the empty string and
`debugPromptHandler` returns, with the service state unchanged and nothing pushed: the
loop is not run. -/
theorem handlers_return_at_once_outside_busy {W : Type} (I : Collab W) (loop : Exec W String)
    (text : String) (s : Service W) (hstate : s.replState ≠ .REPL_BUSY) :
    readLineHandler loop text s = { completion := .ret "", service := s, out := Out.empty } ∧
    debugPromptHandler I loop s = { completion := .ret (), service := s, out := Out.empty } ∧
    (readLineHandler loop text s).service.replState = s.replState ∧
    (readLineHandler loop text s).out.asyncEvents = [] ∧
    (debugPromptHandler I loop s).service.replState = s.replState ∧
    (debugPromptHandler I loop s).out.asyncEvents = [] := by
  simp [readLineHandler, debugPromptHandler, bind, Exec.bind, getService, hstate, pure,
    Exec.pure, Out.append, Out.empty]

/-- Witness for C16: at `PROMPT`, with a loop that would change the state and return a
line, and with a loop that would raise. -/
theorem handlers_return_at_once_outside_busy_witness :
    ({ Service.initial quietScript with replState := .PROMPT } : Service Script).replState
      ≠ .REPL_BUSY ∧
    readLineHandler loopReturning "> " { Service.initial quietScript with replState := .PROMPT }
      = { completion := .ret ""
          service := { Service.initial quietScript with replState := .PROMPT }
          out := Out.empty } ∧
    debugPromptHandler scripted loopRaising
        { Service.initial quietScript with replState := .PROMPT }
      = { completion := .ret ()
          service := { Service.initial quietScript with replState := .PROMPT }
          out := Out.empty } :=
  ⟨by decide,
    (handlers_return_at_once_outside_busy scripted loopReturning "> "
      { Service.initial quietScript with replState := .PROMPT } (by decide)).1,
    (handlers_return_at_once_outside_busy scripted loopRaising "> "
      { Service.initial quietScript with replState := .PROMPT } (by decide)).2.1⟩

/-- C17: `sendReadLn(t)` posts one action in every state. When the loop runs that action
while `readLineHandler`, entered from `REPL_BUSY`, waits in `READ_LINE`, the handler
returns the text left after erasing from the first newline on. That text is a prefix of
`t` without newline, every prefix of `t` without newline is a prefix of it, and it is
`t` itself when `t` has no newline. -/
theorem sendReadLn_delivers_first_line {W : Type} (s : Service W) (prompt text : String)
    (hbusy : s.replState = .REPL_BUSY) :
    (∀ w : Service W,
      (sendReadLn text w).service
        = { w with eventLoopQueue := w.eventLoopQueue ++ [.deliverLine text] }) ∧
    (∀ (queue : List LoopAction) (rest : List Tick),
      (readLineHandler (runEventLoop (.pump :: rest)) prompt
          { s with eventLoopQueue := .deliverLine text :: queue }).completion
        = .ret (eraseFromNewline text)) ∧
    (s.eventLoopQueue = [] → ∀ rest : List Tick,
      (readLineHandler (runEventLoop (.sendReadLn text :: .pump :: rest)) prompt s).completion
        = .ret (eraseFromNewline text)) ∧
    (eraseFromNewline text).data <+: text.data ∧
    '\n' ∉ (eraseFromNewline text).data ∧
    (∀ q : List Char, q <+: text.data → '\n' ∉ q → q <+: (eraseFromNewline text).data) ∧
    ('\n' ∉ text.data → eraseFromNewline text = text) := by
  refine ⟨?_, ?_, ?_, eraseFromNewline_facts text⟩
  · intro w
    simp [sendReadLn, eventLoopExecute, modifyService]
  · intro queue rest
    simp [readLineHandler, runEventLoop, LoopAction.run, bind, Exec.bind, getService,
      pushAsyncEvent, withState, scopedAssign, pure, Exec.pure, Out.append, Out.empty, hbusy]
  · intro hq rest
    simp [readLineHandler, runEventLoop, sendReadLn, eventLoopExecute, LoopAction.run, bind,
      Exec.bind, getService, modifyService, pushAsyncEvent, withState, scopedAssign, pure,
      Exec.pure, Out.append, Out.empty, hbusy, hq]

/-- Witness for C17: the text "5" comes back whole, and of a two-line text only the
first line comes back. -/
theorem sendReadLn_delivers_first_line_witness :
    (Service.initial ()).replState = .REPL_BUSY ∧
    (readLineHandler (runEventLoop [.sendReadLn "5", .pump]) "> "
      (Service.initial ())).completion = .ret (eraseFromNewline "5") ∧
    eraseFromNewline "5" = "5" ∧
    eraseFromNewline "5\n6" = "5" :=
  ⟨rfl,
    (sendReadLn_delivers_first_line (Service.initial ()) "> " "5" rfl).2.2.1 rfl [],
    (sendReadLn_delivers_first_line (Service.initial ()) "> " "5" rfl).2.2.2.2.2.2 (by decide),
    by decide⟩

/-- C18: the action `replInterrupt` posts when it observes `READ_LINE` tests `replState`
again when it runs. In every service state with `replState` other than `READ_LINE` at
that moment it changes nothing, the interrupt-pending flag included, and does not call
`breakEventLoop`: a loop that pumps it goes on with the next posted action. -/
theorem stale_readLine_interrupt_dropped {W : Type} (s : Service W)
    (hstate : s.replState ≠ .READ_LINE) :
    (∀ w : Service W, w.replState = .READ_LINE → w.eventHandlerRunning = false →
      (replInterrupt w).service
        = { w with eventLoopQueue := w.eventLoopQueue ++ [.interruptReadLine] }) ∧
    LoopAction.run .interruptReadLine s = (s, none) ∧
    (LoopAction.run .interruptReadLine s).1.R_interrupts_pending = s.R_interrupts_pending ∧
    (∀ (queue : List LoopAction) (rest : List Tick),
      runEventLoop (.pump :: rest) { s with eventLoopQueue := .interruptReadLine :: queue }
        = runEventLoop rest { s with eventLoopQueue := queue }) := by
  refine ⟨?_, ?_, ?_, ?_⟩
  · intro w hw hrun
    simp [replInterrupt, eventLoopExecute, bind, Exec.bind, getService, modifyService, hw,
      hrun, Out.append, Out.empty]
  · simp [LoopAction.run, hstate]
  · simp [LoopAction.run, hstate]
  · intro queue rest
    simp [runEventLoop, LoopAction.run, hstate]

/-- Witness for C18: a line was delivered before the posted interrupt ran, the read has
returned to `REPL_BUSY`, and the queued interrupt action then changes nothing. -/
theorem stale_readLine_interrupt_dropped_witness :
    staleInterruptState.replState ≠ .READ_LINE ∧
    staleInterruptState.replState = .REPL_BUSY ∧
    staleInterruptState.eventLoopQueue = [.interruptReadLine] ∧
    staleInterruptState.R_interrupts_pending = 0 ∧
    LoopAction.run .interruptReadLine staleInterruptState = (staleInterruptState, none) :=
  ⟨by decide, by decide, by decide, by decide,
    (stale_readLine_interrupt_dropped staleInterruptState (by decide)).2.1⟩

/-! ## Fault channels of a turn -/

/-- Everything a `catch` clause sends, by the exception it receives. -/
theorem handlers_out {W : Type} (I : Collab W) (writer isRepl : Bool) (t : Thrown)
    (s : Service W) :
    (executeCode.handlers I writer isRepl t s).out
      = match t with
        | .rError e =>
          ({ Out.empty with
              written := if writer = true then [.exception e.what] else [] }).append
            (if isRepl = true then
              { Out.empty with
                asyncEvents :=
                  [.exception (exceptionToProto e.getRError { message := "", cause := .unset })
                    (I.getLastErrorStack s.world)] }
            else routeChunk s.outputHandler .STDERR ("\n" ++ e.what ++ "\n"))
        | .rInterrupted what =>
          { Out.empty with
            asyncEvents :=
              if isRepl = true then
                [.exception { message := "Interrupted", cause := .interrupted } []]
              else []
            written := if writer = true then [.exception what] else [] }
        | .unrecognised _ => Out.empty := by
  cases t with
  | rError e =>
    cases writer <;> cases isRepl <;>
      simp [executeCode.handlers, bind, Exec.bind, pure, Exec.pure, writerWrite, modifyService,
        getService, sendAsyncEvent, pushAsyncEvent, myWriteConsoleEx, buildStackProto,
        Out.append, Out.empty]
  | rInterrupted what =>
    cases writer <;> cases isRepl <;>
      simp [executeCode.handlers, bind, Exec.bind, pure, Exec.pure, writerWrite,
        sendAsyncEvent, pushAsyncEvent, Out.append, Out.empty]
  | unrecognised n => simp [executeCode.handlers, pure, Exec.pure]

/-- Everything the closing block sends: the closing event of a REPL turn. -/
theorem closing_out {W : Type} (I : Collab W) (isRepl : Bool) (s : Service W) :
    (executeCode.closing I isRepl s).out
      = { Out.empty with
          asyncEvents :=
            if isRepl = true then
              [if s.replState = .DEBUG_PROMPT then
                AsyncEvent.debugPrompt { changed := false, stack := [] }
              else AsyncEvent.prompt]
            else [] } := by
  cases isRepl
  · simp [executeCode.closing, pure, Exec.pure, Out.empty]
  · by_cases h : s.replState = .DEBUG_PROMPT <;>
      simp [executeCode.closing, bind, Exec.bind, pure, Exec.pure, getService, modifyWorld,
        modifyService, pushAsyncEvent, Out.append, Out.empty, h]

/-- When `parseSourceFile` raises, the `try` block ends with that exception after at most
the `busy` event, and the output handler of the turn is still the active one. -/
theorem tryRun_parse_threw {W : Type} (I : Collab W) (request : ExecuteCodeRequest)
    (writer : Bool) (s : Service W) (t : Thrown)
    (hparse : (I.parseSourceFile request.code request.sourceFileId request.sourceFileLineOffset
      (executeCode.parseWorld I request s)).1 = .threw t) :
    (tryRun I request writer s).completion = .raised t ∧
    (tryRun I request writer s).out
      = { Out.empty with asyncEvents := if request.isRepl = true then [.busy] else [] } ∧
    (tryRun I request writer s).service.outputHandler
      = (executeCode.tryEntry request writer s).outputHandler := by
  unfold tryRun
  rw [tryBlock_eq]
  unfold withState
  have hbody : ∀ s' : Service W, s'.world = s.world →
      executeCode.tryBody I request request.isRepl (request.isRepl && request.isDebug)
          (request.isRepl && request.isDebug && request.resetDebugCommand) s'
        = { completion := .raised t
            service :=
              { s' with
                world := (I.parseSourceFile request.code request.sourceFileId
                  request.sourceFileLineOffset (executeCode.parseWorld I request s)).2 }
            out := { Out.empty with
              asyncEvents := if request.isRepl = true then [.busy] else [] } } := by
    intro s' hw
    rw [tryBody_eq]
    unfold executeCode.parseWorld at hparse ⊢
    rcases hr : request.isRepl with _ | _
    · rw [hr] at hparse
      simp only [Bool.false_eq_true, if_false] at hparse ⊢
      rw [← hw] at hparse ⊢
      rcases hp : I.parseSourceFile request.code request.sourceFileId
        request.sourceFileLineOffset s'.world with ⟨o, w⟩
      rw [hp] at hparse
      simp only at hparse
      subst hparse
      simp [Exec.bind, Exec.pure, parseSourceFile, hp, Out.append, Out.empty]
    · rw [hr] at hparse
      simp only [if_true, Bool.true_and] at hparse ⊢
      rw [← hw] at hparse ⊢
      rcases hd : (request.isDebug && request.resetDebugCommand) with _ | _
      · rw [hd] at hparse
        simp only [Bool.false_eq_true, if_false] at hparse ⊢
        rcases hp : I.parseSourceFile request.code request.sourceFileId
          request.sourceFileLineOffset (I.resetLastErrorStack s'.world) with ⟨o, w⟩
        rw [hp] at hparse
        simp only at hparse
        subst hparse
        simp [Exec.bind, Exec.pure, parseSourceFile, hp, Out.append, Out.empty, pushAsyncEvent,
          modifyWorld, modifyService]
      · rw [hd] at hparse
        simp only [if_true] at hparse ⊢
        rcases hp : I.parseSourceFile request.code request.sourceFileId
          request.sourceFileLineOffset
          (I.setCommandContinue (I.resetLastErrorStack s'.world)) with ⟨o, w⟩
        rw [hp] at hparse
        simp only at hparse
        subst hparse
        simp [Exec.bind, Exec.pure, parseSourceFile, hp, Out.append, Out.empty, pushAsyncEvent,
          modifyWorld, modifyService]
  have h := scopedAssign_eq (fun s : Service W => s.replState)
    (fun v s => { s with replState := v })
    (if request.isRepl = true then ReplState.REPL_BUSY
      else (executeCode.tryEntry request writer s).replState)
    _ (executeCode.tryEntry request writer s) _ _ rfl (hbody _ rfl) (by simp)
  rw [h]
  exact ⟨rfl, rfl, rfl⟩

/-- Everything a turn sends when its `try` block raised `t`: the output of the block, of
the `catch` clause for `t`, and the closing event. -/
theorem executeCode_out_raised {W : Type} (I : Collab W) (request : ExecuteCodeRequest)
    (writer : Bool) (s : Service W) (t : Thrown)
    (hthrown : executeCode.thrown I request writer s = some t) :
    (tryRun I request writer s).completion = .raised t ∧
    (executeCode I request writer s).out
      = ((tryRun I request writer s).out.append
          (executeCode.handlers I writer request.isRepl t
            (tryRun I request writer s).service).out).append
        { Out.empty with
          asyncEvents :=
            if request.isRepl = true then
              [if s.replState = .DEBUG_PROMPT then
                AsyncEvent.debugPrompt { changed := false, stack := [] }
              else AsyncEvent.prompt]
            else [] } := by
  obtain ⟨-, -, hout⟩ := executeCode_run I request writer s
  obtain ⟨hstate, -, -, -⟩ := catchRun_facts I request writer s
  rw [thrown_eq] at hthrown
  have hc : (tryRun I request writer s).completion = .raised t := by
    rcases hr : (tryRun I request writer s).completion with a | t' | _
    · simp [hr] at hthrown
    · simp [hr] at hthrown
      rw [hthrown]
    · simp [hr] at hthrown
  refine ⟨hc, ?_⟩
  rw [hout]
  have hcatch : catchRun I request writer s
      = executeCode.handlers I writer request.isRepl t (tryRun I request writer s).service := by
    unfold catchRun
    simp only [hc]
  unfold closingRun
  rw [closing_out, hstate, hcatch]

/-- C11 (as stated, refuted): a non-REPL turn with a response writer and without streamed
output ends with an `RError`. The writer receives the exception response, and the line
"\n" + message + "\n" appears on no output channel: the output handler of the turn
drops it. -/
theorem executeCode_plain_turn_drops_stderr_line :
    plainRequest.isRepl = false ∧
    executeCode.thrown scripted plainRequest true (Service.initial faultScript)
      = some (.rError sampleError) ∧
    (executeCode scripted plainRequest true (Service.initial faultScript)).out.asyncEvents
      = [] ∧
    (executeCode scripted plainRequest true (Service.initial faultScript)).out.written
      = [.exception "Error: boom"] ∧
    (executeCode scripted plainRequest true (Service.initial faultScript)).out.replOutput
      = [] ∧
    (executeCode scripted plainRequest true (Service.initial faultScript)).out.outerOutput
      = [] := by
  decide

/-- C11 (amended): when a turn ends with an `RError`, a REPL turn pushes, after `busy` and
the events of the `safeEval` calls, exactly one exception event carrying the last-error
stack of the debugger, then the closing event, and adds no console text. A non-REPL turn
pushes no async event and hands the line "\n" + message + "\n" with type `STDERR` to
the active output handler; under the handler the turn installed it is written to the
response writer as a `STDERR` output chunk when the turn streams its output (`streamOutput`
with a writer) and dropped otherwise. A turn with a writer also writes the exception
response. -/
theorem executeCode_rError_channels {W : Type} (I : Collab W) (request : ExecuteCodeRequest)
    (writer : Bool) (s : Service W) (e : RError)
    (hthrown : executeCode.thrown I request writer s = some (.rError e)) :
    (request.isRepl = true →
      (executeCode I request writer s).out.asyncEvents
        = .busy ::
          (((executeCode I request writer s).out.evals.map fun st => st.pushed).flatten
            ++ [.exception (exceptionToProto e.getRError { message := "", cause := .unset })
                  (I.getLastErrorStack (tryRun I request writer s).service.world),
                if (executeCode I request writer s).service.replState = .DEBUG_PROMPT then
                  .debugPrompt { changed := false, stack := [] }
                else .prompt]) ∧
      (executeCode I request writer s).out.written
        = (tryRun I request writer s).out.written
          ++ (if writer = true then [.exception e.what] else []) ∧
      (executeCode I request writer s).out.replOutput
        = (tryRun I request writer s).out.replOutput ∧
      (executeCode I request writer s).out.outerOutput
        = (tryRun I request writer s).out.outerOutput) ∧
    (request.isRepl = false →
      (executeCode I request writer s).out.asyncEvents
        = ((executeCode I request writer s).out.evals.map fun st => st.pushed).flatten ∧
      (executeCode I request writer s).out
        = ((tryRun I request writer s).out.append
            { Out.empty with written := if writer = true then [.exception e.what] else [] }).append
          (routeChunk (tryRun I request writer s).service.outputHandler .STDERR
            ("\n" ++ e.what ++ "\n")) ∧
      ((tryRun I request writer s).service.outputHandler
          = .turn (request.streamOutput && writer) →
        (executeCode I request writer s).out.written
          = (tryRun I request writer s).out.written
            ++ (if writer = true then [.exception e.what] else [])
            ++ (if (request.streamOutput && writer) = true then
                [.output .STDERR ("\n" ++ e.what ++ "\n")]
              else []) ∧
        (executeCode I request writer s).out.replOutput
          = (tryRun I request writer s).out.replOutput ∧
        (executeCode I request writer s).out.outerOutput
          = (tryRun I request writer s).out.outerOutput)) := by
  obtain ⟨-, hout⟩ := executeCode_out_raised I request writer s (.rError e) hthrown
  obtain ⟨-, hstate, -, hevals, -⟩ := executeCode_facts I request writer s
  have hT := tryBlock_facts I request request.isRepl (request.isRepl && request.isDebug)
    (request.isRepl && request.isDebug && request.resetDebugCommand)
    (executeCode.tryEntry request writer s)
  have hev : (tryRun I request writer s).out.asyncEvents
      = (if request.isRepl = true then [AsyncEvent.busy] else []) ++
        ((tryRun I request writer s).out.evals.map fun st => st.pushed).flatten := hT.2.2
  rw [handlers_out] at hout
  refine ⟨?_, ?_⟩
  · intro hrepl
    rw [hevals, hstate, hout]
    simp only [hrepl, if_true] at hev ⊢
    simp [Out.append, Out.empty, hev]
  · intro hrepl
    rw [hevals, hout]
    simp only [hrepl, Bool.false_eq_true, if_false] at hev ⊢
    refine ⟨?_, ?_, ?_⟩
    · cases (tryRun I request writer s).service.outputHandler <;>
        simp [Out.append, Out.empty, hev, routeChunk]
      split <;> simp
    · simp [Out.append, Out.empty]
    · intro hh
      rw [hh]
      cases (request.streamOutput && writer) <;> simp [Out.append, Out.empty, routeChunk]

/-- Witness for C11 (amended): a streamed non-REPL turn whose second evaluation raises an
ordinary error writes the exception response and the `STDERR` line, and pushes no event. -/
theorem executeCode_rError_channels_witness :
    executeCode.thrown scripted streamRequest true (Service.initial faultScript)
      = some (.rError sampleError) ∧
    (executeCode scripted streamRequest true (Service.initial faultScript)).out.written
      = [.exception "Error: boom", .output .STDERR "\nError: boom\n"] ∧
    (executeCode scripted streamRequest true (Service.initial faultScript)).out.asyncEvents
      = ((executeCode scripted streamRequest true
          (Service.initial faultScript)).out.evals.map fun st => st.pushed).flatten :=
  ⟨by decide, by decide,
    ((executeCode_rError_channels scripted streamRequest true (Service.initial faultScript)
      sampleError (by decide)).2 rfl).1⟩

/-- C12: when `parseSourceFile` raises, the turn performs no `safeEval` call at all, the
exception is the fault of the turn and goes through the same `catch` clauses as an
evaluation fault. In a REPL turn the events are `busy`, the exception event of the clause
(none for an exception of unrecognised type) and the closing event. -/
theorem executeCode_parse_fault {W : Type} (I : Collab W) (request : ExecuteCodeRequest)
    (writer : Bool) (s : Service W) (t : Thrown)
    (hparse : (I.parseSourceFile request.code request.sourceFileId request.sourceFileLineOffset
      (executeCode.parseWorld I request s)).1 = .threw t) :
    (executeCode I request writer s).out.evals = [] ∧
    executeCode.thrown I request writer s = some t ∧
    (executeCode I request writer s).out
      = (({ Out.empty with
            asyncEvents := if request.isRepl = true then [.busy] else [] } : Out).append
          (executeCode.handlers I writer request.isRepl t
            (tryRun I request writer s).service).out).append
        { Out.empty with
          asyncEvents :=
            if request.isRepl = true then
              [if s.replState = .DEBUG_PROMPT then
                AsyncEvent.debugPrompt { changed := false, stack := [] }
              else AsyncEvent.prompt]
            else [] } ∧
    (request.isRepl = true →
      (executeCode I request writer s).out.asyncEvents
        = match t with
          | .rError e =>
            [.busy,
              .exception (exceptionToProto e.getRError { message := "", cause := .unset })
                (I.getLastErrorStack (tryRun I request writer s).service.world),
              if s.replState = .DEBUG_PROMPT then
                .debugPrompt { changed := false, stack := [] }
              else .prompt]
          | .rInterrupted _ =>
            [.busy,
              .exception { message := "Interrupted", cause := .interrupted } [],
              if s.replState = .DEBUG_PROMPT then
                .debugPrompt { changed := false, stack := [] }
              else .prompt]
          | .unrecognised _ =>
            [.busy,
              if s.replState = .DEBUG_PROMPT then
                .debugPrompt { changed := false, stack := [] }
              else .prompt]) := by
  obtain ⟨hc, hto, -⟩ := tryRun_parse_threw I request writer s t hparse
  have hthrown : executeCode.thrown I request writer s = some t := by
    rw [thrown_eq, hc]
  obtain ⟨-, hout⟩ := executeCode_out_raised I request writer s t hthrown
  obtain ⟨-, -, -, hevals, -⟩ := executeCode_facts I request writer s
  rw [hto] at hout
  refine ⟨?_, hthrown, hout, ?_⟩
  · rw [hevals, hto]
    rfl
  · intro hrepl
    rw [hout, handlers_out]
    cases t <;> simp [hrepl, Out.append, Out.empty]

/-- Witness for C12: a REPL turn whose source does not parse. -/
theorem executeCode_parse_fault_witness :
    (scripted.parseSourceFile replRequest.code replRequest.sourceFileId
      replRequest.sourceFileLineOffset
      (executeCode.parseWorld scripted replRequest (Service.initial parseErrorScript))).1
      = .threw (.rError sampleError) ∧
    (executeCode scripted replRequest false (Service.initial parseErrorScript)).out.evals
      = [] ∧
    (executeCode scripted replRequest false (Service.initial parseErrorScript)).out.asyncEvents
      = [.busy, .exception { message := "boom", cause := .simpleError } [], .prompt] :=
  ⟨by decide,
    (executeCode_parse_fault scripted replRequest false (Service.initial parseErrorScript)
      (.rError sampleError) (by decide)).1,
    by decide⟩

/-- C15 (as stated, refuted): a non-REPL turn without response writer that ends with an
`RInterruptedException` sends nothing on any channel; one that ends with an `RError`
sends nothing either, its console line being dropped by the output handler of the turn. -/
theorem executeCode_plain_turn_without_writer_reports_nothing :
    plainRequest.isRepl = false ∧
    executeCode.thrown scripted plainRequest false (Service.initial interruptedScript)
      = some (.rInterrupted "Interrupted") ∧
    (executeCode scripted plainRequest false (Service.initial interruptedScript)).out.asyncEvents
      = [] ∧
    (executeCode scripted plainRequest false (Service.initial interruptedScript)).out.written
      = [] ∧
    (executeCode scripted plainRequest false (Service.initial interruptedScript)).out.replOutput
      = [] ∧
    (executeCode scripted plainRequest false (Service.initial interruptedScript)).out.outerOutput
      = [] ∧
    executeCode.thrown scripted plainRequest false (Service.initial faultScript)
      = some (.rError sampleError) ∧
    (executeCode scripted plainRequest false (Service.initial faultScript)).out.asyncEvents
      = [] ∧
    (executeCode scripted plainRequest false (Service.initial faultScript)).out.written
      = [] ∧
    (executeCode scripted plainRequest false (Service.initial faultScript)).out.replOutput
      = [] ∧
    (executeCode scripted plainRequest false (Service.initial faultScript)).out.outerOutput
      = [] := by
  decide

/-- C15 (amended): when a turn ends with an `RError` or an interrupted fault, a REPL turn
reports it as an exception async event and a turn with a response writer reports it as
an exception response, so the fault is reported on at least one channel whenever the
turn is a REPL turn or has a writer. A non-REPL turn without writer adds no async event
and no response; an `RError` is only handed to the active output handler as a console
line, which the handler the turn installed drops, and then the turn sends nothing beyond
what its `try` block sent. An exception of unrecognised type adds no exception event, no
response and no console text in any turn. -/
theorem executeCode_fault_reported_on_open_channel {W : Type} (I : Collab W)
    (request : ExecuteCodeRequest) (writer : Bool) (s : Service W) (t : Thrown)
    (hthrown : executeCode.thrown I request writer s = some t) :
    (request.isRepl = true → (∀ n, t ≠ .unrecognised n) →
      ∃ info stack,
        AsyncEvent.exception info stack ∈ (executeCode I request writer s).out.asyncEvents) ∧
    (writer = true →
      (∀ e, t = .rError e →
        ExecuteCodeResponse.exception e.what ∈ (executeCode I request writer s).out.written) ∧
      (∀ what, t = .rInterrupted what →
        ExecuteCodeResponse.exception what ∈ (executeCode I request writer s).out.written)) ∧
    (request.isRepl = false → writer = false →
      (executeCode I request writer s).out.asyncEvents
        = (tryRun I request writer s).out.asyncEvents ∧
      (executeCode I request writer s).out.written
        = (tryRun I request writer s).out.written
          ++ (match t with
            | .rError e =>
              (routeChunk (tryRun I request writer s).service.outputHandler .STDERR
                ("\n" ++ e.what ++ "\n")).written
            | _ => []) ∧
      ((∀ e, t ≠ .rError e) ∨
          (tryRun I request writer s).service.outputHandler = .turn false →
        (executeCode I request writer s).out = (tryRun I request writer s).out)) ∧
    ((∃ n, t = .unrecognised n) →
      (executeCode I request writer s).out.written = (tryRun I request writer s).out.written ∧
      (executeCode I request writer s).out.replOutput
        = (tryRun I request writer s).out.replOutput ∧
      (executeCode I request writer s).out.outerOutput
        = (tryRun I request writer s).out.outerOutput ∧
      ∀ info stack,
        AsyncEvent.exception info stack ∈ (executeCode I request writer s).out.asyncEvents →
        AsyncEvent.exception info stack ∈ (tryRun I request writer s).out.asyncEvents) := by
  obtain ⟨-, hout⟩ := executeCode_out_raised I request writer s t hthrown
  rw [handlers_out] at hout
  refine ⟨?_, ?_, ?_, ?_⟩
  · intro hrepl hfault
    rw [hout]
    cases t with
    | rError e =>
      exact ⟨exceptionToProto e.getRError { message := "", cause := .unset },
        I.getLastErrorStack (tryRun I request writer s).service.world,
        by simp [hrepl, Out.append, Out.empty]⟩
    | rInterrupted what =>
      exact ⟨{ message := "Interrupted", cause := .interrupted }, [],
        by simp [hrepl, Out.append, Out.empty]⟩
    | unrecognised n => exact absurd rfl (hfault n)
  · intro hw
    refine ⟨?_, ?_⟩
    · rintro e rfl
      rw [hout]
      simp [hw, Out.append, Out.empty]
    · rintro what rfl
      rw [hout]
      simp [hw, Out.append, Out.empty]
  · intro hrepl hw
    rw [hout]
    refine ⟨?_, ?_, ?_⟩
    · cases t with
      | rError e =>
        cases (tryRun I request writer s).service.outputHandler <;>
          simp [hrepl, hw, Out.append, Out.empty, routeChunk]
        split <;> simp
      | rInterrupted what => simp [hrepl, hw, Out.append, Out.empty]
      | unrecognised n => simp [hrepl, hw, Out.append, Out.empty]
    · cases t with
      | rError e => simp [hrepl, hw, Out.append, Out.empty]
      | rInterrupted what => simp [hrepl, hw, Out.append, Out.empty]
      | unrecognised n => simp [hrepl, hw, Out.append, Out.empty]
    · intro h
      cases t with
      | rError e =>
        rcases h with h | h
        · exact absurd rfl (h e)
        · rw [h]
          simp [hrepl, hw, Out.append, Out.empty, routeChunk]
      | rInterrupted what => simp [hrepl, hw, Out.append, Out.empty]
      | unrecognised n => simp [hrepl, hw, Out.append, Out.empty]
  · rintro ⟨n, rfl⟩
    rw [hout]
    refine ⟨by simp [Out.append, Out.empty], by simp [Out.append, Out.empty],
      by simp [Out.append, Out.empty], ?_⟩
    intro info stack hmem
    simp only [Out.append, Out.empty, List.append_nil] at hmem
    rcases List.mem_append.1 hmem with h | h
    · exact h
    · split at h
      · simp at h
        split at h <;> simp at h
      · simp at h

/-- Witness for C15 (amended): a REPL turn without writer interrupted during its first
evaluation reports the fault as an exception event. -/
theorem executeCode_fault_reported_on_open_channel_witness :
    executeCode.thrown scripted replRequest false (Service.initial interruptedScript)
      = some (.rInterrupted "Interrupted") ∧
    ∃ info stack,
      AsyncEvent.exception info stack
        ∈ (executeCode scripted replRequest false
            (Service.initial interruptedScript)).out.asyncEvents :=
  ⟨by decide,
    (executeCode_fault_reported_on_open_channel scripted replRequest false
      (Service.initial interruptedScript) (.rInterrupted "Interrupted") (by decide)).1 rfl
      (fun _ => by simp)⟩

/-! ## Slots of an S4 class (`extractSlots`) -/

/-- Looking up a key after an assignment. -/
theorem SlotTable.find_assign (key : String) (value : SlotInfo) (k : String) (tbl : SlotTable) :
    SlotTable.find k (SlotTable.assign key value tbl)
      = if key = k then some value else SlotTable.find k tbl := by
  induction tbl with
  | nil =>
    by_cases h : key = k <;> simp [SlotTable.find, SlotTable.assign, h]
  | cons e rest ih =>
    obtain ⟨k0, v0⟩ := e
    by_cases h0 : k0 = key
    · subst h0
      by_cases h : k0 = k <;> simp [SlotTable.find, SlotTable.assign, h]
    · by_cases h : key = k
      · subst h
        simp [SlotTable.find, SlotTable.assign, h0, ih]
      · by_cases h1 : k0 = k
        · subst h1
          simp [SlotTable.find, SlotTable.assign, h0, h]
        · simp [SlotTable.find, SlotTable.assign, h0, h, h1, ih]

/-- The keys after an assignment. -/
theorem SlotTable.mem_keys_assign (key : String) (value : SlotInfo) (k : String)
    (tbl : SlotTable) :
    k ∈ (SlotTable.assign key value tbl).map (fun e => e.1)
      ↔ k = key ∨ k ∈ tbl.map (fun e => e.1) := by
  induction tbl with
  | nil => simp [SlotTable.assign]
  | cons e rest ih =>
    obtain ⟨k0, v0⟩ := e
    by_cases h0 : k0 = key
    · subst h0
      simp [SlotTable.assign]
    · simp only [SlotTable.assign, h0, if_false, List.map_cons, List.mem_cons, ih]
      tauto

/-- A lookup fails exactly for the keys that are absent. -/
theorem SlotTable.find_eq_none_iff (k : String) (tbl : SlotTable) :
    SlotTable.find k tbl = none ↔ k ∉ tbl.map (fun e => e.1) := by
  induction tbl with
  | nil => simp [SlotTable.find]
  | cons e rest ih =>
    obtain ⟨k0, v0⟩ := e
    by_cases h0 : k0 = k
    · simp [SlotTable.find, h0]
    · simp only [SlotTable.find, h0, if_false, ih, List.map_cons, List.mem_cons, not_or]
      exact ⟨fun h => ⟨fun hk => h0 hk.symm, h⟩, fun h => h.2⟩

/-- In a well-keyed table every pair is found under its key. -/
theorem SlotTable.find_of_mem (tbl : SlotTable) (h : tbl.WellKeyed) :
    ∀ e ∈ tbl, SlotTable.find e.1 tbl = some e.2 := by
  induction tbl with
  | nil => simp
  | cons e0 rest ih =>
    obtain ⟨k0, v0⟩ := e0
    intro e he
    have hnd : k0 ∉ rest.map (fun e => e.1) ∧ (rest.map fun e => e.1).Nodup := by
      simpa using h.1
    rcases List.mem_cons.1 he with rfl | hmem
    · simp [SlotTable.find]
    · have hne : k0 ≠ e.1 := by
        intro heq
        exact hnd.1 (heq ▸ List.mem_map_of_mem (fun e => e.1) hmem)
      simp only [SlotTable.find, hne, if_false]
      exact ih ⟨hnd.2, fun e he => h.2 e (List.mem_cons_of_mem _ he)⟩ e hmem

/-- Assigning a value under its own name keeps a table well-keyed. -/
theorem SlotTable.WellKeyed.assign {tbl : SlotTable} (h : tbl.WellKeyed) (key : String)
    (value : SlotInfo) (hname : value.name = key) :
    (SlotTable.assign key value tbl).WellKeyed := by
  induction tbl with
  | nil => simp [SlotTable.assign, SlotTable.WellKeyed, hname]
  | cons e rest ih =>
    obtain ⟨k0, v0⟩ := e
    have hnd : k0 ∉ rest.map (fun e => e.1) ∧ (rest.map fun e => e.1).Nodup := by
      simpa using h.1
    have hrest : SlotTable.WellKeyed rest :=
      ⟨hnd.2, fun e he => h.2 e (List.mem_cons_of_mem _ he)⟩
    by_cases h0 : k0 = key
    · subst h0
      refine ⟨by simpa [SlotTable.assign] using h.1, ?_⟩
      intro e he
      simp only [SlotTable.assign, if_true, List.mem_cons] at he
      rcases he with rfl | he
      · exact hname
      · exact h.2 e (List.mem_cons_of_mem _ he)
    · have ih' := ih hrest
      refine ⟨?_, ?_⟩
      · simp only [SlotTable.assign, h0, if_false, List.map_cons, List.nodup_cons]
        refine ⟨?_, ih'.1⟩
        rw [SlotTable.mem_keys_assign]
        rintro (h | h)
        · exact h0 h
        · exact hnd.1 h
      · intro e he
        simp only [SlotTable.assign, h0, if_false, List.mem_cons] at he
        rcases he with rfl | he
        · exact h.2 _ (List.mem_cons_self _ _)
        · exact ih'.2 e he

/-- The slot loop body changes the entry of the slot name by the rule `keepDeclaration` and
no other entry. -/
theorem slotStep_find (R : S4Session) (tbl : SlotTable) (x : SlotInfo) (k : String) :
    SlotTable.find k (slotStep R tbl x)
      = if x.name = k then keepDeclaration R (SlotTable.find k tbl) x
        else SlotTable.find k tbl := by
  have hx : ({ name := x.name, type := x.type, declarationClass := x.declarationClass }
      : SlotInfo) = x := rfl
  unfold slotStep defProcessor.slot
  simp only [hx]
  by_cases hk : x.name = k
  · subst hk
    rcases hf : SlotTable.find x.name tbl with _ | kept
    · simp [SlotTable.find_assign, keepDeclaration]
    · by_cases he : R.R_extends x.type kept.type = true
      · simp [he, SlotTable.find_assign, keepDeclaration]
      · simp [he, hf, keepDeclaration]
  · rcases hf : SlotTable.find x.name tbl with _ | kept
    · simp [SlotTable.find_assign, hk]
    · by_cases he : R.R_extends x.type kept.type = true
      · simp [he, SlotTable.find_assign, hk]
      · simp [he, hk]

/-- The slot loop body keeps the table well-keyed. -/
theorem slotStep_wellKeyed (R : S4Session) (tbl : SlotTable) (x : SlotInfo)
    (h : tbl.WellKeyed) : (slotStep R tbl x).WellKeyed := by
  have hx : ({ name := x.name, type := x.type, declarationClass := x.declarationClass }
      : SlotInfo) = x := rfl
  unfold slotStep defProcessor.slot
  simp only [hx]
  rcases hf : SlotTable.find x.name tbl with _ | kept
  · exact h.assign x.name x rfl
  · by_cases he : R.R_extends x.type kept.type = true
    · simp only [he, if_true]
      exact h.assign x.name x rfl
    · simp only [he]
      exact h

/-- Processing a class representation is folding the loop body over its declarations. -/
theorem defProcessor_some (R : S4Session) (tbl : SlotTable) (d : S4ClassDef) :
    defProcessor R tbl (some d) = (declaredSlots d).foldl (slotStep R) tbl := by
  unfold defProcessor declaredSlots
  rw [List.foldl_map]
  rfl

/-- Processing the superclasses is folding the loop body over the declarations of those
that resolve. -/
theorem foldl_defProcessor (R : S4Session) (names : List (Int × String)) :
    ∀ tbl : SlotTable,
      names.foldl (fun tbl e => defProcessor R tbl (R.R_getClassDef e.2)) tbl
        = ((names.filterMap fun e => R.R_getClassDef e.2).flatMap declaredSlots).foldl
            (slotStep R) tbl := by
  induction names with
  | nil => intro tbl; rfl
  | cons e rest ih =>
    intro tbl
    rcases hd : R.R_getClassDef e.2 with _ | d
    · simp only [List.foldl_cons, hd, List.filterMap_cons]
      exact ih _
    · simp only [List.foldl_cons, hd, List.filterMap_cons, List.flatMap_cons, List.foldl_append]
      rw [ih, defProcessor_some]

/-- The result of `extractSlots` holds the values of the table built by folding the loop
body over all declarations met on the visit. -/
theorem extractSlots_eq (R : S4Session) (classDef : S4ClassDef) :
    extractSlots R classDef
      = ((slotOccurrences R classDef).foldl (slotStep R) []).map fun e => e.2 := by
  unfold extractSlots slotOccurrences visitedClasses
  simp only [List.flatMap_cons, List.foldl_append]
  rw [foldl_defProcessor, defProcessor_some]

/-- The entry of a name after the fold is the rule `keepDeclaration` folded over the
declarations of that name. -/
theorem foldl_slotStep_find (R : S4Session) (k : String) (occs : List SlotInfo) :
    ∀ tbl : SlotTable,
      SlotTable.find k (occs.foldl (slotStep R) tbl)
        = (occs.filter fun x => x.name = k).foldl (keepDeclaration R) (SlotTable.find k tbl) := by
  induction occs with
  | nil => intro tbl; rfl
  | cons x rest ih =>
    intro tbl
    simp only [List.foldl_cons]
    rw [ih, slotStep_find]
    by_cases hk : x.name = k
    · simp [hk, List.filter_cons]
    · simp [hk, List.filter_cons]

/-- The fold keeps the table well-keyed. -/
theorem foldl_slotStep_wellKeyed (R : S4Session) (occs : List SlotInfo) :
    ∀ tbl : SlotTable, tbl.WellKeyed → (occs.foldl (slotStep R) tbl).WellKeyed := by
  induction occs with
  | nil => intro tbl h; exact h
  | cons x rest ih =>
    intro tbl h
    exact ih _ (slotStep_wellKeyed R tbl x h)

/-- Once an entry is kept, the rule never drops it without replacement. -/
theorem foldl_keepDeclaration_some (R : S4Session) (l : List SlotInfo) :
    ∀ k : SlotInfo, ∃ k', l.foldl (keepDeclaration R) (some k) = some k' := by
  induction l with
  | nil => intro k; exact ⟨k, rfl⟩
  | cons x rest ih =>
    intro k
    simp only [List.foldl_cons, keepDeclaration]
    split
    · exact ih _
    · exact ih _

/-- The rule keeps nothing exactly when there is no declaration. -/
theorem foldl_keepDeclaration_eq_none (R : S4Session) (l : List SlotInfo) :
    l.foldl (keepDeclaration R) none = none ↔ l = [] := by
  rcases l with _ | ⟨x, rest⟩
  · simp
  · simp only [List.foldl_cons, keepDeclaration, reduceCtorEq, iff_false]
    obtain ⟨k', hk'⟩ := foldl_keepDeclaration_some R rest x
    rw [hk']
    simp

/-- The declarations met on the visit are those of the class itself and of the classes
of its `contains` list that resolve. -/
theorem mem_slotOccurrences (R : S4Session) (classDef : S4ClassDef) (x : SlotInfo) :
    x ∈ slotOccurrences R classDef ↔
      x ∈ declaredSlots classDef ∨
      ∃ sc ∈ classDef.contains, ∃ d, R.R_getClassDef sc.superClass = some d ∧
        x ∈ declaredSlots d := by
  have hperm : ∀ e : Int × String, e ∈ sortedSuperClasses classDef ↔
      e ∈ classDef.contains.map fun sc => (sc.distance, sc.superClass) := by
    intro e
    exact (List.perm_insertionSort superClassLE _).mem_iff
  unfold slotOccurrences visitedClasses
  simp only [List.flatMap_cons, List.mem_append, List.mem_flatMap, List.mem_filterMap]
  constructor
  · rintro (h | ⟨d, ⟨e, he, hd⟩, hx⟩)
    · exact Or.inl h
    · rw [hperm] at he
      obtain ⟨sc, hsc, rfl⟩ := List.mem_map.1 he
      exact Or.inr ⟨sc, hsc, d, hd, hx⟩
  · rintro (h | ⟨sc, hsc, d, hd, hx⟩)
    · exact Or.inl h
    · refine Or.inr ⟨d, ⟨(sc.distance, sc.superClass), ?_, hd⟩, hx⟩
      rw [hperm]
      exact List.mem_map_of_mem _ hsc

/-- C19: in the result of `extractSlots` the slot names are pairwise distinct; a name
occurs in it exactly when it is declared by the class itself or by a class of its
`contains` list (one that `R_getClassDef` resolves to an S4 object); the entry of a name is
the first declaration of that name met on the visit, replaced by a later one exactly when
the type of the later one extends the type of the kept one; and the visit takes the
class itself and then its superclasses in ascending (distance, name) order. -/
theorem extractSlots_one_entry_per_name (R : S4Session) (classDef : S4ClassDef) :
    ((extractSlots R classDef).map fun info => info.name).Nodup ∧
    (∀ n : String,
      n ∈ (extractSlots R classDef).map (fun info => info.name) ↔
        (n ∈ classDef.slots.map (fun slot => slot.1) ∨
          ∃ sc ∈ classDef.contains, ∃ d, R.R_getClassDef sc.superClass = some d ∧
            n ∈ d.slots.map (fun slot => slot.1))) ∧
    (∀ info ∈ extractSlots R classDef,
      ((slotOccurrences R classDef).filter fun x => x.name = info.name).foldl
          (keepDeclaration R) none = some info) ∧
    (sortedSuperClasses classDef).Sorted superClassLE ∧
    (sortedSuperClasses classDef).Perm
      (classDef.contains.map fun sc => (sc.distance, sc.superClass)) := by
  have hwk : ((slotOccurrences R classDef).foldl (slotStep R) []).WellKeyed :=
    foldl_slotStep_wellKeyed R _ [] ⟨List.nodup_nil, by simp⟩
  have hnames : (extractSlots R classDef).map (fun info => info.name)
      = ((slotOccurrences R classDef).foldl (slotStep R) []).map fun e => e.1 := by
    rw [extractSlots_eq, List.map_map]
    exact List.map_congr_left fun e he => hwk.2 e he
  have hfind : ∀ k : String,
      SlotTable.find k ((slotOccurrences R classDef).foldl (slotStep R) [])
        = ((slotOccurrences R classDef).filter fun x => x.name = k).foldl
            (keepDeclaration R) none :=
    fun k => foldl_slotStep_find R k _ []
  have hdecl : ∀ (d : S4ClassDef) (n : String),
      (∃ x ∈ declaredSlots d, x.name = n) ↔ n ∈ d.slots.map (fun slot => slot.1) := by
    intro d n
    unfold declaredSlots
    simp only [List.mem_map]
    constructor
    · rintro ⟨x, ⟨slot, hslot, rfl⟩, rfl⟩
      exact ⟨slot, hslot, rfl⟩
    · rintro ⟨slot, hslot, rfl⟩
      exact ⟨_, ⟨slot, hslot, rfl⟩, rfl⟩
  refine ⟨?_, ?_, ?_, List.sorted_insertionSort superClassLE _,
    List.perm_insertionSort superClassLE _⟩
  · rw [hnames]
    exact hwk.1
  · intro n
    rw [hnames]
    have h1 : n ∈ ((slotOccurrences R classDef).foldl (slotStep R) []).map (fun e => e.1)
        ↔ ∃ x ∈ slotOccurrences R classDef, x.name = n := by
      rw [← not_iff_not, ← SlotTable.find_eq_none_iff, hfind, foldl_keepDeclaration_eq_none,
        List.filter_eq_nil_iff]
      simp
    rw [h1]
    constructor
    · rintro ⟨x, hx, rfl⟩
      rcases (mem_slotOccurrences R classDef x).1 hx with h | ⟨sc, hsc, d, hd, hxd⟩
      · exact Or.inl ((hdecl classDef x.name).1 ⟨x, h, rfl⟩)
      · exact Or.inr ⟨sc, hsc, d, hd, (hdecl d x.name).1 ⟨x, hxd, rfl⟩⟩
    · rintro (h | ⟨sc, hsc, d, hd, hn⟩)
      · obtain ⟨x, hx, rfl⟩ := (hdecl classDef n).2 h
        exact ⟨x, (mem_slotOccurrences R classDef x).2 (Or.inl hx), rfl⟩
      · obtain ⟨x, hx, rfl⟩ := (hdecl d n).2 hn
        exact ⟨x, (mem_slotOccurrences R classDef x).2 (Or.inr ⟨sc, hsc, d, hd, hx⟩), rfl⟩
  · intro info hinfo
    rw [extractSlots_eq] at hinfo
    obtain ⟨e, he, rfl⟩ := List.mem_map.1 hinfo
    rw [← hfind, hwk.2 e he]
    exact SlotTable.find_of_mem _ hwk e he

/-- The slots of the sample class `B`, in no particular order: its own `x` and `z`, and `y`
of its superclass `A`. -/
theorem extractSlots_sample :
    (extractSlots sampleSession sampleClassB).Perm
      [{ name := "x", type := "integer", declarationClass := "B" },
        { name := "y", type := "character", declarationClass := "A" },
        { name := "z", type := "logical", declarationClass := "B" }] := by
  decide

/-! ## Snapshot versions of the eager graphics device -/

/-- The method `getSlave` leaves path, version and parameters alone and ends with a slave
created from them. -/
theorem getSlave_facts {D : Type} (d : REagerGraphicsDevice D) (h : d.SlaveCurrent) :
    d.getSlave.2.SlaveCurrent ∧ d.getSlave.2.snapshotVersion = d.snapshotVersion ∧
    d.getSlave.2.snapshotPath = d.snapshotPath ∧ d.getSlave.2.parameters = d.parameters ∧
    d.getSlave.2.slaveDevice = some d.initializeSlaveDevice ∧
    d.getSlave.1 = d.initializeSlaveDevice := by
  unfold REagerGraphicsDevice.getSlave
  rcases hs : d.slaveDevice with _ | slave
  · refine ⟨?_, rfl, rfl, rfl, rfl, rfl⟩
    intro slave hslave
    simp only [Option.some.injEq] at hslave
    exact hslave.symm
  · have := h slave hs
    subst this
    exact ⟨h, rfl, rfl, rfl, hs, rfl⟩

/-- Every method call keeps the slave current, keeps the path, and adds one to the version
exactly when it is a `rescale`. -/
theorem call_facts {D : Type} (d : REagerGraphicsDevice D) (c : DeviceCall D)
    (h : d.SlaveCurrent) :
    (d.call c).SlaveCurrent ∧
    (d.call c).snapshotVersion = d.snapshotVersion + (if c.isRescale then 1 else 0) ∧
    (d.call c).snapshotPath = d.snapshotPath := by
  have hblank : ({ d with isDeviceBlank := false } : REagerGraphicsDevice D).SlaveCurrent := h
  cases c with
  | draw =>
    obtain ⟨h1, h2, h3, -⟩ := getSlave_facts _ hblank
    obtain ⟨h1', h2', h3', -⟩ := getSlave_facts _ h1
    exact ⟨h1', by simp [REagerGraphicsDevice.call, REagerGraphicsDevice.draw,
      REagerGraphicsDevice.callSlave, DeviceCall.isRescale, h2', h2],
      by simp [REagerGraphicsDevice.call, REagerGraphicsDevice.draw,
      REagerGraphicsDevice.callSlave, h3', h3]⟩
  | query =>
    obtain ⟨h1, h2, h3, -⟩ := getSlave_facts _ h
    obtain ⟨h1', h2', h3', -⟩ := getSlave_facts _ h1
    exact ⟨h1', by simp [REagerGraphicsDevice.call, REagerGraphicsDevice.query,
      REagerGraphicsDevice.callSlave, DeviceCall.isRescale, h2', h2],
      by simp [REagerGraphicsDevice.call, REagerGraphicsDevice.query,
      REagerGraphicsDevice.callSlave, h3', h3]⟩
  | setMode =>
    obtain ⟨h1, h2, h3, -⟩ := getSlave_facts _ h
    exact ⟨h1, by simp [REagerGraphicsDevice.call, REagerGraphicsDevice.setMode,
      DeviceCall.isRescale, h2], by simp [REagerGraphicsDevice.call,
      REagerGraphicsDevice.setMode, h3]⟩
  | replay =>
    obtain ⟨h1, h2, h3, -⟩ := getSlave_facts _ h
    exact ⟨h1, by simp [REagerGraphicsDevice.call, REagerGraphicsDevice.replay,
      DeviceCall.isRescale, h2], by simp [REagerGraphicsDevice.call,
      REagerGraphicsDevice.replay, h3]⟩
  | close =>
    refine ⟨?_, rfl, rfl⟩
    intro slave hslave
    simp [REagerGraphicsDevice.call, REagerGraphicsDevice.close,
      REagerGraphicsDevice.shutdownSlaveDevice] at hslave
  | dump =>
    refine ⟨?_, rfl, rfl⟩
    intro slave hslave
    simp [REagerGraphicsDevice.call, REagerGraphicsDevice.dump,
      REagerGraphicsDevice.shutdownSlaveDevice] at hslave
  | rescale w hgt =>
    refine ⟨?_, rfl, rfl⟩
    intro slave hslave
    simp [REagerGraphicsDevice.call, REagerGraphicsDevice.rescale,
      REagerGraphicsDevice.shutdownSlaveDevice] at hslave
  | logicScreenParameters => exact ⟨h, rfl, rfl⟩
  | isBlank => exact ⟨h, rfl, rfl⟩
  | clone => exact ⟨h, rfl, rfl⟩

/-- A sequence of method calls keeps the slave current and adds the number of `rescale`
calls to the version. -/
theorem run_facts {D : Type} (calls : List (DeviceCall D)) :
    ∀ d : REagerGraphicsDevice D, d.SlaveCurrent →
      (d.run calls).SlaveCurrent ∧
      (d.run calls).snapshotVersion = d.snapshotVersion + calls.countP DeviceCall.isRescale ∧
      (d.run calls).snapshotPath = d.snapshotPath := by
  induction calls with
  | nil => intro d h; exact ⟨h, rfl, rfl⟩
  | cons c rest ih =>
    intro d h
    obtain ⟨h1, h2, h3⟩ := call_facts d c h
    obtain ⟨h1', h2', h3'⟩ := ih (d.call c) h1
    refine ⟨h1', ?_, ?_⟩
    · show ((d.call c).run rest).snapshotVersion = _
      rw [h2', h2, List.countP_cons]
      omega
    · show ((d.call c).run rest).snapshotPath = _
      rw [h3', h3]

/-- The constructor ends with version 0 and a slave created for it. -/
theorem create_facts {D : Type} (snapshotPath : String) (parameters : ScreenParameters D) :
    (REagerGraphicsDevice.create snapshotPath parameters).SlaveCurrent ∧
    (REagerGraphicsDevice.create snapshotPath parameters).snapshotVersion = 0 ∧
    (REagerGraphicsDevice.create snapshotPath parameters).snapshotPath = snapshotPath := by
  refine ⟨?_, rfl, rfl⟩
  intro slave hslave
  simp [REagerGraphicsDevice.create, REagerGraphicsDevice.getSlave] at hslave
  exact hslave.symm

/-- C20: after any sequence of method calls on a freshly constructed device,
`snapshotVersion` is the number of `rescale` calls made, and a slave device, when there is
one, was created with the file name `snapshotPath + "_" + snapshotVersion + ".png"` and
with the current parameters. `rescale` discards the slave, stores the new size and adds
one to the version; `dump` and `close` discard the slave and leave the version alone. -/
theorem snapshotVersion_counts_rescales {D : Type} (snapshotPath : String)
    (parameters : ScreenParameters D) (calls : List (DeviceCall D)) :
    ((REagerGraphicsDevice.create snapshotPath parameters).run calls).snapshotVersion
      = calls.countP DeviceCall.isRescale ∧
    ((REagerGraphicsDevice.create snapshotPath parameters).run calls).snapshotPath
      = snapshotPath ∧
    (∀ slave : SlaveDevice D,
      ((REagerGraphicsDevice.create snapshotPath parameters).run calls).slaveDevice
        = some slave →
      slave.fileName
        = snapshotPath ++ "_"
          ++ toString
            ((REagerGraphicsDevice.create snapshotPath parameters).run calls).snapshotVersion
          ++ ".png" ∧
      slave.parameters
        = ((REagerGraphicsDevice.create snapshotPath parameters).run calls).parameters) ∧
    (∀ (d : REagerGraphicsDevice D) (newWidth newHeight : D),
      (d.rescale newWidth newHeight).slaveDevice = none ∧
      (d.rescale newWidth newHeight).snapshotVersion = d.snapshotVersion + 1 ∧
      (d.rescale newWidth newHeight).parameters
        = { size := { width := newWidth, height := newHeight }
            resolution := d.parameters.resolution }) ∧
    (∀ d : REagerGraphicsDevice D,
      d.dump.2.slaveDevice = none ∧ d.dump.2.snapshotVersion = d.snapshotVersion ∧
      d.close.slaveDevice = none ∧ d.close.snapshotVersion = d.snapshotVersion) := by
  obtain ⟨hc1, hc2, hc3⟩ := create_facts snapshotPath parameters
  obtain ⟨h1, h2, h3⟩ := run_facts calls _ hc1
  rw [hc2] at h2
  rw [hc3] at h3
  refine ⟨by rw [h2]; omega, h3, ?_, ?_, ?_⟩
  · intro slave hslave
    have := h1 slave hslave
    subst this
    simp [REagerGraphicsDevice.initializeSlaveDevice, h3]
  · intro d newWidth newHeight
    exact ⟨rfl, rfl, rfl⟩
  · intro d
    exact ⟨rfl, rfl, rfl, rfl⟩

/-- A run of the sample device: two `rescale` calls among six calls leave version 2 and a
slave created for version 2 with the last size. -/
theorem snapshotVersion_sample :
    (sampleDevice.run [.draw, .rescale 800 600, .query, .dump, .rescale 1 2, .setMode])
      = { snapshotPath := "/tmp/snap"
          parameters := { size := { width := 1, height := 2 }, resolution := 72 }
          slaveDevice :=
            some
              { fileName := "/tmp/snap_2.png"
                parameters := { size := { width := 1, height := 2 }, resolution := 72 } }
          isDeviceBlank := false
          snapshotVersion := 2 } := by
  decide

end Rkernel
